import Mathlib

/-! # ssssort benchmark harness (`benchmark.h`)

A shallow embedding of the measurement and statistics engine of `benchmark.h`:
the running-statistics accumulator `statistics`, the trial loop `run`, and the
per-size driver `benchmark`.

Conventions of the embedding.

* `double` values are elements of an ordered field `τ` (exact arithmetic); the
  library function `sqrt` is a parameter.
* `size_t` values are natural numbers; the width of the type is visible in
  `benchmark.h` in the sentinel `static_cast<size_t>(-1)`, which is
  `SIZE_MAX = 2^64 - 1`, and in the conversion of the `int` value `1 << log_size`
  to `size_t` in the sweeps (`shift_one`). The counters `count`, `it` and
  `log_size` only ever go up by one, so they stay below `2^64` in every
  execution that ends.
* A buffer `T*` is a function from indices to elements; the elements of `T`
  are linearly ordered, and `0` is the element whose bytes are all zero.
* `new T[size]` throws for every `size` above `PTRDIFF_MAX`: an element has at
  least one byte, and no array has more than `PTRDIFF_MAX` bytes. For the other
  sizes the allocation is taken to succeed: the size of an element and the
  exhaustion of the free store are not modelled.
* The state of the rest of the program (whatever a generator or a sorter may
  read or change besides its buffers) is a value of a type `σ`, and the wall
  clock is a value of `τ` that every step advances by the time it takes.
-/

namespace Benchmark

/-! ## `struct statistics` -/

/-- The accumulator `struct statistics`: `mean`, `nvar` and `count`. -/
structure statistics (τ : Type) where
  mean : τ
  nvar : τ
  count : Nat

section StatisticsDefs

variable {τ : Type} [Zero τ] [Add τ] [Sub τ] [Mul τ] [Div τ] [NatCast τ]

/-- The constructor `statistics() : mean(0.0), nvar(0.0), count(0)`. -/
def statistics.new : statistics τ :=
  { mean := 0, nvar := 0, count := 0 }

/-- The method `void push(double t)`. -/
def statistics.push (s : statistics τ) (t : τ) : statistics τ :=
  let count := s.count + 1
  if count = 1 then
    { mean := t, nvar := s.nvar, count := count }
  else
    let oldmean := s.mean
    let mean := s.mean + (t - oldmean) / (count : τ)
    let nvar := s.nvar + (t - oldmean) * (t - mean)
    { mean := mean, nvar := nvar, count := count }

/-- The method `double avg()`. -/
def statistics.avg (s : statistics τ) : τ :=
  s.mean

/-- The method `double stddev()`; `none` is the failure of `assert(count > 1)`. -/
def statistics.stddev (sqrt : τ → τ) (s : statistics τ) : Option τ :=
  if s.count > 1 then
    some (sqrt (s.nvar / ((s.count - 1 : Nat) : τ)))
  else
    none

/-- Pushing the samples of a list, first to last, into an accumulator. -/
def statistics.push_all (s : statistics τ) (ts : List τ) : statistics τ :=
  ts.foldl statistics.push s

end StatisticsDefs

/-! ## Buffers and the collaborators of the harness -/

/-- A buffer `T*`: the element stored at each index. -/
abbrev Buf (T : Type) := Nat → T

/-- The elements `buf[0], ..., buf[size-1]`. -/
def Buf.take {T : Type} (buf : Buf T) (size : Nat) : List T :=
  (List.range size).map buf

/-- The call `std::copy(src, src + size, dst)`: the new content of `dst`. -/
def std_copy {T : Type} (src : Buf T) (size : Nat) (dst : Buf T) : Buf T :=
  fun i => if i < size then src i else dst i

/-- The call `memset(out, 0, size * sizeof(T))`: the new content of `out`. -/
def memset_zero {T : Type} [Zero T] (out : Buf T) (size : Nat) : Buf T :=
  fun i => if i < size then 0 else out i

/-- The call `std::is_sorted(buf, buf + size)` of the C++ standard library: no
element of the range is smaller than the element before it. -/
def is_sorted {T : Type} [LinearOrder T] (buf : Buf T) (size : Nat) : Bool :=
  (List.range (size - 1)).all fun i => !decide (buf (i + 1) < buf i)

/-- What one call `sorter(data, out, size)` leaves behind: the state of the
rest of the program, both buffers, and the wall-clock time the call took. -/
structure SortResult (σ T τ : Type) where
  env : σ
  data : Buf T
  out : Buf T
  elapsed : τ

/-- A callable `Sorter`: any function of the program state `σ`, the two
buffers and the size. -/
abbrev Sorter (σ T τ : Type) := σ → Buf T → Buf T → Nat → SortResult σ T τ

/-- What one call of an in-place sort such as `std::sort(data, data + size)`
leaves behind. -/
structure InPlaceResult (σ T τ : Type) where
  env : σ
  data : Buf T
  elapsed : τ

/-- An in-place sort `(data, data + size)`. -/
abbrev InPlaceSorter (σ T τ : Type) := σ → Buf T → Nat → InPlaceResult σ T τ

/-- What one call `generator(data, size)` leaves behind; `size` is the value it
returns. -/
structure GenResult (σ T τ : Type) where
  env : σ
  data : Buf T
  size : Nat
  elapsed : τ

/-- A callable `Generator`. -/
abbrev Generator (σ T τ : Type) := σ → Buf T → Nat → GenResult σ T τ

/-- Modelled from the spec: the wall-clock timer `Timer` of `timer.h`, which is
not among the sources ("capability: reset, and return elapsed time in a numeric
unit"). A timer remembers the clock value at its last reset. -/
structure Timer (τ : Type) where
  start : τ

/-- Modelled from the spec: constructing a `Timer` starts it. -/
def Timer.new {τ : Type} (now : τ) : Timer τ :=
  { start := now }

/-- Modelled from the spec: `Timer::reset()`. -/
def Timer.reset {τ : Type} (_tm : Timer τ) (now : τ) : Timer τ :=
  { start := now }

/-- Modelled from the spec: `Timer::get()`, the time elapsed since the last
reset. -/
def Timer.get {τ : Type} [Sub τ] (tm : Timer τ) (now : τ) : τ :=
  now - tm.start

/-- Modelled from the spec: `Timer::get_and_reset()`. -/
def Timer.get_and_reset {τ : Type} [Sub τ] (tm : Timer τ) (now : τ) : τ × Timer τ :=
  (tm.get now, tm.reset now)

/-- Modelled from the spec: the wall-clock time taken by the steps of the
harness itself (buffer copies, zero-fills, the operations of the progress bar
of `progress_bar.h`, the verification pass), each as a function of the number
of elements it touches. -/
structure Costs (τ : Type) where
  copy : Nat → τ
  memset : Nat → τ
  bar : τ
  verify : Nat → τ

/-- The observable steps of `run`, in the order they happen. A `sorter` event
records the buffers the call received, the size, the buffers it left and the
time it took. -/
inductive Event (T τ : Type) where
  | bar_create (steps : Nat) (algoname : String)
  | bar_advance
  | bar_undraw
  | restore
  | zero_out
  | timer_reset
  | sorter (data out : Buf T) (size : Nat) (data_after out_after : Buf T) (elapsed : τ)
  | push (t : τ)

/-- One call `sorter(data, out, size)` as a trace records it. -/
structure Call (T τ : Type) where
  data : Buf T
  out : Buf T
  size : Nat
  data_after : Buf T
  out_after : Buf T
  elapsed : τ

/-- The call an event stands for, when it is a `sorter` event. -/
def Event.as_call {T τ : Type} : Event T τ → Option (Call T τ)
  | Event.sorter d o n d2 o2 t =>
    some { data := d, out := o, size := n, data_after := d2, out_after := o2, elapsed := t }
  | _ => none

/-- The sample an event pushes, when it is a `push` event. -/
def Event.as_push {T τ : Type} : Event T τ → Option τ
  | Event.push t => some t
  | _ => none

/-- The sorter calls of a trace, in order. -/
def calls {T τ : Type} (trace : List (Event T τ)) : List (Call T τ) :=
  trace.filterMap Event.as_call

/-- The samples pushed into the statistics in a trace, in order. -/
def pushed {T τ : Type} (trace : List (Event T τ)) : List τ :=
  trace.filterMap Event.as_push

/-! ## `run` -/

/-- The variables of `run` together with the state of the rest of the program
(`env`), the wall clock and the trace of steps taken so far. -/
structure RunState (σ T τ : Type) where
  env : σ
  clock : τ
  data : Buf T
  copy : Buf T
  out : Buf T
  stats : statistics τ
  timer : Timer τ
  trace : List (Event T τ)

section RunDefs

variable {σ T τ : Type} [Zero T]
variable [Zero τ] [Add τ] [Sub τ] [Mul τ] [Div τ] [NatCast τ]

/-- The call `sorter(data, out, size)`. -/
def call_sorter (sorter : Sorter σ T τ) (size : Nat) (st : RunState σ T τ) :
    RunState σ T τ :=
  let r := sorter st.env st.data st.out size
  { st with
    env := r.env, data := r.data, out := r.out, clock := st.clock + r.elapsed,
    trace := st.trace ++ [Event.sorter st.data st.out size r.data r.out r.elapsed] }

/-- The step `++bar`. -/
def bar_advance (c : Costs τ) (st : RunState σ T τ) : RunState σ T τ :=
  { st with clock := st.clock + c.bar, trace := st.trace ++ [Event.bar_advance] }

/-- The step `std::copy(copy, copy+size, data)`. -/
def restore_data (c : Costs τ) (size : Nat) (st : RunState σ T τ) : RunState σ T τ :=
  { st with
    data := std_copy st.copy size st.data, clock := st.clock + c.copy size,
    trace := st.trace ++ [Event.restore] }

/-- The step `if (reset_out) memset(out, 0, size * sizeof(T))`. -/
def reset_output (c : Costs τ) (size : Nat) (reset_out : Bool) (st : RunState σ T τ) :
    RunState σ T τ :=
  if reset_out then
    { st with
      out := memset_zero st.out size, clock := st.clock + c.memset size,
      trace := st.trace ++ [Event.zero_out] }
  else
    st

/-- The step `timer.reset()`. -/
def reset_timer (st : RunState σ T τ) : RunState σ T τ :=
  { st with timer := st.timer.reset st.clock, trace := st.trace ++ [Event.timer_reset] }

/-- The step `stats.push(timer.get())`. -/
def push_reading (st : RunState σ T τ) : RunState σ T τ :=
  { st with
    stats := st.stats.push (st.timer.get st.clock),
    trace := st.trace ++ [Event.push (st.timer.get st.clock)] }

/-- The body of the loop `for (size_t it = 0; it < iterations; ++it)`. -/
def trial (c : Costs τ) (size : Nat) (sorter : Sorter σ T τ) (reset_out : Bool)
    (st : RunState σ T τ) : RunState σ T τ :=
  bar_advance c
    (push_reading
      (call_sorter sorter size
        (reset_timer
          (reset_output c size reset_out
            (restore_data c size st)))))

/-- The sorter call of the trial that starts in state `st`. -/
def trial_call (size : Nat) (sorter : Sorter σ T τ) (reset_out : Bool)
    (st : RunState σ T τ) : Call T τ :=
  let data := std_copy st.copy size st.data
  let out := if reset_out then memset_zero st.out size else st.out
  let r := sorter st.env data out size
  { data := data, out := out, size := size, data_after := r.data, out_after := r.out,
    elapsed := r.elapsed }

/-- The recorded call `cl` is a call of `sorter`: in some state of the rest of
the program, `sorter` turns the buffers received into the buffers left. -/
def Call.made_by (sorter : Sorter σ T τ) (cl : Call T τ) : Prop :=
  ∃ env : σ,
    cl.data_after = (sorter env cl.data cl.out cl.size).data ∧
    cl.out_after = (sorter env cl.data cl.out cl.size).out ∧
    cl.elapsed = (sorter env cl.data cl.out cl.size).elapsed

/-- The loop `for (size_t it = 0; it < iterations; ++it)`. -/
def trials (c : Costs τ) (size : Nat) (sorter : Sorter σ T τ) (reset_out : Bool) :
    Nat → RunState σ T τ → RunState σ T τ
  | 0, st => st
  | k + 1, st => trials c size sorter reset_out k (trial c size sorter reset_out st)

/-- The function `run`. The result is the final state; the value `run`
returns is its field `stats`. -/
def run (c : Costs τ) (env : σ) (clock : τ) (data copy out : Buf T) (size : Nat)
    (sorter : Sorter σ T τ) (iterations : Nat) (algoname : String) (reset_out : Bool) :
    RunState σ T τ :=
  -- progress_bar bar(iterations + 1, algoname);
  let st : RunState σ T τ :=
    { env := env, clock := clock + c.bar, data := data, copy := copy, out := out,
      stats := statistics.new, timer := Timer.new clock,
      trace := [Event.bar_create (iterations + 1) algoname] }
  -- warmup
  let st := call_sorter sorter size st
  let st := bar_advance c st
  -- statistics stats; Timer timer;
  let st := { st with stats := statistics.new, timer := Timer.new st.clock }
  let st := trials c size sorter reset_out iterations st
  -- bar.undraw();
  { st with clock := st.clock + c.bar, trace := st.trace ++ [Event.bar_undraw] }

end RunDefs

/-! ## `benchmark` -/

/-- The constant `const bool debug = false`. -/
def debug : Bool := false

/-- The value `static_cast<size_t>(-1)` of a 64-bit `size_t`. -/
def SIZE_MAX : Nat := 2 ^ 64 - 1

/-- The block `// Number of iterations` of `benchmark`: the value of
`iterations` after it, from the value of `size` and of `iterations` before. -/
def number_of_iterations (size iterations : Nat) : Nat :=
  if iterations = SIZE_MAX then
    if size < 1 <<< 16 then 1000
    else if size < 1 <<< 18 then 500
    else if size < 1 <<< 20 then 250
    else if size < 1 <<< 24 then 100
    else 50
  else
    iterations

/-- One line `RESULT algo=... name=... size=... iters=... time=... stddev=...
t_gen=... t_check=... ok=...` of the output. -/
structure Record (τ : Type) where
  algo : String
  name : String
  size : Nat
  iters : Nat
  time : τ
  stddev : τ
  t_gen : τ
  t_check : τ
  ok : Bool

/-- A line written to `std::cerr`. -/
inductive ErrLine (T : Type) where
  | not_sorted
  | err_at (pos : Nat) (expected got : T)

/-- The indeterminate contents of the three arrays `new T[size]`. -/
structure Fresh (T : Type) where
  data : Buf T
  out : Buf T
  copy : Buf T

/-- The state `benchmark` leaves behind. `ret` is the value it returns, `none`
when it does not return: an `assert` stopped the program, or one of the three
`new T[size]` threw, in which case `thrown` is set. `cout`, `cerr` and
`stat_stream` are what has been written to the three streams (`stat_stream` is
`none` for `nullptr`); the other fields are the values of the local
variables. -/
structure BenchResult (σ T τ : Type) where
  env : σ
  clock : τ
  cout : List (Record τ)
  cerr : List (ErrLine T)
  stat_stream : Option (List (Record τ))
  size : Nat
  iterations : Nat
  t_generate : τ
  ssssort_run : RunState σ T τ
  stdsort_run : RunState σ T τ
  incorrect : Bool
  t_verify : τ
  ret : Option Nat
  thrown : Bool

/-- The largest number of bytes of an array, `PTRDIFF_MAX` of a 64-bit
platform. An element has at least one byte, so `new T[size]` throws for every
`size` above it, whatever the element type and the memory of the machine. -/
def PTRDIFF_MAX : Nat := 2 ^ 63 - 1

section BenchmarkDefs

variable {σ T τ : Type} [Zero T] [LinearOrder T]
variable [Zero τ] [Add τ] [Sub τ] [Mul τ] [Div τ] [NatCast τ]

/-- The body of the loop `for (size_t i = 0; i < size; ++i)` of the
verification, on the pair (`incorrect`, lines written to `std::cerr`). -/
def verify_step (out data : Buf T) (acc : Bool × List (ErrLine T)) (i : Nat) :
    Bool × List (ErrLine T) :=
  let incorrect := acc.1 || decide (out i ≠ data i)
  if debug && decide (out i ≠ data i) then
    (incorrect, acc.2 ++ [ErrLine.err_at i (data i) (out i)])
  else
    (incorrect, acc.2)

/-- The block `// verify` of `benchmark`: the final value of `incorrect` and
the lines written to `std::cerr`. -/
def verify (out data : Buf T) (size : Nat) (cerr : List (ErrLine T)) :
    Bool × List (ErrLine T) :=
  let incorrect := !is_sorted out size
  let cerr := if incorrect then cerr ++ [ErrLine.not_sorted] else cerr
  (List.range size).foldl (verify_step out data) (incorrect, cerr)

/-- The lambda `[](T* data, T* out, size_t size) { ssssort::ssssort(data, data +
size, out); }`; `ssssort.h` is not among the sources, so the sorter is a
parameter. -/
def ssssort_lambda (ssssort : Sorter σ T τ) : Sorter σ T τ :=
  fun env data out size => ssssort env data out size

/-- The lambda `[](T* data, T* /*ignored*/, size_t size) { std::sort(data, data +
size); }`: the second buffer is not touched. -/
def stdsort_lambda (std_sort : InPlaceSorter σ T τ) : Sorter σ T τ :=
  fun env data out size =>
    let r := std_sort env data size
    { env := r.env, data := r.data, out := out, elapsed := r.elapsed }

/-- The function `benchmark` from the call of the generator on (lines 109 to
184), once its three `new T[size]` have returned arrays with the contents
`fresh`. The parameters `c`, `sqrt`, `ssssort` and `std_sort` stand for the
timing of the harness and for the library functions it calls; `env`, `clock`,
`cout` and `cerr` for the state of the program when it is called. -/
def benchmark_allocated (c : Costs τ) (sqrt : τ → τ) (ssssort : Sorter σ T τ)
    (std_sort : InPlaceSorter σ T τ) (fresh : Fresh T)
    (env : σ) (clock : τ) (cout : List (Record τ)) (cerr : List (ErrLine T))
    (size iterations : Nat) (generator : Generator σ T τ) (name : String)
    (stat_stream : Option (List (Record τ))) : BenchResult σ T τ :=
  let data := fresh.data
  let out := fresh.out
  let copy := fresh.copy
  let timer : Timer τ := Timer.new clock
  -- Generate random numbers as input
  let g := generator env data size
  let env := g.env
  let data := g.data
  let size := g.size
  let clock := clock + g.elapsed
  -- create a copy to be able to sort it multiple times
  let copy := std_copy data size copy
  let clock := clock + c.copy size
  let t_generate := (timer.get_and_reset clock).1
  let timer := (timer.get_and_reset clock).2
  -- Number of iterations
  let iterations := number_of_iterations size iterations
  -- 1. Super Scalar Sample Sort
  let t_ssssort :=
    run c env clock data copy out size (ssssort_lambda ssssort) iterations "ssssort: " true
  -- 2. std::sort
  let t_stdsort :=
    run c t_ssssort.env t_ssssort.clock t_ssssort.data copy t_ssssort.out size
      (stdsort_lambda std_sort) iterations "std::sort: " false
  let env := t_stdsort.env
  let data := t_stdsort.data
  let out := t_stdsort.out
  let clock := t_stdsort.clock
  -- verify
  let timer := timer.reset clock
  let v := verify out data size cerr
  let incorrect := v.1
  let cerr := v.2
  let clock := clock + c.verify size
  let t_verify := (timer.get_and_reset clock).1
  match t_ssssort.stats.stddev sqrt, t_stdsort.stats.stddev sqrt with
  | some sd_ssssort, some sd_stdsort =>
    let result_str : List (Record τ) :=
      [ { algo := "ssssort", name := name, size := size, iters := iterations,
          time := t_ssssort.stats.avg, stddev := sd_ssssort, t_gen := t_generate,
          t_check := t_verify, ok := !incorrect },
        { algo := "stdsort", name := name, size := size, iters := iterations,
          time := t_stdsort.stats.avg, stddev := sd_stdsort, t_gen := t_generate,
          t_check := 0, ok := true } ]
    { env := env, clock := clock, cout := cout ++ result_str, cerr := cerr,
      stat_stream := stat_stream.map (fun f => f ++ result_str),
      size := size, iterations := iterations, t_generate := t_generate,
      ssssort_run := t_ssssort, stdsort_run := t_stdsort, incorrect := incorrect,
      t_verify := t_verify, ret := some size, thrown := false }
  | _, _ =>
    { env := env, clock := clock, cout := cout, cerr := cerr, stat_stream := stat_stream,
      size := size, iterations := iterations, t_generate := t_generate,
      ssssort_run := t_ssssort, stdsort_run := t_stdsort, incorrect := incorrect,
      t_verify := t_verify, ret := none, thrown := false }

/-- The value of the fields `ssssort_run` and `stdsort_run` of a call in which
`run` was never called: nothing has been traced or pushed. -/
def no_run (env : σ) (clock : τ) : RunState σ T τ :=
  { env := env, clock := clock, data := fun _ => 0, copy := fun _ => 0, out := fun _ => 0,
    stats := statistics.new, timer := Timer.new clock, trace := [] }

/-- The state `benchmark` leaves behind when `new T[size]` throws, in the first
statement of the function: the exception leaves `benchmark`, which has called
no generator and no sorter and has written nothing. `size` and `iterations` are
as they were passed; the other local variables were never set, and their
fields hold the empty run `no_run`, the time zero and a clear flag. -/
def benchmark_thrown (env : σ) (clock : τ) (cout : List (Record τ))
    (cerr : List (ErrLine T)) (size iterations : Nat)
    (stat_stream : Option (List (Record τ))) : BenchResult σ T τ :=
  { env := env, clock := clock, cout := cout, cerr := cerr, stat_stream := stat_stream,
    size := size, iterations := iterations, t_generate := 0,
    ssssort_run := no_run env clock, stdsort_run := no_run env clock, incorrect := false,
    t_verify := 0, ret := none, thrown := true }

/-- The function `benchmark`. Its first statement allocates the three arrays
`data`, `out` and `copy` with `new T[size]`, which throws when `size` elements
are more than an array can hold; otherwise the arrays have the contents `fresh`
and the function goes on as `benchmark_allocated`. -/
def benchmark (c : Costs τ) (sqrt : τ → τ) (ssssort : Sorter σ T τ)
    (std_sort : InPlaceSorter σ T τ) (fresh : Fresh T)
    (env : σ) (clock : τ) (cout : List (Record τ)) (cerr : List (ErrLine T))
    (size iterations : Nat) (generator : Generator σ T τ) (name : String)
    (stat_stream : Option (List (Record τ))) : BenchResult σ T τ :=
  -- T *data = new T[size], *out = new T[size], *copy = new T[size];
  if size ≤ PTRDIFF_MAX then
    benchmark_allocated c sqrt ssssort std_sort fresh env clock cout cerr size iterations
      generator name stat_stream
  else
    benchmark_thrown env clock cout cerr size iterations stat_stream

end BenchmarkDefs

/-! ## The sweeps `benchmark_generator` and `sized_benchmark_generator` -/

/-- The value of `size_t size = 1 << log_size`. The literal `1` is an `int`, 32
bits wide where `size_t` has 64. Up to `log_size = 30` the shift gives
`2^log_size`. At `log_size = 31` it gives the `int` value `-2^31`, which the
conversion to `size_t` turns into `2^64 - 2^31`. From `log_size = 32` on the
behaviour of the shift is undefined, which is `none`. -/
def shift_one (log_size : Nat) : Option Nat :=
  if log_size < 31 then some (1 <<< log_size)
  else if log_size = 31 then some (2 ^ 64 - 2 ^ 31)
  else none

/-- The default value `27` of the parameter `max_log_size` of both sweeps. -/
def default_max_log_size : Nat := 27

/-- How a sweep ended: its loop ran to its end or left by `break` and the
function returned (`finished`), the program was stopped by an `assert` or by an
exception nobody catches (`stopped`), or it reached a step whose behaviour is
undefined (`undefined`). -/
inductive SweepStatus where
  | finished
  | stopped
  | undefined
  deriving DecidableEq

/-- What a loop does after a call of `benchmark`: go round again (`next`), leave
by `break` (`leave`), or nothing, as the program was stopped (`stop`). -/
inductive LoopStep where
  | next
  | leave
  | stop
  deriving DecidableEq

/-- The state a sweep leaves behind: the state of the program and of the three
streams, the result of the warm-up call of `benchmark`, and for each call of
`benchmark` in the loop, in order, the requested size and the result. -/
structure SweepResult (σ T τ : Type) where
  env : σ
  clock : τ
  cout : List (Record τ)
  cerr : List (ErrLine T)
  stat_stream : Option (List (Record τ))
  warmup : BenchResult σ T τ
  measured : List (Nat × BenchResult σ T τ)
  status : SweepStatus

/-- The step of the loop of `benchmark_generator` after the call of `benchmark`,
whose value is not used. -/
def unconditional_step (ret : Option Nat) : LoopStep :=
  match ret with
  | none => LoopStep.stop
  | some _ => LoopStep.next

/-- The step of the loop of `sized_benchmark_generator` after the call
`auto last_size = benchmark<T>(...)`: `if (last_size < size) break;`. -/
def sized_step (ret : Option Nat) (size : Nat) : LoopStep :=
  match ret with
  | none => LoopStep.stop
  | some last_size => if last_size < size then LoopStep.leave else LoopStep.next

section SweepDefs

variable {σ T τ : Type} [Zero T] [LinearOrder T]
variable [Zero τ] [Add τ] [Sub τ] [Mul τ] [Div τ] [NatCast τ]

/-- The lambda `wrapped_generator` of `benchmark_generator`:
`generator(data, size); return size;`. -/
def wrapped_generator (generator : Generator σ T τ) : Generator σ T τ :=
  fun env data size =>
    let g := generator env data size
    { env := g.env, data := g.data, size := size, elapsed := g.elapsed }

/-- The state of a sweep after a call of `benchmark` in its loop. -/
def sweep_record (size : Nat) (b : BenchResult σ T τ) (st : SweepResult σ T τ) :
    SweepResult σ T τ :=
  { st with
    env := b.env, clock := b.clock, cout := b.cout, cerr := b.cerr,
    stat_stream := b.stat_stream, measured := st.measured ++ [(size, b)] }

/-- The state of a sweep after its warm-up call of `benchmark`, which is given
no stream: the stream of the sweep is as it was. -/
def sweep_start (w : BenchResult σ T τ) (stat_stream : Option (List (Record τ))) :
    SweepResult σ T τ :=
  { env := w.env, clock := w.clock, cout := w.cout, cerr := w.cerr,
    stat_stream := stat_stream, warmup := w, measured := [],
    status := if w.ret = none then SweepStatus.stopped else SweepStatus.finished }

/-- The loop `for (size_t log_size = 10; log_size < max_log_size; ++log_size)`
of `benchmark_generator`, with `fuel` rounds left to go. The new arrays of the
call at `log_size` hold `fresh log_size`. -/
def benchmark_generator_loop (c : Costs τ) (sqrt : τ → τ) (ssssort : Sorter σ T τ)
    (std_sort : InPlaceSorter σ T τ) (fresh : Nat → Fresh T)
    (generator : Generator σ T τ) (name : String) (iterations : Nat) :
    Nat → Nat → SweepResult σ T τ → SweepResult σ T τ
  | 0, _, st => st
  | fuel + 1, log_size, st =>
    match shift_one log_size with
    | none => { st with status := SweepStatus.undefined }
    | some size =>
      let b := benchmark c sqrt ssssort std_sort (fresh log_size) st.env st.clock st.cout
        st.cerr size iterations (wrapped_generator generator) name st.stat_stream
      match unconditional_step b.ret with
      | LoopStep.next =>
        benchmark_generator_loop c sqrt ssssort std_sort fresh generator name iterations
          fuel (log_size + 1) (sweep_record size b st)
      | LoopStep.leave => sweep_record size b st
      | LoopStep.stop => { sweep_record size b st with status := SweepStatus.stopped }

/-- The function `benchmark_generator`. -/
def benchmark_generator (c : Costs τ) (sqrt : τ → τ) (ssssort : Sorter σ T τ)
    (std_sort : InPlaceSorter σ T τ) (fresh : Nat → Fresh T)
    (env : σ) (clock : τ) (cout : List (Record τ)) (cerr : List (ErrLine T))
    (generator : Generator σ T τ) (name : String) (iterations : Nat)
    (stat_stream : Option (List (Record τ))) (max_log_size : Nat) : SweepResult σ T τ :=
  -- warmup
  let w := benchmark c sqrt ssssort std_sort (fresh 0) env clock cout cerr (1 <<< 10) 10
    (wrapped_generator generator) "warmup" none
  match w.ret with
  | none => sweep_start w stat_stream
  | some _ =>
    benchmark_generator_loop c sqrt ssssort std_sort fresh generator name iterations
      (max_log_size - 10) 10 (sweep_start w stat_stream)

/-- The loop `for (size_t log_size = 10; log_size < max_log_size; ++log_size)`
of `sized_benchmark_generator`, with `fuel` rounds left to go. -/
def sized_benchmark_generator_loop (c : Costs τ) (sqrt : τ → τ) (ssssort : Sorter σ T τ)
    (std_sort : InPlaceSorter σ T τ) (fresh : Nat → Fresh T)
    (generator : Generator σ T τ) (name : String) (iterations : Nat) :
    Nat → Nat → SweepResult σ T τ → SweepResult σ T τ
  | 0, _, st => st
  | fuel + 1, log_size, st =>
    match shift_one log_size with
    | none => { st with status := SweepStatus.undefined }
    | some size =>
      let b := benchmark c sqrt ssssort std_sort (fresh log_size) st.env st.clock st.cout
        st.cerr size iterations generator name st.stat_stream
      match sized_step b.ret size with
      | LoopStep.next =>
        sized_benchmark_generator_loop c sqrt ssssort std_sort fresh generator name
          iterations fuel (log_size + 1) (sweep_record size b st)
      | LoopStep.leave => sweep_record size b st
      | LoopStep.stop => { sweep_record size b st with status := SweepStatus.stopped }

/-- The function `sized_benchmark_generator`. -/
def sized_benchmark_generator (c : Costs τ) (sqrt : τ → τ) (ssssort : Sorter σ T τ)
    (std_sort : InPlaceSorter σ T τ) (fresh : Nat → Fresh T)
    (env : σ) (clock : τ) (cout : List (Record τ)) (cerr : List (ErrLine T))
    (generator : Generator σ T τ) (name : String) (iterations : Nat)
    (stat_stream : Option (List (Record τ))) (max_log_size : Nat) : SweepResult σ T τ :=
  -- warmup
  let w := benchmark c sqrt ssssort std_sort (fresh 0) env clock cout cerr (1 <<< 10) 10
    generator "warmup" none
  match w.ret with
  | none => sweep_start w stat_stream
  | some _ =>
    sized_benchmark_generator_loop c sqrt ssssort std_sort fresh generator name iterations
      (max_log_size - 10) 10 (sweep_start w stat_stream)

/-- The shape the loops of the two sweeps share: `step` is what the loop does
with the value `benchmark` returns. -/
def sweep_loop (c : Costs τ) (sqrt : τ → τ) (ssssort : Sorter σ T τ)
    (std_sort : InPlaceSorter σ T τ) (fresh : Nat → Fresh T)
    (step : Option Nat → Nat → LoopStep)
    (generator : Generator σ T τ) (name : String) (iterations : Nat) :
    Nat → Nat → SweepResult σ T τ → SweepResult σ T τ
  | 0, _, st => st
  | fuel + 1, log_size, st =>
    match shift_one log_size with
    | none => { st with status := SweepStatus.undefined }
    | some size =>
      let b := benchmark c sqrt ssssort std_sort (fresh log_size) st.env st.clock st.cout
        st.cerr size iterations generator name st.stat_stream
      match step b.ret size with
      | LoopStep.next =>
        sweep_loop c sqrt ssssort std_sort fresh step generator name iterations
          fuel (log_size + 1) (sweep_record size b st)
      | LoopStep.leave => sweep_record size b st
      | LoopStep.stop => { sweep_record size b st with status := SweepStatus.stopped }

end SweepDefs

/-! ## Trace shapes -/

/-- The events of one measured trial whose sorter call is `cl`, in order:
restore, zero-fill when `reset_out` is set, timer reset, the call, the push of
the timer reading, the advance of the progress bar. -/
def trial_block {T τ : Type} (reset_out : Bool) (cl : Call T τ) (reading : τ) :
    List (Event T τ) :=
  [Event.restore] ++ (if reset_out then [Event.zero_out] else []) ++
    [Event.timer_reset,
     Event.sorter cl.data cl.out cl.size cl.data_after cl.out_after cl.elapsed,
     Event.push reading, Event.bar_advance]

/-- The call `b` is the call of a measured trial that comes right after the
call `a`: it receives the working buffer restored from `copy` and the output
buffer as `a` left it, zero-filled when `reset_out` is set. -/
def follows {T τ : Type} [Zero T] (copy : Buf T) (size : Nat) (reset_out : Bool)
    (a b : Call T τ) : Prop :=
  b.size = size ∧ b.data = std_copy copy size a.data_after ∧
    b.out = (if reset_out then memset_zero a.out_after size else a.out_after)

/-- What a sweep that started with the standard output `cout` and the stream
`stat_stream` has written: its warm-up call ran 10 iterations without a stream
and wrote two records under the name `warmup` to standard output; after them
standard output and the stream received the same records, under the name of
the sweep, two for each call of `benchmark` in the loop that returned. -/
def sweep_writes {σ T τ : Type} (S : SweepResult σ T τ) (cout : List (Record τ))
    (stat_stream : Option (List (Record τ))) (name : String) : Prop :=
  S.warmup.stat_stream = none ∧ S.warmup.iterations = 10 ∧ S.warmup.ret ≠ none ∧
  ∃ wrecs recs : List (Record τ),
    wrecs.length = 2 ∧ (∀ r ∈ wrecs, r.name = "warmup") ∧
    S.cout = cout ++ wrecs ++ recs ∧
    S.stat_stream = stat_stream.map (fun f => f ++ recs) ∧
    recs.length = 2 * (S.measured.filter (fun p => p.2.ret.isSome)).length ∧
    (∀ r ∈ recs, r.name = name)

/-- The record `r` with its field `ok` set. -/
def Record.clear_ok {τ : Type} (r : Record τ) : Record τ :=
  { r with ok := true }

/-! ## Concrete collaborators for the examples -/

/-- The list `l` written to the front of the buffer `buf`. -/
def write_list {T : Type} (l : List T) (buf : Buf T) : Buf T :=
  fun i => l.getD i (buf i)

/-- An out-of-place sorter: writes the sorted first `size` elements of `data`
to the front of `out` and takes one unit of time. -/
def insertion_ssssort : Sorter Unit Nat ℚ :=
  fun env data out size =>
    { env := env, data := data,
      out := write_list ((data.take size).insertionSort (fun a b => a ≤ b)) out,
      elapsed := 1 }

/-- An in-place sorter: sorts the first `size` elements of `data` and takes two
units of time. -/
def insertion_std_sort : InPlaceSorter Unit Nat ℚ :=
  fun env data size =>
    { env := env,
      data := write_list ((data.take size).insertionSort (fun a b => a ≤ b)) data,
      elapsed := 2 }

/-- A generator that fills the buffer with `size, size - 1, ..., 1` (reverse
sorted) and returns `size`. -/
def descending_generator : Generator Unit Nat ℚ :=
  fun env data size =>
    { env := env, data := fun i => if i < size then size - i else data i, size := size,
      elapsed := 1 }

/-- Harness costs of one unit of time a step. -/
def unit_costs : Costs ℚ :=
  { copy := fun _ => 1, memset := fun _ => 1, bar := 1, verify := fun _ => 1 }

/-- Three new arrays holding zeros. -/
def zero_fresh : Fresh Nat :=
  { data := fun _ => 0, out := fun _ => 0, copy := fun _ => 0 }

/-- A candidate that is the identity: it copies the first `size` elements of
`data` to `out` in the order it finds them, and takes one unit of time. -/
def identity_ssssort : Sorter Unit Nat ℚ :=
  fun env data out size =>
    { env := env, data := data, out := std_copy data size out, elapsed := 1 }

/-- A candidate that does nothing: it leaves both buffers as it received them,
and takes one unit of time. -/
def idle_ssssort : Sorter Unit Nat ℚ :=
  fun env data out _ =>
    { env := env, data := data, out := out, elapsed := 1 }

/-- A generator that fills the buffer with `1, 2, ..., size` (already sorted)
and returns `size`. -/
def ascending_generator : Generator Unit Nat ℚ :=
  fun env data size =>
    { env := env, data := fun i => if i < size then i + 1 else data i, size := size,
      elapsed := 1 }

/-- A generator that fills the buffer with `size` zeros and returns `size`. -/
def zeros_generator : Generator Unit Nat ℚ :=
  fun env data size =>
    { env := env, data := fun i => if i < size then 0 else data i, size := size,
      elapsed := 1 }

/-- A generator with a capacity of 1000 elements: it fills
`min(size, 1000)` elements, in descending order, and returns that count. -/
def capped_generator : Generator Unit Nat ℚ :=
  fun env data size =>
    { env := env,
      data := fun i => if i < min size 1000 then min size 1000 - i else data i,
      size := min size 1000, elapsed := 1 }

/-! ## Facts about `statistics` -/

section StatisticsCount

set_option linter.unusedSectionVars false

variable {τ : Type} [Zero τ] [Add τ] [Sub τ] [Mul τ] [Div τ] [NatCast τ]

theorem push_all_nil (s : statistics τ) : s.push_all [] = s := rfl

theorem push_all_snoc (s : statistics τ) (ts : List τ) (t : τ) :
    s.push_all (ts ++ [t]) = (s.push_all ts).push t := by
  simp [statistics.push_all, List.foldl_append]

theorem push_count (s : statistics τ) (t : τ) : (s.push t).count = s.count + 1 := by
  simp only [statistics.push]
  split <;> rfl

theorem push_all_count (s : statistics τ) (ts : List τ) :
    (s.push_all ts).count = s.count + ts.length := by
  induction ts using List.reverseRecOn with
  | nil => simp [push_all_nil]
  | append_singleton ts t ih =>
    rw [push_all_snoc, push_count, ih, List.length_append, List.length_singleton]
    omega

theorem push_all_new_count (ts : List τ) :
    ((statistics.new : statistics τ).push_all ts).count = ts.length := by
  rw [push_all_count]
  simp [statistics.new]

theorem push_first (s : statistics τ) (t : τ) (h : s.count = 0) :
    s.push t = { mean := t, nvar := s.nvar, count := 1 } := by
  simp [statistics.push, h]

theorem push_next (s : statistics τ) (t : τ) (h : s.count ≠ 0) :
    s.push t =
      { mean := s.mean + (t - s.mean) / ((s.count + 1 : Nat) : τ)
        nvar := s.nvar +
          (t - s.mean) * (t - (s.mean + (t - s.mean) / ((s.count + 1 : Nat) : τ)))
        count := s.count + 1 } := by
  simp [statistics.push, h]

theorem stddev_eq_none_iff (sqrt : τ → τ) (s : statistics τ) :
    s.stddev sqrt = none ↔ s.count ≤ 1 := by
  unfold statistics.stddev
  split
  · simp; omega
  · simp; omega

theorem stddev_of_count (sqrt : τ → τ) (s : statistics τ) (h : 1 < s.count) :
    s.stddev sqrt = some (sqrt (s.nvar / ((s.count - 1 : Nat) : τ))) := by
  simp [statistics.stddev, h]

theorem count_of_stddev (sqrt : τ → τ) (s : statistics τ) (x : τ)
    (h : s.stddev sqrt = some x) : 1 < s.count := by
  by_contra hc
  rw [(stddev_eq_none_iff sqrt s).2 (by omega)] at h
  exact Option.noConfusion h

end StatisticsCount

section StatisticsFacts

variable {τ : Type} [LinearOrderedField τ]

/-- Knuth's invariant: after pushing `xs`, `mean * n` is the sum of the samples
and `nvar + n * mean^2` is the sum of their squares. -/
theorem push_all_invariant (xs : List τ) :
    (statistics.new.push_all xs).mean * (xs.length : τ) = xs.sum ∧
    (statistics.new.push_all xs).nvar
        + (statistics.new.push_all xs).mean ^ 2 * (xs.length : τ)
      = (xs.map (fun x => x ^ 2)).sum := by
  induction xs using List.reverseRecOn with
  | nil => simp [push_all_nil, statistics.new]
  | append_singleton xs t ih =>
    obtain ⟨hm, hv⟩ := ih
    have hc : (statistics.new.push_all xs).count = xs.length := push_all_new_count xs
    rw [push_all_snoc]
    generalize statistics.new.push_all xs = s at hm hv hc
    by_cases h0 : xs.length = 0
    · have hnil : xs = [] := List.length_eq_zero.mp h0
      subst hnil
      rw [push_first s t (by simpa using hc)]
      simp at hv
      simp [hv]
    · rw [push_next s t (by omega)]
      have hpos : ((xs.length : τ) + 1) ≠ 0 := by positivity
      simp only [List.length_append, List.length_singleton, List.sum_append,
        List.sum_singleton, List.map_append, List.map_cons, List.map_nil, hc]
      push_cast
      rw [← hm, ← hv]
      constructor
      · field_simp
        ring
      · field_simp
        ring

theorem sum_sq_dev (xs : List τ) (m : τ) :
    (xs.map (fun x => (x - m) ^ 2)).sum
      = (xs.map (fun x => x ^ 2)).sum - 2 * m * xs.sum + (xs.length : τ) * m ^ 2 := by
  induction xs with
  | nil => simp
  | cons x xs ih =>
    simp only [List.map_cons, List.sum_cons, List.length_cons, ih]
    push_cast
    ring

theorem push_all_mean (xs : List τ) (h : xs ≠ []) :
    (statistics.new.push_all xs).mean = xs.sum / (xs.length : τ) := by
  have hlen : (xs.length : τ) ≠ 0 := by
    have : xs.length ≠ 0 := fun h0 => h (List.length_eq_zero.mp h0)
    exact_mod_cast this
  rw [eq_div_iff hlen]
  exact (push_all_invariant xs).1

theorem push_all_nvar (xs : List τ) :
    (statistics.new.push_all xs).nvar
      = (xs.map (fun x => (x - (statistics.new.push_all xs).mean) ^ 2)).sum := by
  obtain ⟨hm, hv⟩ := push_all_invariant xs
  rw [sum_sq_dev, ← hv, ← hm]
  ring

theorem push_nvar_mono (s : statistics τ) (t : τ) : s.nvar ≤ (s.push t).nvar := by
  by_cases h : s.count = 0
  · rw [push_first s t h]
  · rw [push_next s t h]
    have hc : (0 : τ) < ((s.count + 1 : Nat) : τ) := by positivity
    have key : (t - s.mean) * (t - (s.mean + (t - s.mean) / ((s.count + 1 : Nat) : τ)))
        = (t - s.mean) ^ 2 * ((s.count : τ) / ((s.count + 1 : Nat) : τ)) := by
      field_simp
      ring
    show s.nvar ≤ s.nvar + _
    rw [key]
    have : (0 : τ) ≤ (t - s.mean) ^ 2 * ((s.count : τ) / ((s.count + 1 : Nat) : τ)) := by
      positivity
    linarith

theorem push_all_nvar_nonneg (xs : List τ) : 0 ≤ (statistics.new.push_all xs).nvar := by
  rw [push_all_nvar]
  apply List.sum_nonneg
  intro y hy
  obtain ⟨x, _, rfl⟩ := List.mem_map.mp hy
  positivity

end StatisticsFacts

section StatisticsExact

variable {τ : Type} [Zero τ] [Add τ] [Sub τ] [Mul τ] [Div τ] [NatCast τ]

/-- Pushing the same sample `v` again and again never leaves the state
`(v, 0, n)`: the only arithmetic used is `v - v = 0`, `0 / c = 0`, `v + 0 = v`,
`0 * 0 = 0` and `0 + 0 = 0`, each of which is exact. -/
theorem push_replicate_exact (v : τ) (hsub : v - v = 0)
    (hdiv : ∀ c : Nat, 0 < c → (0 : τ) / (c : τ) = 0) (hadd : v + 0 = v)
    (hmul : (0 : τ) * 0 = 0) (hzero : (0 : τ) + 0 = 0) (n : Nat) :
    (statistics.new : statistics τ).push_all (List.replicate (n + 1) v)
      = { mean := v, nvar := 0, count := n + 1 } := by
  induction n with
  | zero => simp [statistics.push_all, statistics.push, statistics.new]
  | succ n ih =>
    have hsplit : List.replicate (n + 1 + 1) v = List.replicate (n + 1) v ++ [v] := by
      rw [List.replicate_succ' (n + 1) v]
    rw [hsplit]
    simp only [statistics.push_all, List.foldl_append, List.foldl_cons, List.foldl_nil]
      at ih ⊢
    rw [ih]
    simp [statistics.push, hsub, hdiv, hadd, hmul, hzero]

end StatisticsExact

/-! ## Facts about `run` -/

section RunFacts

set_option linter.unusedSectionVars false

variable {σ T τ : Type} [Zero T] [LinearOrderedField τ]

theorem calls_append (xs ys : List (Event T τ)) : calls (xs ++ ys) = calls xs ++ calls ys := by
  simp [calls, List.filterMap_append]

theorem pushed_append (xs ys : List (Event T τ)) :
    pushed (xs ++ ys) = pushed xs ++ pushed ys := by
  simp [pushed, List.filterMap_append]

theorem trial_calls (c : Costs τ) (size : Nat) (sorter : Sorter σ T τ) (reset_out : Bool)
    (st : RunState σ T τ) :
    calls (trial c size sorter reset_out st).trace
      = calls st.trace ++ [trial_call size sorter reset_out st] := by
  cases reset_out <;>
    simp [trial, trial_call, bar_advance, push_reading, call_sorter, reset_timer,
      reset_output, restore_data, calls, List.filterMap_append, Event.as_call]

theorem trial_pushed (c : Costs τ) (size : Nat) (sorter : Sorter σ T τ) (reset_out : Bool)
    (st : RunState σ T τ) :
    pushed (trial c size sorter reset_out st).trace
      = pushed st.trace ++ [(trial_call size sorter reset_out st).elapsed] := by
  cases reset_out <;>
    simp [trial, trial_call, bar_advance, push_reading, call_sorter, reset_timer,
      reset_output, restore_data, pushed, List.filterMap_append, Event.as_push,
      Timer.get, Timer.reset]

theorem trial_stats (c : Costs τ) (size : Nat) (sorter : Sorter σ T τ) (reset_out : Bool)
    (st : RunState σ T τ) :
    (trial c size sorter reset_out st).stats
      = st.stats.push (trial_call size sorter reset_out st).elapsed := by
  cases reset_out <;>
    simp [trial, trial_call, bar_advance, push_reading, call_sorter, reset_timer,
      reset_output, restore_data, Timer.get, Timer.reset]

theorem trial_copy (c : Costs τ) (size : Nat) (sorter : Sorter σ T τ) (reset_out : Bool)
    (st : RunState σ T τ) :
    (trial c size sorter reset_out st).copy = st.copy := by
  cases reset_out <;>
    simp [trial, bar_advance, push_reading, call_sorter, reset_timer, reset_output,
      restore_data]

theorem trial_data (c : Costs τ) (size : Nat) (sorter : Sorter σ T τ) (reset_out : Bool)
    (st : RunState σ T τ) :
    (trial c size sorter reset_out st).data
      = (trial_call size sorter reset_out st).data_after := by
  cases reset_out <;>
    simp [trial, trial_call, bar_advance, push_reading, call_sorter, reset_timer,
      reset_output, restore_data]

theorem trial_out (c : Costs τ) (size : Nat) (sorter : Sorter σ T τ) (reset_out : Bool)
    (st : RunState σ T τ) :
    (trial c size sorter reset_out st).out
      = (trial_call size sorter reset_out st).out_after := by
  cases reset_out <;>
    simp [trial, trial_call, bar_advance, push_reading, call_sorter, reset_timer,
      reset_output, restore_data]

theorem trial_call_made_by (size : Nat) (sorter : Sorter σ T τ) (reset_out : Bool)
    (st : RunState σ T τ) : (trial_call size sorter reset_out st).made_by sorter :=
  ⟨st.env, rfl, rfl, rfl⟩

theorem trial_call_data (size : Nat) (sorter : Sorter σ T τ) (reset_out : Bool)
    (st : RunState σ T τ) (i : Nat) (hi : i < size) :
    (trial_call size sorter reset_out st).data i = st.copy i := by
  simp [trial_call, std_copy, hi]

/-- The measured trials of the loop, as a list of calls: what the loop adds to
the trace and to the statistics, and in which state each call starts. -/
theorem trials_spec (c : Costs τ) (size : Nat) (sorter : Sorter σ T τ) (reset_out : Bool)
    (k : Nat) (st : RunState σ T τ) :
    ∃ cs : List (Call T τ),
      cs.length = k ∧
      calls (trials c size sorter reset_out k st).trace = calls st.trace ++ cs ∧
      pushed (trials c size sorter reset_out k st).trace
        = pushed st.trace ++ cs.map Call.elapsed ∧
      (trials c size sorter reset_out k st).stats = st.stats.push_all (cs.map Call.elapsed) ∧
      (trials c size sorter reset_out k st).copy = st.copy ∧
      (∀ cl ∈ cs, cl.made_by sorter ∧ cl.size = size ∧
        ∀ i, i < size → cl.data i = st.copy i) := by
  induction k generalizing st with
  | zero => exact ⟨[], rfl, by simp [trials], by simp [trials], rfl, rfl, by simp⟩
  | succ k ih =>
    obtain ⟨cs, hlen, hcalls, hpushed, hstats, hcopy, hdata⟩ :=
      ih (trial c size sorter reset_out st)
    refine ⟨trial_call size sorter reset_out st :: cs, by simp [hlen], ?_, ?_, ?_, ?_, ?_⟩
    · simp [trials, hcalls, trial_calls]
    · simp [trials, hpushed, trial_pushed]
    · simp [trials, hstats, trial_stats, statistics.push_all]
    · simp [trials, hcopy, trial_copy]
    · intro cl hcl
      rcases List.mem_cons.mp hcl with rfl | hmem
      · exact ⟨trial_call_made_by size sorter reset_out st, rfl,
          fun i hi => trial_call_data size sorter reset_out st i hi⟩
      · have := hdata cl hmem
        rwa [trial_copy] at this

/-- The state of `run` after the warm-up call and the declarations of `stats`
and `timer`, when the loop starts. -/
theorem run_eq (c : Costs τ) (env : σ) (clock : τ) (data copy out : Buf T) (size : Nat)
    (sorter : Sorter σ T τ) (iterations : Nat) (algoname : String) (reset_out : Bool) :
    ∃ st0 : RunState σ T τ,
      st0.copy = copy ∧ st0.stats = statistics.new ∧
      st0.data = (sorter env data out size).data ∧
      st0.out = (sorter env data out size).out ∧
      calls st0.trace =
        [{ data := data, out := out, size := size,
           data_after := (sorter env data out size).data,
           out_after := (sorter env data out size).out,
           elapsed := (sorter env data out size).elapsed }] ∧
      pushed st0.trace = [] ∧
      (run c env clock data copy out size sorter iterations algoname reset_out).trace
        = (trials c size sorter reset_out iterations st0).trace ++ [Event.bar_undraw] ∧
      (run c env clock data copy out size sorter iterations algoname reset_out).stats
        = (trials c size sorter reset_out iterations st0).stats ∧
      (run c env clock data copy out size sorter iterations algoname reset_out).copy
        = (trials c size sorter reset_out iterations st0).copy ∧
      (run c env clock data copy out size sorter iterations algoname reset_out).data
        = (trials c size sorter reset_out iterations st0).data ∧
      (run c env clock data copy out size sorter iterations algoname reset_out).out
        = (trials c size sorter reset_out iterations st0).out :=
  ⟨_, rfl, rfl, rfl, rfl, by simp [calls, call_sorter, bar_advance, Event.as_call],
    by simp [pushed, call_sorter, bar_advance, Event.as_push], rfl, rfl, rfl, rfl, rfl⟩

/-- The calls of `run`: the warm-up call on the buffers as passed, followed by
`iterations` measured calls, each on a working buffer restored from `copy`; the
samples pushed are the durations of the measured calls. -/
theorem run_spec (c : Costs τ) (env : σ) (clock : τ) (data copy out : Buf T) (size : Nat)
    (sorter : Sorter σ T τ) (iterations : Nat) (algoname : String) (reset_out : Bool) :
    ∃ (w : Call T τ) (cs : List (Call T τ)),
      w.data = data ∧ w.out = out ∧ w.size = size ∧ w.made_by sorter ∧
      cs.length = iterations ∧
      calls (run c env clock data copy out size sorter iterations algoname reset_out).trace
        = w :: cs ∧
      pushed (run c env clock data copy out size sorter iterations algoname reset_out).trace
        = cs.map Call.elapsed ∧
      (run c env clock data copy out size sorter iterations algoname reset_out).stats
        = statistics.new.push_all (cs.map Call.elapsed) ∧
      (run c env clock data copy out size sorter iterations algoname reset_out).copy = copy ∧
      (∀ cl ∈ cs, cl.made_by sorter ∧ cl.size = size ∧
        ∀ i, i < size → cl.data i = copy i) := by
  obtain ⟨st0, hcopy0, hstats0, -, -, hcalls0, hpushed0, htrace, hstats, hcopy, -, -⟩ :=
    run_eq c env clock data copy out size sorter iterations algoname reset_out
  obtain ⟨cs, hlen, hcalls, hpushed, hst, hcp, hdata⟩ :=
    trials_spec c size sorter reset_out iterations st0
  refine ⟨Call.mk data out size (sorter env data out size).data
    (sorter env data out size).out (sorter env data out size).elapsed,
    cs, rfl, rfl, rfl, ⟨env, rfl, rfl, rfl⟩, hlen, ?_, ?_, ?_, ?_, ?_⟩
  · rw [htrace, calls_append, hcalls, hcalls0]
    simp [calls, Event.as_call]
  · rw [htrace, pushed_append, hpushed, hpushed0]
    simp [pushed, Event.as_push]
  · rw [hstats, hst, hstats0]
  · rw [hcopy, hcp, hcopy0]
  · rw [hcopy0] at hdata
    exact hdata

theorem trials_last (c : Costs τ) (size : Nat) (sorter : Sorter σ T τ) (reset_out : Bool)
    (k : Nat) (st : RunState σ T τ)
    (h : ∃ cl, (calls st.trace).getLast? = some cl ∧ cl.data_after = st.data ∧
      cl.out_after = st.out) :
    ∃ cl, (calls (trials c size sorter reset_out k st).trace).getLast? = some cl ∧
      cl.data_after = (trials c size sorter reset_out k st).data ∧
      cl.out_after = (trials c size sorter reset_out k st).out := by
  induction k generalizing st with
  | zero => exact h
  | succ k ih =>
    apply ih
    refine ⟨trial_call size sorter reset_out st, ?_, ?_, ?_⟩
    · rw [trial_calls]
      simp
    · rw [trial_data]
    · rw [trial_out]

/-- The buffers `run` leaves are those left by the last sorter call. -/
theorem run_last (c : Costs τ) (env : σ) (clock : τ) (data copy out : Buf T) (size : Nat)
    (sorter : Sorter σ T τ) (iterations : Nat) (algoname : String) (reset_out : Bool) :
    ∃ cl,
      (calls (run c env clock data copy out size sorter iterations algoname
        reset_out).trace).getLast? = some cl ∧
      cl.data_after
        = (run c env clock data copy out size sorter iterations algoname reset_out).data ∧
      cl.out_after
        = (run c env clock data copy out size sorter iterations algoname reset_out).out := by
  obtain ⟨st0, -, -, hd0, ho0, hcalls0, -, htrace, -, -, hdata, hout⟩ :=
    run_eq c env clock data copy out size sorter iterations algoname reset_out
  obtain ⟨cl, hl, hd, ho⟩ := trials_last c size sorter reset_out iterations st0
    ⟨_, by rw [hcalls0]; rfl, hd0.symm, ho0.symm⟩
  refine ⟨cl, ?_, ?_, ?_⟩
  · rw [htrace, calls_append]
    simpa [calls, Event.as_call] using hl
  · rw [hd, hdata]
  · rw [ho, hout]

theorem run_stats_count (c : Costs τ) (env : σ) (clock : τ) (data copy out : Buf T)
    (size : Nat) (sorter : Sorter σ T τ) (iterations : Nat) (algoname : String)
    (reset_out : Bool) :
    (run c env clock data copy out size sorter iterations algoname reset_out).stats.count
      = iterations := by
  obtain ⟨w, cs, -, -, -, -, hlen, -, -, hstats, -, -⟩ :=
    run_spec c env clock data copy out size sorter iterations algoname reset_out
  rw [hstats, push_all_new_count, List.length_map, hlen]

theorem trials_stdsort_out (c : Costs τ) (size : Nat) (std_sort : InPlaceSorter σ T τ)
    (k : Nat) (st : RunState σ T τ) :
    (trials c size (stdsort_lambda std_sort) false k st).out = st.out := by
  induction k generalizing st with
  | zero => rfl
  | succ k ih =>
    simp only [trials]
    rw [ih, trial_out]
    simp [trial_call, stdsort_lambda]

/-- The baseline's run leaves the output buffer as it received it. -/
theorem run_stdsort_out (c : Costs τ) (env : σ) (clock : τ) (data copy out : Buf T)
    (size : Nat) (std_sort : InPlaceSorter σ T τ) (iterations : Nat) (algoname : String) :
    (run c env clock data copy out size (stdsort_lambda std_sort) iterations algoname
      false).out = out := by
  obtain ⟨st0, -, -, -, ho0, -, -, -, -, -, -, hout⟩ :=
    run_eq c env clock data copy out size (stdsort_lambda std_sort) iterations algoname false
  rw [hout, trials_stdsort_out, ho0]
  simp [stdsort_lambda]

/-- When at least one trial is measured, the buffers `run` leaves are those
left by a call that started on a working buffer restored from `copy`. -/
theorem run_last_measured (c : Costs τ) (env : σ) (clock : τ) (data copy out : Buf T)
    (size : Nat) (sorter : Sorter σ T τ) (iterations : Nat) (algoname : String)
    (reset_out : Bool) (h : 1 ≤ iterations) :
    ∃ cl : Call T τ,
      cl.made_by sorter ∧ cl.size = size ∧ (∀ i, i < size → cl.data i = copy i) ∧
      cl.data_after
        = (run c env clock data copy out size sorter iterations algoname reset_out).data ∧
      cl.out_after
        = (run c env clock data copy out size sorter iterations algoname reset_out).out := by
  obtain ⟨w, cs, -, -, -, -, hlen, hcalls, -, -, -, hcs⟩ :=
    run_spec c env clock data copy out size sorter iterations algoname reset_out
  obtain ⟨cl, hl, hd, ho⟩ :=
    run_last c env clock data copy out size sorter iterations algoname reset_out
  rw [hcalls] at hl
  cases cs with
  | nil => simp at hlen; omega
  | cons x xs =>
    rw [List.getLast?_cons_cons] at hl
    obtain ⟨hm, hs, hdat⟩ := hcs cl (List.mem_of_getLast?_eq_some hl)
    exact ⟨cl, hm, hs, hdat, hd, ho⟩

end RunFacts

/-! ## The trace of `run` -/

section TraceFacts

set_option linter.unusedSectionVars false

variable {σ T τ : Type} [Zero T] [LinearOrderedField τ]

theorem calls_trial_block (reset_out : Bool) (cl : Call T τ) (reading : τ) :
    calls (trial_block reset_out cl reading) = [cl] := by
  cases reset_out <;> simp [trial_block, calls, Event.as_call]

theorem pushed_trial_block (reset_out : Bool) (cl : Call T τ) (reading : τ) :
    pushed (trial_block reset_out cl reading) = [reading] := by
  cases reset_out <;> simp [trial_block, pushed, Event.as_push]

theorem calls_blocks (reset_out : Bool) (cs : List (Call T τ)) :
    calls (cs.flatMap (fun cl => trial_block reset_out cl cl.elapsed)) = cs := by
  induction cs with
  | nil => rfl
  | cons cl cs ih => rw [List.flatMap_cons, calls_append, calls_trial_block, ih]; rfl

theorem pushed_blocks (reset_out : Bool) (cs : List (Call T τ)) :
    pushed (cs.flatMap (fun cl => trial_block reset_out cl cl.elapsed))
      = cs.map Call.elapsed := by
  induction cs with
  | nil => rfl
  | cons cl cs ih => rw [List.flatMap_cons, pushed_append, pushed_trial_block, ih]; rfl

theorem trial_trace (c : Costs τ) (size : Nat) (sorter : Sorter σ T τ) (reset_out : Bool)
    (st : RunState σ T τ) :
    (trial c size sorter reset_out st).trace
      = st.trace ++ trial_block reset_out (trial_call size sorter reset_out st)
          (trial_call size sorter reset_out st).elapsed := by
  cases reset_out <;>
    simp [trial, trial_call, trial_block, bar_advance, push_reading, call_sorter,
      reset_timer, reset_output, restore_data, Timer.get, Timer.reset]

theorem chain_mem {α : Type} (R : α → α → Prop) (a : α) (l : List α)
    (h : List.Chain R a l) : ∀ b ∈ l, ∃ x, R x b := by
  induction l generalizing a with
  | nil => intro b hb; cases hb
  | cons y l ih =>
    rw [List.chain_cons] at h
    intro b hb
    rcases List.mem_cons.mp hb with rfl | hmem
    · exact ⟨a, h.1⟩
    · exact ih y h.2 b hmem

/-- The events the loop adds to the trace, trial by trial, and the buffers each
of its calls receives. -/
theorem trials_trace (c : Costs τ) (size : Nat) (sorter : Sorter σ T τ) (reset_out : Bool)
    (k : Nat) (st : RunState σ T τ) (a : Call T τ) (hd : a.data_after = st.data)
    (ho : a.out_after = st.out) :
    ∃ cs : List (Call T τ),
      cs.length = k ∧
      (trials c size sorter reset_out k st).trace
        = st.trace ++ cs.flatMap (fun cl => trial_block reset_out cl cl.elapsed) ∧
      List.Chain (follows st.copy size reset_out) a cs ∧
      (∀ cl ∈ cs, cl.made_by sorter) := by
  induction k generalizing st a with
  | zero => exact ⟨[], rfl, by simp [trials], List.Chain.nil, by simp⟩
  | succ k ih =>
    obtain ⟨cs, hlen, htr, hch, hmade⟩ :=
      ih (trial c size sorter reset_out st) (trial_call size sorter reset_out st)
        (trial_data c size sorter reset_out st).symm
        (trial_out c size sorter reset_out st).symm
    refine ⟨trial_call size sorter reset_out st :: cs, by simp [hlen], ?_, ?_, ?_⟩
    · simp only [trials]
      rw [htr, trial_trace, List.flatMap_cons, List.append_assoc]
    · rw [trial_copy] at hch
      refine List.Chain.cons ⟨rfl, ?_, ?_⟩ hch
      · simp [trial_call, hd]
      · simp [trial_call, ho]
    · intro cl hcl
      rcases List.mem_cons.mp hcl with rfl | hmem
      · exact trial_call_made_by size sorter reset_out st
      · exact hmade cl hmem

/-- The whole trace of `run`: the progress bar is created, the warm-up call is
made on the buffers as passed, then come the blocks of the measured trials, and
the progress bar is removed. -/
theorem run_trace (c : Costs τ) (env : σ) (clock : τ) (data copy out : Buf T) (size : Nat)
    (sorter : Sorter σ T τ) (iterations : Nat) (algoname : String) (reset_out : Bool) :
    ∃ (w : Call T τ) (cs : List (Call T τ)),
      w.data = data ∧ w.out = out ∧ w.size = size ∧ w.made_by sorter ∧
      cs.length = iterations ∧
      (run c env clock data copy out size sorter iterations algoname reset_out).trace
        = [Event.bar_create (iterations + 1) algoname,
            Event.sorter w.data w.out w.size w.data_after w.out_after w.elapsed,
            Event.bar_advance]
          ++ cs.flatMap (fun cl => trial_block reset_out cl cl.elapsed)
          ++ [Event.bar_undraw] ∧
      List.Chain (follows copy size reset_out) w cs ∧
      (∀ cl ∈ cs, cl.made_by sorter) := by
  obtain ⟨cs, hlen, htr, hch, hmade⟩ :=
    trials_trace c size sorter reset_out iterations
      { env := (sorter env data out size).env,
        clock := clock + c.bar + (sorter env data out size).elapsed + c.bar,
        data := (sorter env data out size).data, copy := copy,
        out := (sorter env data out size).out, stats := statistics.new,
        timer := Timer.new (clock + c.bar + (sorter env data out size).elapsed + c.bar),
        trace := [Event.bar_create (iterations + 1) algoname,
          Event.sorter data out size (sorter env data out size).data
            (sorter env data out size).out (sorter env data out size).elapsed,
          Event.bar_advance] }
      (Call.mk data out size (sorter env data out size).data
        (sorter env data out size).out (sorter env data out size).elapsed) rfl rfl
  refine ⟨Call.mk data out size (sorter env data out size).data
      (sorter env data out size).out (sorter env data out size).elapsed,
    cs, rfl, rfl, rfl, ⟨env, rfl, rfl, rfl⟩, hlen, ?_, hch, hmade⟩
  simp only [run, call_sorter, bar_advance, List.singleton_append, List.cons_append,
    List.nil_append]
  rw [htr]
  simp

theorem run_trace_calls (c : Costs τ) (env : σ) (clock : τ) (data copy out : Buf T)
    (size : Nat) (sorter : Sorter σ T τ) (iterations : Nat) (algoname : String)
    (reset_out : Bool) (w : Call T τ) (cs : List (Call T τ))
    (h : (run c env clock data copy out size sorter iterations algoname reset_out).trace
      = [Event.bar_create (iterations + 1) algoname,
          Event.sorter w.data w.out w.size w.data_after w.out_after w.elapsed,
          Event.bar_advance]
        ++ cs.flatMap (fun cl => trial_block reset_out cl cl.elapsed)
        ++ [Event.bar_undraw]) :
    calls (run c env clock data copy out size sorter iterations algoname reset_out).trace
      = w :: cs ∧
    pushed (run c env clock data copy out size sorter iterations algoname reset_out).trace
      = cs.map Call.elapsed := by
  rw [h, calls_append, calls_append, calls_blocks, pushed_append, pushed_append,
    pushed_blocks]
  constructor
  · simp [calls, Event.as_call]
  · simp [pushed, Event.as_push]

theorem follows_zero (copy : Buf T) (size : Nat) (a b : Call T τ)
    (h : follows copy size true a b) : ∀ i, i < size → b.out i = 0 := by
  intro i hi
  rw [h.2.2]
  simp [memset_zero, hi]

theorem follows_data (copy : Buf T) (size : Nat) (reset_out : Bool) (a b : Call T τ)
    (h : follows copy size reset_out a b) : ∀ i, i < size → b.data i = copy i := by
  intro i hi
  rw [h.2.1]
  simp [std_copy, hi]

/-- When at least one trial is measured with `reset_out` set, the buffers
`run` leaves are those left by a call that started on a working buffer restored
from `copy` and on a zero-filled output buffer. -/
theorem run_last_measured_zero (c : Costs τ) (env : σ) (clock : τ) (data copy out : Buf T)
    (size : Nat) (sorter : Sorter σ T τ) (iterations : Nat) (algoname : String)
    (h : 1 ≤ iterations) :
    ∃ cl : Call T τ,
      cl.made_by sorter ∧ cl.size = size ∧ (∀ i, i < size → cl.data i = copy i) ∧
      (∀ i, i < size → cl.out i = 0) ∧
      cl.data_after
        = (run c env clock data copy out size sorter iterations algoname true).data ∧
      cl.out_after
        = (run c env clock data copy out size sorter iterations algoname true).out := by
  obtain ⟨w, cs, -, -, -, -, hlen, htr, hch, hmade⟩ :=
    run_trace c env clock data copy out size sorter iterations algoname true
  obtain ⟨hcalls, -⟩ :=
    run_trace_calls c env clock data copy out size sorter iterations algoname true w cs htr
  obtain ⟨cl, hl, hd, ho⟩ :=
    run_last c env clock data copy out size sorter iterations algoname true
  rw [hcalls] at hl
  cases cs with
  | nil => simp at hlen; omega
  | cons x xs =>
    rw [List.getLast?_cons_cons] at hl
    have hmem := List.mem_of_getLast?_eq_some hl
    obtain ⟨a, ha⟩ := chain_mem _ w _ hch cl hmem
    exact ⟨cl, hmade cl hmem, ha.1, follows_data copy size true a cl ha,
      follows_zero copy size a cl ha, hd, ho⟩

end TraceFacts

/-! ## Facts about the verification pass -/

section VerifyFacts

set_option linter.unusedSectionVars false

variable {T : Type} [LinearOrder T]

theorem is_sorted_iff_adjacent (buf : Buf T) (size : Nat) :
    is_sorted buf size = true ↔ ∀ i, i + 1 < size → buf i ≤ buf (i + 1) := by
  simp only [is_sorted, List.all_eq_true, List.mem_range, Bool.not_eq_true',
    decide_eq_false_iff_not, not_lt]
  constructor
  · intro h i hi
    exact h i (by omega)
  · intro h i hi
    exact h i (by omega)

theorem is_sorted_iff (buf : Buf T) (size : Nat) :
    is_sorted buf size = true ↔ ∀ i j, i ≤ j → j < size → buf i ≤ buf j := by
  rw [is_sorted_iff_adjacent]
  constructor
  · intro h i j hij
    induction j, hij using Nat.le_induction with
    | base => intro _; exact le_refl _
    | succ j hij ih =>
      intro hj
      exact le_trans (ih (by omega)) (h j hj)
  · intro h i hi
    exact h i (i + 1) (by omega) hi

theorem buf_take_length (buf : Buf T) (size : Nat) : (buf.take size).length = size := by
  simp [Buf.take]

theorem buf_take_getElem (buf : Buf T) (size i : Nat) (h : i < (buf.take size).length) :
    (buf.take size)[i] = buf i := by
  simp [Buf.take]

theorem buf_take_congr (a b : Buf T) (size : Nat) (h : ∀ i, i < size → a i = b i) :
    a.take size = b.take size := by
  simp only [Buf.take]
  apply List.map_congr_left
  intro i hi
  exact h i (List.mem_range.mp hi)

theorem verify_step_fst (out data : Buf T) (acc : Bool × List (ErrLine T)) (i : Nat) :
    (verify_step out data acc i).1 = (acc.1 || decide (out i ≠ data i)) := by
  simp only [verify_step]
  split <;> rfl

theorem verify_loop_fst (out data : Buf T) (is : List Nat) (acc : Bool × List (ErrLine T)) :
    (is.foldl (verify_step out data) acc).1
      = (acc.1 || is.any (fun i => decide (out i ≠ data i))) := by
  induction is generalizing acc with
  | nil => simp
  | cons i is ih =>
    rw [List.foldl_cons, ih, verify_step_fst, List.any_cons, Bool.or_assoc]

/-- The flag `incorrect` stays `false` exactly when the output is sorted and
agrees with the working buffer on every index below `size`. -/
theorem verify_eq_false_iff (out data : Buf T) (size : Nat) (cerr : List (ErrLine T)) :
    (verify out data size cerr).1 = false ↔
      is_sorted out size = true ∧ ∀ i, i < size → out i = data i := by
  simp only [verify]
  rw [verify_loop_fst]
  simp only [Bool.or_eq_false_iff, Bool.not_eq_false', List.any_eq_false, List.mem_range,
    decide_eq_true_eq, not_not, ne_eq]

theorem write_list_take (l : List T) (buf : Buf T) (n : Nat) (h : l.length = n) :
    (write_list l buf).take n = l := by
  apply List.ext_getElem
  · rw [buf_take_length, h]
  · intro i h1 h2
    rw [buf_take_getElem]
    simp [write_list, List.getElem?_eq_getElem h2]

theorem insertion_std_sort_sorts (e : Unit) (data : Buf Nat) (n : Nat) :
    ((insertion_std_sort e data n).data.take n).Sorted (fun a b => a ≤ b) ∧
    ((insertion_std_sort e data n).data.take n).Perm (data.take n) := by
  have h : (insertion_std_sort e data n).data.take n
      = (data.take n).insertionSort (fun a b => a ≤ b) :=
    write_list_take _ _ n (by rw [List.length_insertionSort, buf_take_length])
  rw [h]
  exact ⟨List.sorted_insertionSort _ _, List.perm_insertionSort _ _⟩

theorem is_sorted_congr (a b : Buf T) (size : Nat) (h : ∀ i, i < size → a i = b i) :
    is_sorted a size = is_sorted b size := by
  rw [Bool.eq_iff_iff, is_sorted_iff, is_sorted_iff]
  constructor
  · intro hs i j hij hj
    rw [← h i (by omega), ← h j hj]
    exact hs i j hij hj
  · intro hs i j hij hj
    rw [h i (by omega), h j hj]
    exact hs i j hij hj

theorem mem_buf_take (a : Buf T) (size i : Nat) (h : i < size) : a i ∈ a.take size := by
  simp only [Buf.take, List.mem_map, List.mem_range]
  exact ⟨i, h, rfl⟩

theorem constant_of_perm (a b : Buf T) (size : Nat) (z : T)
    (hp : (a.take size).Perm (b.take size)) (ha : ∀ i, i < size → a i = z) :
    ∀ i, i < size → b i = z := by
  intro i hi
  have hmem : b i ∈ a.take size := hp.mem_iff.mpr (mem_buf_take b size i hi)
  simp only [Buf.take, List.mem_map, List.mem_range] at hmem
  obtain ⟨j, hj, hjeq⟩ := hmem
  rw [← hjeq, ha j hj]

theorem is_sorted_of_constant (a : Buf T) (size : Nat) (z : T)
    (ha : ∀ i, i < size → a i = z) : is_sorted a size = true := by
  rw [is_sorted_iff]
  intro i j hij hj
  rw [ha i (by omega), ha j hj]

theorem std_copy_take (src dst : Buf T) (size : Nat) (i : Nat) (h : i < size) :
    std_copy src size dst i = src i := by
  simp [std_copy, h]

end VerifyFacts

/-! ## Facts about `benchmark`

The facts about the body of `benchmark` past the allocation are stated for
`benchmark_allocated`; `benchmark_of_le` and `benchmark_of_gt` relate it to
`benchmark`. -/

section BenchmarkFacts

set_option linter.unusedSectionVars false

variable {σ T τ : Type} [Zero T] [LinearOrder T] [LinearOrderedField τ]

theorem benchmark_size (c : Costs τ) (sqrt : τ → τ) (ssssort : Sorter σ T τ)
    (std_sort : InPlaceSorter σ T τ) (fresh : Fresh T)
    (env : σ) (clock : τ) (cout : List (Record τ)) (cerr : List (ErrLine T))
    (size iterations : Nat) (generator : Generator σ T τ) (name : String)
    (stat_stream : Option (List (Record τ))) :
    (benchmark_allocated c sqrt ssssort std_sort fresh env clock cout cerr size iterations generator
      name stat_stream).size = (generator env fresh.data size).size := by
  unfold benchmark_allocated
  simp only []
  split <;> rfl

theorem benchmark_iterations (c : Costs τ) (sqrt : τ → τ) (ssssort : Sorter σ T τ)
    (std_sort : InPlaceSorter σ T τ) (fresh : Fresh T)
    (env : σ) (clock : τ) (cout : List (Record τ)) (cerr : List (ErrLine T))
    (size iterations : Nat) (generator : Generator σ T τ) (name : String)
    (stat_stream : Option (List (Record τ))) :
    (benchmark_allocated c sqrt ssssort std_sort fresh env clock cout cerr size iterations generator
      name stat_stream).iterations
      = number_of_iterations (generator env fresh.data size).size iterations := by
  unfold benchmark_allocated
  simp only []
  split <;> rfl

theorem benchmark_ssssort_run (c : Costs τ) (sqrt : τ → τ) (ssssort : Sorter σ T τ)
    (std_sort : InPlaceSorter σ T τ) (fresh : Fresh T)
    (env : σ) (clock : τ) (cout : List (Record τ)) (cerr : List (ErrLine T))
    (size iterations : Nat) (generator : Generator σ T τ) (name : String)
    (stat_stream : Option (List (Record τ))) :
    (benchmark_allocated c sqrt ssssort std_sort fresh env clock cout cerr size iterations generator
      name stat_stream).ssssort_run
      = run c (generator env fresh.data size).env
          (clock + (generator env fresh.data size).elapsed
            + c.copy (generator env fresh.data size).size)
          (generator env fresh.data size).data
          (std_copy (generator env fresh.data size).data
            (generator env fresh.data size).size fresh.copy)
          fresh.out (generator env fresh.data size).size (ssssort_lambda ssssort)
          (number_of_iterations (generator env fresh.data size).size iterations)
          "ssssort: " true := by
  unfold benchmark_allocated
  simp only []
  split <;> rfl

theorem benchmark_stdsort_run (c : Costs τ) (sqrt : τ → τ) (ssssort : Sorter σ T τ)
    (std_sort : InPlaceSorter σ T τ) (fresh : Fresh T)
    (env : σ) (clock : τ) (cout : List (Record τ)) (cerr : List (ErrLine T))
    (size iterations : Nat) (generator : Generator σ T τ) (name : String)
    (stat_stream : Option (List (Record τ))) :
    (benchmark_allocated c sqrt ssssort std_sort fresh env clock cout cerr size iterations generator
      name stat_stream).stdsort_run
      = run c
          (benchmark_allocated c sqrt ssssort std_sort fresh env clock cout cerr size iterations
            generator name stat_stream).ssssort_run.env
          (benchmark_allocated c sqrt ssssort std_sort fresh env clock cout cerr size iterations
            generator name stat_stream).ssssort_run.clock
          (benchmark_allocated c sqrt ssssort std_sort fresh env clock cout cerr size iterations
            generator name stat_stream).ssssort_run.data
          (std_copy (generator env fresh.data size).data
            (generator env fresh.data size).size fresh.copy)
          (benchmark_allocated c sqrt ssssort std_sort fresh env clock cout cerr size iterations
            generator name stat_stream).ssssort_run.out
          (generator env fresh.data size).size (stdsort_lambda std_sort)
          (number_of_iterations (generator env fresh.data size).size iterations)
          "std::sort: " false := by
  rw [benchmark_ssssort_run]
  unfold benchmark_allocated
  simp only []
  split <;> rfl

theorem benchmark_incorrect (c : Costs τ) (sqrt : τ → τ) (ssssort : Sorter σ T τ)
    (std_sort : InPlaceSorter σ T τ) (fresh : Fresh T)
    (env : σ) (clock : τ) (cout : List (Record τ)) (cerr : List (ErrLine T))
    (size iterations : Nat) (generator : Generator σ T τ) (name : String)
    (stat_stream : Option (List (Record τ))) :
    (benchmark_allocated c sqrt ssssort std_sort fresh env clock cout cerr size iterations generator
      name stat_stream).incorrect
      = (verify
          (benchmark_allocated c sqrt ssssort std_sort fresh env clock cout cerr size iterations
            generator name stat_stream).stdsort_run.out
          (benchmark_allocated c sqrt ssssort std_sort fresh env clock cout cerr size iterations
            generator name stat_stream).stdsort_run.data
          (generator env fresh.data size).size cerr).1 := by
  rw [benchmark_stdsort_run, benchmark_ssssort_run]
  unfold benchmark_allocated
  simp only []
  split <;> rfl

/-- With a resolved iteration count of at most one, `benchmark` is stopped by
the `assert` of `stddev` before anything is written. -/
theorem benchmark_stopped (c : Costs τ) (sqrt : τ → τ) (ssssort : Sorter σ T τ)
    (std_sort : InPlaceSorter σ T τ) (fresh : Fresh T)
    (env : σ) (clock : τ) (cout : List (Record τ)) (cerr : List (ErrLine T))
    (size iterations : Nat) (generator : Generator σ T τ) (name : String)
    (stat_stream : Option (List (Record τ)))
    (h : number_of_iterations (generator env fresh.data size).size iterations ≤ 1) :
    (benchmark_allocated c sqrt ssssort std_sort fresh env clock cout cerr size iterations generator
      name stat_stream).ret = none ∧
    (benchmark_allocated c sqrt ssssort std_sort fresh env clock cout cerr size iterations generator
      name stat_stream).cout = cout ∧
    (benchmark_allocated c sqrt ssssort std_sort fresh env clock cout cerr size iterations generator
      name stat_stream).stat_stream = stat_stream := by
  unfold benchmark_allocated
  simp only []
  split
  · next sd1 sd2 h1 h2 =>
    have := count_of_stddev sqrt _ _ h1
    rw [run_stats_count] at this
    omega
  · exact ⟨rfl, rfl, rfl⟩

/-- With a resolved iteration count of at least two, `benchmark` returns the
element count and writes two records, the candidate's and the baseline's. -/
theorem benchmark_emits (c : Costs τ) (sqrt : τ → τ) (ssssort : Sorter σ T τ)
    (std_sort : InPlaceSorter σ T τ) (fresh : Fresh T)
    (env : σ) (clock : τ) (cout : List (Record τ)) (cerr : List (ErrLine T))
    (size iterations : Nat) (generator : Generator σ T τ) (name : String)
    (stat_stream : Option (List (Record τ)))
    (h : 2 ≤ number_of_iterations (generator env fresh.data size).size iterations) :
    ∃ r1 r2 : Record τ,
      (benchmark_allocated c sqrt ssssort std_sort fresh env clock cout cerr size iterations
        generator name stat_stream).ret = some (generator env fresh.data size).size ∧
      (benchmark_allocated c sqrt ssssort std_sort fresh env clock cout cerr size iterations
        generator name stat_stream).cout = cout ++ [r1, r2] ∧
      (benchmark_allocated c sqrt ssssort std_sort fresh env clock cout cerr size iterations
        generator name stat_stream).stat_stream = stat_stream.map (fun f => f ++ [r1, r2]) ∧
      r1.algo = "ssssort" ∧ r1.name = name ∧
      r1.size = (generator env fresh.data size).size ∧
      r1.iters = number_of_iterations (generator env fresh.data size).size iterations ∧
      r1.ok = !(benchmark_allocated c sqrt ssssort std_sort fresh env clock cout cerr size
        iterations generator name stat_stream).incorrect ∧
      r2.algo = "stdsort" ∧ r2.name = name ∧
      r2.size = (generator env fresh.data size).size ∧
      r2.iters = number_of_iterations (generator env fresh.data size).size iterations ∧
      r2.t_check = 0 ∧ r2.ok = true := by
  unfold benchmark_allocated
  simp only []
  split
  · exact ⟨_, _, rfl, rfl, rfl, rfl, rfl, rfl, rfl, rfl, rfl, rfl, rfl, rfl, rfl, rfl⟩
  · next hno =>
    refine (hno _ _ (stddev_of_count sqrt _ ?_) (stddev_of_count sqrt _ ?_)).elim
    · rw [run_stats_count]
      omega
    · rw [run_stats_count]
      omega

/-- The flag `incorrect` of `benchmark` in terms of the buffers the two runs
leave: the output buffer of the candidate's run and the working buffer of the
baseline's run. -/
theorem benchmark_flag (c : Costs τ) (sqrt : τ → τ) (ssssort : Sorter σ T τ)
    (std_sort : InPlaceSorter σ T τ) (fresh : Fresh T)
    (env : σ) (clock : τ) (cout : List (Record τ)) (cerr : List (ErrLine T))
    (size iterations : Nat) (generator : Generator σ T τ) (name : String)
    (stat_stream : Option (List (Record τ))) :
    (benchmark_allocated c sqrt ssssort std_sort fresh env clock cout cerr size iterations generator
      name stat_stream).incorrect = false ↔
      is_sorted
        (benchmark_allocated c sqrt ssssort std_sort fresh env clock cout cerr size iterations
          generator name stat_stream).ssssort_run.out
        (generator env fresh.data size).size = true ∧
      ∀ i, i < (generator env fresh.data size).size →
        (benchmark_allocated c sqrt ssssort std_sort fresh env clock cout cerr size iterations
          generator name stat_stream).ssssort_run.out i
        = (benchmark_allocated c sqrt ssssort std_sort fresh env clock cout cerr size iterations
          generator name stat_stream).stdsort_run.data i := by
  have hout : (benchmark_allocated c sqrt ssssort std_sort fresh env clock cout cerr size iterations
      generator name stat_stream).stdsort_run.out
      = (benchmark_allocated c sqrt ssssort std_sort fresh env clock cout cerr size iterations
          generator name stat_stream).ssssort_run.out := by
    rw [benchmark_stdsort_run, run_stdsort_out]
  rw [benchmark_incorrect, verify_eq_false_iff, hout]

theorem number_of_iterations_ge (size iterations : Nat) (h : 2 ≤ iterations) :
    2 ≤ number_of_iterations size iterations := by
  unfold number_of_iterations
  split_ifs <;> omega

/-- What `benchmark` returns and writes: nothing when the resolved iteration
count is at most one, and otherwise the element count and the two records. -/
theorem benchmark_outcome (c : Costs τ) (sqrt : τ → τ) (ssssort : Sorter σ T τ)
    (std_sort : InPlaceSorter σ T τ) (fresh : Fresh T)
    (env : σ) (clock : τ) (cout : List (Record τ)) (cerr : List (ErrLine T))
    (size iterations : Nat) (generator : Generator σ T τ) (name : String)
    (stat_stream : Option (List (Record τ))) (B : BenchResult σ T τ)
    (hB : B = benchmark_allocated c sqrt ssssort std_sort fresh env clock cout cerr size iterations
      generator name stat_stream) :
    (B.iterations ≤ 1 ∧ B.ret = none ∧ B.cout = cout ∧ B.stat_stream = stat_stream) ∨
    (2 ≤ B.iterations ∧ ∃ sd1 sd2 : τ,
      B.ssssort_run.stats.stddev sqrt = some sd1 ∧
      B.stdsort_run.stats.stddev sqrt = some sd2 ∧
      B.ret = some B.size ∧
      B.cout = cout ++
        [Record.mk "ssssort" name B.size B.iterations B.ssssort_run.stats.avg sd1
          B.t_generate B.t_verify (!B.incorrect),
         Record.mk "stdsort" name B.size B.iterations B.stdsort_run.stats.avg sd2
          B.t_generate 0 true] ∧
      B.stat_stream = stat_stream.map (fun f => f ++
        [Record.mk "ssssort" name B.size B.iterations B.ssssort_run.stats.avg sd1
          B.t_generate B.t_verify (!B.incorrect),
         Record.mk "stdsort" name B.size B.iterations B.stdsort_run.stats.avg sd2
          B.t_generate 0 true])) := by
  subst hB
  unfold benchmark_allocated
  simp only []
  split
  · next sd1 sd2 h1 h2 =>
    have hc := count_of_stddev sqrt _ _ h1
    rw [run_stats_count] at hc
    exact Or.inr ⟨hc, sd1, sd2, h1, h2, rfl, rfl, rfl⟩
  · next hno =>
    refine Or.inl ⟨?_, rfl, rfl, rfl⟩
    show number_of_iterations (generator env fresh.data size).size iterations ≤ 1
    by_contra hc
    refine hno _ _ (stddev_of_count sqrt _ ?_) (stddev_of_count sqrt _ ?_)
    · rw [run_stats_count]
      omega
    · rw [run_stats_count]
      omega

theorem run_stats_pushed (c : Costs τ) (env : σ) (clock : τ) (data copy out : Buf T)
    (size : Nat) (sorter : Sorter σ T τ) (iterations : Nat) (algoname : String)
    (reset_out : Bool) :
    (run c env clock data copy out size sorter iterations algoname reset_out).stats
      = statistics.new.push_all
          (pushed (run c env clock data copy out size sorter iterations algoname
            reset_out).trace) ∧
    (calls (run c env clock data copy out size sorter iterations algoname
      reset_out).trace).length = iterations + 1 ∧
    (∀ cl ∈ calls (run c env clock data copy out size sorter iterations algoname
      reset_out).trace, cl.size = size) ∧
    (run c env clock data copy out size sorter iterations algoname reset_out).copy
      = copy := by
  obtain ⟨w, cs, -, -, hw, -, hlen, hcalls, hpushed, hstats, hcopy, hcs⟩ :=
    run_spec c env clock data copy out size sorter iterations algoname reset_out
  refine ⟨by rw [hstats, hpushed], by rw [hcalls]; simp [hlen], ?_, hcopy⟩
  intro cl hcl
  rw [hcalls] at hcl
  rcases List.mem_cons.mp hcl with rfl | hmem
  · exact hw
  · exact (hcs cl hmem).2.1

/-- Both runs of `benchmark`: the samples, the calls and the reference copy. -/
theorem benchmark_runs (c : Costs τ) (sqrt : τ → τ) (ssssort : Sorter σ T τ)
    (std_sort : InPlaceSorter σ T τ) (fresh : Fresh T)
    (env : σ) (clock : τ) (cout : List (Record τ)) (cerr : List (ErrLine T))
    (size iterations : Nat) (generator : Generator σ T τ) (name : String)
    (stat_stream : Option (List (Record τ))) (B : BenchResult σ T τ)
    (hB : B = benchmark_allocated c sqrt ssssort std_sort fresh env clock cout cerr size iterations
      generator name stat_stream) :
    B.size = (generator env fresh.data size).size ∧
    B.iterations = number_of_iterations (generator env fresh.data size).size iterations ∧
    B.ssssort_run.stats = statistics.new.push_all (pushed B.ssssort_run.trace) ∧
    B.stdsort_run.stats = statistics.new.push_all (pushed B.stdsort_run.trace) ∧
    (calls B.ssssort_run.trace).length = B.iterations + 1 ∧
    (calls B.stdsort_run.trace).length = B.iterations + 1 ∧
    (∀ cl ∈ calls B.ssssort_run.trace, cl.size = B.size) ∧
    (∀ cl ∈ calls B.stdsort_run.trace, cl.size = B.size) ∧
    B.ssssort_run.copy
      = std_copy (generator env fresh.data size).data B.size fresh.copy ∧
    B.stdsort_run.copy
      = std_copy (generator env fresh.data size).data B.size fresh.copy := by
  have hs := benchmark_size c sqrt ssssort std_sort fresh env clock cout cerr size
    iterations generator name stat_stream
  have hi := benchmark_iterations c sqrt ssssort std_sort fresh env clock cout cerr size
    iterations generator name stat_stream
  have hc := benchmark_ssssort_run c sqrt ssssort std_sort fresh env clock cout cerr size
    iterations generator name stat_stream
  have hb := benchmark_stdsort_run c sqrt ssssort std_sort fresh env clock cout cerr size
    iterations generator name stat_stream
  rw [← hB] at hs hi hc hb
  rw [hc] at hb
  obtain ⟨h1, h2, h3, h4⟩ := run_stats_pushed c (generator env fresh.data size).env
    (clock + (generator env fresh.data size).elapsed
      + c.copy (generator env fresh.data size).size)
    (generator env fresh.data size).data
    (std_copy (generator env fresh.data size).data
      (generator env fresh.data size).size fresh.copy)
    fresh.out (generator env fresh.data size).size (ssssort_lambda ssssort)
    (number_of_iterations (generator env fresh.data size).size iterations)
    "ssssort: " true
  rw [← hc] at h1 h2 h3 h4
  rw [← hc] at hb
  obtain ⟨g1, g2, g3, g4⟩ := run_stats_pushed c B.ssssort_run.env B.ssssort_run.clock
    B.ssssort_run.data
    (std_copy (generator env fresh.data size).data
      (generator env fresh.data size).size fresh.copy)
    B.ssssort_run.out (generator env fresh.data size).size (stdsort_lambda std_sort)
    (number_of_iterations (generator env fresh.data size).size iterations)
    "std::sort: " false
  rw [← hb] at g1 g2 g3 g4
  rw [hs, hi]
  exact ⟨rfl, rfl, h1, g1, h2, g2, h3, g3, h4, g4⟩

theorem benchmark_cerr (c : Costs τ) (sqrt : τ → τ) (ssssort : Sorter σ T τ)
    (std_sort : InPlaceSorter σ T τ) (fresh : Fresh T)
    (env : σ) (clock : τ) (cout : List (Record τ)) (cerr : List (ErrLine T))
    (size iterations : Nat) (generator : Generator σ T τ) (name : String)
    (stat_stream : Option (List (Record τ))) :
    (benchmark_allocated c sqrt ssssort std_sort fresh env clock cout cerr size iterations generator
      name stat_stream).cerr
      = (verify
          (benchmark_allocated c sqrt ssssort std_sort fresh env clock cout cerr size iterations
            generator name stat_stream).stdsort_run.out
          (benchmark_allocated c sqrt ssssort std_sort fresh env clock cout cerr size iterations
            generator name stat_stream).stdsort_run.data
          (generator env fresh.data size).size cerr).2 := by
  rw [benchmark_stdsort_run, benchmark_ssssort_run]
  unfold benchmark_allocated
  simp only []
  split <;> rfl

theorem number_of_iterations_sentinel (size : Nat) :
    50 ≤ number_of_iterations size SIZE_MAX := by
  unfold number_of_iterations
  split_ifs <;> omega

theorem number_of_iterations_explicit (size iterations : Nat) (h : iterations ≠ SIZE_MAX) :
    number_of_iterations size iterations = iterations := by
  simp [number_of_iterations, h]

/-- The two times `benchmark` reads off its own timer: the generation time is
the time of the generator call and of the reference copy, the verification time
is the time of the verification pass. -/
theorem benchmark_times (c : Costs τ) (sqrt : τ → τ) (ssssort : Sorter σ T τ)
    (std_sort : InPlaceSorter σ T τ) (fresh : Fresh T)
    (env : σ) (clock : τ) (cout : List (Record τ)) (cerr : List (ErrLine T))
    (size iterations : Nat) (generator : Generator σ T τ) (name : String)
    (stat_stream : Option (List (Record τ))) :
    (benchmark_allocated c sqrt ssssort std_sort fresh env clock cout cerr size iterations generator
      name stat_stream).t_generate
      = (generator env fresh.data size).elapsed
        + c.copy (generator env fresh.data size).size ∧
    (benchmark_allocated c sqrt ssssort std_sort fresh env clock cout cerr size iterations generator
      name stat_stream).t_verify = c.verify (generator env fresh.data size).size := by
  unfold benchmark_allocated
  simp only []
  split <;>
    simp [Timer.get_and_reset, Timer.get, Timer.new, Timer.reset, add_assoc]

theorem run_pushed_constant (c : Costs τ) (env : σ) (clock : τ) (data copy out : Buf T)
    (size : Nat) (sorter : Sorter σ T τ) (iterations : Nat) (algoname : String)
    (reset_out : Bool) (t : τ)
    (h : ∀ (e : σ) (d o : Buf T) (n : Nat), (sorter e d o n).elapsed = t) :
    pushed (run c env clock data copy out size sorter iterations algoname reset_out).trace
      = List.replicate iterations t := by
  obtain ⟨w, cs, -, -, -, -, hlen, -, hpushed, -, -, hcs⟩ :=
    run_spec c env clock data copy out size sorter iterations algoname reset_out
  rw [hpushed, List.eq_replicate_iff]
  refine ⟨by simp [hlen], ?_⟩
  intro b hb
  obtain ⟨cl, hcl, rfl⟩ := List.mem_map.mp hb
  obtain ⟨⟨e, -, -, he⟩, -⟩ := hcs cl hcl
  rw [he, h]

/-- With sorters that take the same time on every call, the samples of both
runs of `benchmark` are that time, once for each iteration. -/
theorem benchmark_pushed_constant (c : Costs τ) (sqrt : τ → τ) (ssssort : Sorter σ T τ)
    (std_sort : InPlaceSorter σ T τ) (fresh : Fresh T)
    (env : σ) (clock : τ) (cout : List (Record τ)) (cerr : List (ErrLine T))
    (size iterations : Nat) (generator : Generator σ T τ) (name : String)
    (stat_stream : Option (List (Record τ))) (t1 t2 : τ)
    (h1 : ∀ (e : σ) (d o : Buf T) (n : Nat), (ssssort e d o n).elapsed = t1)
    (h2 : ∀ (e : σ) (d : Buf T) (n : Nat), (std_sort e d n).elapsed = t2) :
    pushed (benchmark_allocated c sqrt ssssort std_sort fresh env clock cout cerr size iterations
      generator name stat_stream).ssssort_run.trace
      = List.replicate
          (number_of_iterations (generator env fresh.data size).size iterations) t1 ∧
    pushed (benchmark_allocated c sqrt ssssort std_sort fresh env clock cout cerr size iterations
      generator name stat_stream).stdsort_run.trace
      = List.replicate
          (number_of_iterations (generator env fresh.data size).size iterations) t2 := by
  constructor
  · rw [benchmark_ssssort_run]
    exact run_pushed_constant _ _ _ _ _ _ _ _ _ _ _ t1 (fun e d o n => h1 e d o n)
  · rw [benchmark_stdsort_run]
    exact run_pushed_constant _ _ _ _ _ _ _ _ _ _ _ t2 (fun e d o n => h2 e d n)

/-- With arrays of `size` elements within the largest array, `benchmark` is
`benchmark_allocated` on the new arrays. -/
theorem benchmark_of_le (c : Costs τ) (sqrt : τ → τ) (ssssort : Sorter σ T τ)
    (std_sort : InPlaceSorter σ T τ) (fresh : Fresh T)
    (env : σ) (clock : τ) (cout : List (Record τ)) (cerr : List (ErrLine T))
    (size iterations : Nat) (generator : Generator σ T τ) (name : String)
    (stat_stream : Option (List (Record τ))) (h : size ≤ PTRDIFF_MAX) :
    benchmark c sqrt ssssort std_sort fresh env clock cout cerr size iterations generator
        name stat_stream
      = benchmark_allocated c sqrt ssssort std_sort fresh env clock cout cerr size iterations
          generator name stat_stream := by
  simp only [benchmark, if_pos h]

/-- With more elements than an array can hold, `new T[size]` throws. -/
theorem benchmark_of_gt (c : Costs τ) (sqrt : τ → τ) (ssssort : Sorter σ T τ)
    (std_sort : InPlaceSorter σ T τ) (fresh : Fresh T)
    (env : σ) (clock : τ) (cout : List (Record τ)) (cerr : List (ErrLine T))
    (size iterations : Nat) (generator : Generator σ T τ) (name : String)
    (stat_stream : Option (List (Record τ))) (h : ¬ size ≤ PTRDIFF_MAX) :
    benchmark c sqrt ssssort std_sort fresh env clock cout cerr size iterations generator
        name stat_stream
      = benchmark_thrown env clock cout cerr size iterations stat_stream := by
  simp only [benchmark, if_neg h]

theorem benchmark_allocated_thrown (c : Costs τ) (sqrt : τ → τ) (ssssort : Sorter σ T τ)
    (std_sort : InPlaceSorter σ T τ) (fresh : Fresh T)
    (env : σ) (clock : τ) (cout : List (Record τ)) (cerr : List (ErrLine T))
    (size iterations : Nat) (generator : Generator σ T τ) (name : String)
    (stat_stream : Option (List (Record τ))) :
    (benchmark_allocated c sqrt ssssort std_sort fresh env clock cout cerr size iterations
      generator name stat_stream).thrown = false := by
  unfold benchmark_allocated
  simp only []
  split <;> rfl

/-- The three arrays of `benchmark` are allocated exactly when `size` elements
are within the largest array. -/
theorem benchmark_thrown_iff (c : Costs τ) (sqrt : τ → τ) (ssssort : Sorter σ T τ)
    (std_sort : InPlaceSorter σ T τ) (fresh : Fresh T)
    (env : σ) (clock : τ) (cout : List (Record τ)) (cerr : List (ErrLine T))
    (size iterations : Nat) (generator : Generator σ T τ) (name : String)
    (stat_stream : Option (List (Record τ))) :
    (benchmark c sqrt ssssort std_sort fresh env clock cout cerr size iterations generator
      name stat_stream).thrown = false ↔ size ≤ PTRDIFF_MAX := by
  by_cases h : size ≤ PTRDIFF_MAX
  · rw [benchmark_of_le _ _ _ _ _ _ _ _ _ _ _ _ _ _ h, benchmark_allocated_thrown]
    exact iff_of_true rfl h
  · rw [benchmark_of_gt _ _ _ _ _ _ _ _ _ _ _ _ _ _ h]
    exact iff_of_false (by simp [benchmark_thrown]) h

theorem pow_le_PTRDIFF_MAX (k : Nat) (h : k < 31) : 2 ^ k ≤ PTRDIFF_MAX := by
  have h1 : 2 ^ k ≤ 2 ^ 30 := Nat.pow_le_pow_right (by decide) (by omega)
  have h2 : 2 ^ 30 ≤ PTRDIFF_MAX := by decide
  exact le_trans h1 h2

end BenchmarkFacts

/-! ## Facts about the sweeps -/

section SweepFacts

set_option linter.unusedSectionVars false

variable {σ T τ : Type} [Zero T] [LinearOrder T] [LinearOrderedField τ]

theorem shift_one_of_lt (log_size : Nat) (h : log_size < 31) :
    shift_one log_size = some (2 ^ log_size) := by
  simp [shift_one, h, Nat.one_shiftLeft]

/-- Where `1 << log_size` leaves the range of `int`: at 30 the value is still
`2^30`, at 31 it is `2^64 - 2^31` and not `2^31`, and at 32 it is undefined. -/
theorem shift_one_overflow :
    shift_one 30 = some (2 ^ 30) ∧ shift_one 31 = some (2 ^ 64 - 2 ^ 31) ∧
    shift_one 31 ≠ some (2 ^ 31) ∧ shift_one 32 = none := by
  decide

theorem benchmark_generator_loop_eq (c : Costs τ) (sqrt : τ → τ) (ssssort : Sorter σ T τ)
    (std_sort : InPlaceSorter σ T τ) (fresh : Nat → Fresh T)
    (generator : Generator σ T τ) (name : String) (iterations : Nat)
    (fuel log_size : Nat) (st : SweepResult σ T τ) :
    benchmark_generator_loop c sqrt ssssort std_sort fresh generator name iterations
        fuel log_size st
      = sweep_loop c sqrt ssssort std_sort fresh (fun ret _ => unconditional_step ret)
          (wrapped_generator generator) name iterations fuel log_size st := by
  induction fuel generalizing log_size st with
  | zero => rfl
  | succ fuel ih =>
    simp only [benchmark_generator_loop, sweep_loop]
    split
    · rfl
    · split
      · rw [ih]
      · rfl
      · rfl

theorem sized_benchmark_generator_loop_eq (c : Costs τ) (sqrt : τ → τ)
    (ssssort : Sorter σ T τ) (std_sort : InPlaceSorter σ T τ) (fresh : Nat → Fresh T)
    (generator : Generator σ T τ) (name : String) (iterations : Nat)
    (fuel log_size : Nat) (st : SweepResult σ T τ) :
    sized_benchmark_generator_loop c sqrt ssssort std_sort fresh generator name iterations
        fuel log_size st
      = sweep_loop c sqrt ssssort std_sort fresh sized_step generator name iterations
          fuel log_size st := by
  induction fuel generalizing log_size st with
  | zero => rfl
  | succ fuel ih =>
    simp only [sized_benchmark_generator_loop, sweep_loop]
    split
    · rfl
    · split
      · rw [ih]
      · rfl
      · rfl

/-- The records one call of `benchmark` appends to standard output and to the
stream it is given: two when it returns, none when it is stopped. -/
theorem benchmark_written (c : Costs τ) (sqrt : τ → τ) (ssssort : Sorter σ T τ)
    (std_sort : InPlaceSorter σ T τ) (fresh : Fresh T)
    (env : σ) (clock : τ) (cout : List (Record τ)) (cerr : List (ErrLine T))
    (size iterations : Nat) (generator : Generator σ T τ) (name : String)
    (stat_stream : Option (List (Record τ))) (B : BenchResult σ T τ)
    (hB : B = benchmark c sqrt ssssort std_sort fresh env clock cout cerr size iterations
      generator name stat_stream) :
    ∃ recs : List (Record τ),
      B.cout = cout ++ recs ∧
      B.stat_stream = stat_stream.map (fun f => f ++ recs) ∧
      recs.length = 2 * ([B].filter (fun b => b.ret.isSome)).length ∧
      (∀ r ∈ recs, r.name = name ∧ r.size = B.size) := by
  by_cases hsize : size ≤ PTRDIFF_MAX
  · rw [benchmark_of_le _ _ _ _ _ _ _ _ _ _ _ _ _ _ hsize] at hB
    rcases benchmark_outcome c sqrt ssssort std_sort fresh env clock cout cerr size
        iterations generator name stat_stream B hB with
      ⟨-, hr, hc, hss⟩ | ⟨-, a, b, -, -, hr, hc, hss⟩
    · refine ⟨[], by simp [hc], ?_, by simp [hr], by simp⟩
      rw [hss]
      cases stat_stream <;> simp
    · refine ⟨_, hc, hss, by simp [hr], ?_⟩
      intro r hmem
      simp only [List.mem_cons, List.mem_singleton, List.not_mem_nil, or_false] at hmem
      rcases hmem with rfl | rfl <;> exact ⟨rfl, rfl⟩
  · rw [benchmark_of_gt _ _ _ _ _ _ _ _ _ _ _ _ _ _ hsize] at hB
    subst hB
    refine ⟨[], by simp [benchmark_thrown], ?_, by simp [benchmark_thrown], by simp⟩
    cases stat_stream <;> simp [benchmark_thrown]

/-- With the wrapper of `benchmark_generator`, the element count of `benchmark`
is the requested size. -/
theorem benchmark_wrapped_size (c : Costs τ) (sqrt : τ → τ) (ssssort : Sorter σ T τ)
    (std_sort : InPlaceSorter σ T τ) (fresh : Fresh T)
    (env : σ) (clock : τ) (cout : List (Record τ)) (cerr : List (ErrLine T))
    (size iterations : Nat) (generator : Generator σ T τ) (name : String)
    (stat_stream : Option (List (Record τ))) :
    (benchmark c sqrt ssssort std_sort fresh env clock cout cerr size iterations
      (wrapped_generator generator) name stat_stream).size = size := by
  by_cases h : size ≤ PTRDIFF_MAX
  · rw [benchmark_of_le _ _ _ _ _ _ _ _ _ _ _ _ _ _ h, benchmark_size]
    rfl
  · rw [benchmark_of_gt _ _ _ _ _ _ _ _ _ _ _ _ _ _ h]
    rfl

theorem option_map_append {α : Type} (ss : Option (List α)) (a b : List α) :
    (ss.map (fun f => f ++ a)).map (fun f => f ++ b) = ss.map (fun f => f ++ (a ++ b)) := by
  cases ss <;> simp

/-- What a loop of a sweep appends to the streams: the records of its calls of
`benchmark`, two for each call that returned. Each entry of `measured` is a
call of `benchmark` at the requested size, with the generator, the name and the
iteration count of the sweep. -/
theorem sweep_loop_streams (c : Costs τ) (sqrt : τ → τ) (ssssort : Sorter σ T τ)
    (std_sort : InPlaceSorter σ T τ) (fresh : Nat → Fresh T)
    (step : Option Nat → Nat → LoopStep)
    (generator : Generator σ T τ) (name : String) (iterations : Nat)
    (fuel log_size : Nat) (st : SweepResult σ T τ) :
    ∃ (ms : List (Nat × BenchResult σ T τ)) (recs : List (Record τ)),
      (sweep_loop c sqrt ssssort std_sort fresh step generator name iterations fuel
        log_size st).measured = st.measured ++ ms ∧
      (sweep_loop c sqrt ssssort std_sort fresh step generator name iterations fuel
        log_size st).warmup = st.warmup ∧
      (sweep_loop c sqrt ssssort std_sort fresh step generator name iterations fuel
        log_size st).cout = st.cout ++ recs ∧
      (sweep_loop c sqrt ssssort std_sort fresh step generator name iterations fuel
        log_size st).stat_stream = st.stat_stream.map (fun f => f ++ recs) ∧
      recs.length = 2 * (ms.filter (fun p => p.2.ret.isSome)).length ∧
      (∀ r ∈ recs, r.name = name) ∧
      (∀ p ∈ ms, ∃ (f : Fresh T) (e : σ) (k : τ) (co : List (Record τ))
        (ce : List (ErrLine T)) (ss : Option (List (Record τ))),
        p.2 = benchmark c sqrt ssssort std_sort f e k co ce p.1 iterations generator
          name ss) := by
  induction fuel generalizing log_size st with
  | zero =>
    refine ⟨[], [], by simp [sweep_loop], rfl, by simp [sweep_loop], ?_, by simp,
      by simp, by simp⟩
    cases h : st.stat_stream <;> simp [sweep_loop, h]
  | succ fuel ih =>
    simp only [sweep_loop]
    split
    · refine ⟨[], [], by simp, rfl, by simp, ?_, by simp, by simp, by simp⟩
      cases h : st.stat_stream <;> simp [h]
    · next size hsize =>
      obtain ⟨brecs, hbc, hbs, hbl, hbn⟩ :=
        benchmark_written c sqrt ssssort std_sort (fresh log_size) st.env st.clock st.cout
          st.cerr size iterations generator name st.stat_stream _ rfl
      generalize hb : benchmark c sqrt ssssort std_sort (fresh log_size) st.env st.clock
        st.cout st.cerr size iterations generator name st.stat_stream = b at *
      have hone : ∀ p ∈ [(size, b)], ∃ (f : Fresh T) (e : σ) (k : τ)
          (co : List (Record τ)) (ce : List (ErrLine T)) (ss : Option (List (Record τ))),
          p.2 = benchmark c sqrt ssssort std_sort f e k co ce p.1 iterations generator
            name ss := by
        intro p hp
        rw [List.mem_singleton] at hp
        subst hp
        exact ⟨_, _, _, _, _, _, hb.symm⟩
      have hlen1 : brecs.length
          = 2 * ([(size, b)].filter (fun p => p.2.ret.isSome)).length := by
        rw [hbl]
        cases h : b.ret <;> simp [h]
      split
      · obtain ⟨ms, recs, hm, hw, hc, hs, hl, hn, hcall⟩ :=
          ih (log_size + 1) (sweep_record size b st)
        refine ⟨(size, b) :: ms, brecs ++ recs, ?_, ?_, ?_, ?_, ?_, ?_, ?_⟩
        · rw [hm]
          simp [sweep_record]
        · rw [hw]
          rfl
        · rw [hc]
          simp [sweep_record, hbc]
        · rw [hs]
          simp only [sweep_record]
          rw [hbs, option_map_append]
        · rw [List.length_append, hl, hlen1]
          cases h : b.ret
          · simp [h, List.filter_cons]
          · simp [h, List.filter_cons]
            omega
        · intro r hr
          rcases List.mem_append.mp hr with h | h
          · exact (hbn r h).1
          · exact hn r h
        · intro p hp
          rcases List.mem_cons.mp hp with rfl | h
          · exact hone _ (List.mem_singleton.mpr rfl)
          · exact hcall p h
      · exact ⟨[(size, b)], brecs, by simp [sweep_record], rfl, by simp [sweep_record, hbc],
          by simp [sweep_record, hbs], hlen1, fun r hr => (hbn r hr).1, hone⟩
      · exact ⟨[(size, b)], brecs, by simp [sweep_record], rfl, by simp [sweep_record, hbc],
          by simp [sweep_record, hbs], hlen1, fun r hr => (hbn r hr).1, hone⟩

/-- The sizes a loop of a sweep requests while `1 << log_size` stays within
`int` and the iteration count is at least two: powers of two in increasing
order, every call returning the count of the generator, the loop going on
after every call but the last and ending early only by `break`. -/
theorem sweep_loop_sizes (c : Costs τ) (sqrt : τ → τ) (ssssort : Sorter σ T τ)
    (std_sort : InPlaceSorter σ T τ) (fresh : Nat → Fresh T)
    (step : Option Nat → Nat → LoopStep)
    (hstep : ∀ n size, step (some n) size ≠ LoopStep.stop)
    (generator : Generator σ T τ) (name : String) (iterations : Nat)
    (hit : 2 ≤ iterations)
    (fuel log_size : Nat) (st : SweepResult σ T τ) (hmax : log_size + fuel ≤ 31) :
    ∃ ms : List (Nat × BenchResult σ T τ),
      (sweep_loop c sqrt ssssort std_sort fresh step generator name iterations fuel
        log_size st).measured = st.measured ++ ms ∧
      (sweep_loop c sqrt ssssort std_sort fresh step generator name iterations fuel
        log_size st).status = st.status ∧
      ms.length ≤ fuel ∧
      ms.map Prod.fst = (List.range' log_size ms.length).map (fun k => 2 ^ k) ∧
      (∀ p ∈ ms, p.2.ret = some p.2.size ∧
        ∃ (e : σ) (d : Buf T), p.2.size = (generator e d p.1).size) ∧
      (∀ p ∈ ms.dropLast, step p.2.ret p.1 = LoopStep.next) ∧
      (ms.length < fuel → ∃ p, ms.getLast? = some p ∧ step p.2.ret p.1 = LoopStep.leave) := by
  induction fuel generalizing log_size st with
  | zero => exact ⟨[], by simp [sweep_loop], rfl, by simp, by simp, by simp, by simp, by simp⟩
  | succ fuel ih =>
    simp only [sweep_loop]
    rw [shift_one_of_lt log_size (by omega)]
    simp only []
    rw [benchmark_of_le _ _ _ _ _ _ _ _ _ _ _ _ _ _ (pow_le_PTRDIFF_MAX log_size (by omega))]
    have hret := (benchmark_emits c sqrt ssssort std_sort (fresh log_size) st.env st.clock
      st.cout st.cerr (2 ^ log_size) iterations generator name st.stat_stream
      (number_of_iterations_ge _ iterations hit)).choose_spec.choose_spec.1
    have hsz := benchmark_size c sqrt ssssort std_sort (fresh log_size) st.env st.clock
      st.cout st.cerr (2 ^ log_size) iterations generator name st.stat_stream
    generalize benchmark_allocated c sqrt ssssort std_sort (fresh log_size) st.env st.clock
      st.cout st.cerr (2 ^ log_size) iterations generator name st.stat_stream = b at *
    have hb : b.ret = some b.size ∧
        ∃ (e : σ) (d : Buf T), b.size = (generator e d (2 ^ log_size)).size :=
      ⟨by rw [hret, hsz], _, _, hsz⟩
    cases hst : step b.ret (2 ^ log_size) with
    | next =>
      simp only []
      obtain ⟨ms, hm, hs, hl, hf, hr, hd, hg⟩ :=
        ih (log_size + 1) (sweep_record (2 ^ log_size) b st) (by omega)
      refine ⟨(2 ^ log_size, b) :: ms, ?_, ?_, ?_, ?_, ?_, ?_, ?_⟩
      · rw [hm]
        simp [sweep_record]
      · rw [hs]
        rfl
      · simp only [List.length_cons]
        omega
      · simp only [List.map_cons, List.length_cons, List.range'_succ, hf]
      · intro p hp
        rcases List.mem_cons.mp hp with rfl | h
        · exact hb
        · exact hr p h
      · intro p hp
        cases ms with
        | nil => simp at hp
        | cons x xs =>
          rw [List.dropLast_cons₂] at hp
          rcases List.mem_cons.mp hp with rfl | h
          · exact hst
          · exact hd p h
      · intro hlt
        obtain ⟨q, hq, hqs⟩ := hg (by simp only [List.length_cons] at hlt; omega)
        exact ⟨q, by simp [List.getLast?_cons, hq], hqs⟩
    | leave =>
      simp only []
      refine ⟨[(2 ^ log_size, b)], by simp [sweep_record], rfl, by simp, by simp, ?_,
        by simp, fun _ => ⟨_, rfl, hst⟩⟩
      intro p hp
      rw [List.mem_singleton] at hp
      subst hp
      exact hb
    | stop =>
      rw [hb.1] at hst
      exact absurd hst (hstep _ _)

theorem sized_step_next_iff (n size : Nat) :
    sized_step (some n) size = LoopStep.next ↔ ¬ n < size := by
  simp only [sized_step]
  split_ifs with h <;> simp [h]

theorem sized_step_leave_iff (n size : Nat) :
    sized_step (some n) size = LoopStep.leave ↔ n < size := by
  simp only [sized_step]
  split_ifs with h <;> simp [h]

theorem sized_step_ne_stop (n size : Nat) : sized_step (some n) size ≠ LoopStep.stop := by
  simp only [sized_step]
  split_ifs <;> simp

/-- The warm-up call of a sweep: 10 iterations at the requested size `1 << 10`,
under the name `warmup` and with no stream. It returns, and writes its two
records to standard output only. -/
theorem warmup_returns (c : Costs τ) (sqrt : τ → τ) (ssssort : Sorter σ T τ)
    (std_sort : InPlaceSorter σ T τ) (fresh : Fresh T)
    (env : σ) (clock : τ) (cout : List (Record τ)) (cerr : List (ErrLine T))
    (generator : Generator σ T τ) (w : BenchResult σ T τ)
    (hw : w = benchmark c sqrt ssssort std_sort fresh env clock cout cerr (1 <<< 10) 10
      generator "warmup" none) :
    w.ret = some w.size ∧ w.iterations = 10 ∧ w.stat_stream = none ∧
    ∃ wrecs : List (Record τ),
      wrecs.length = 2 ∧ w.cout = cout ++ wrecs ∧ ∀ r ∈ wrecs, r.name = "warmup" := by
  rw [benchmark_of_le _ _ _ _ _ _ _ _ _ _ _ _ _ _ (by decide)] at hw
  have hit : w.iterations = 10 := by
    rw [hw, benchmark_iterations]
    exact number_of_iterations_explicit _ 10 (by decide)
  rcases benchmark_outcome c sqrt ssssort std_sort fresh env clock cout cerr (1 <<< 10) 10
      generator "warmup" none w hw with
    ⟨hle, -⟩ | ⟨-, a, b, -, -, hr, hc, hss⟩
  · omega
  · refine ⟨hr, hit, by simpa using hss, _, ?_, hc, ?_⟩
    · rfl
    · intro r hmem
      simp only [List.mem_cons, List.mem_singleton, List.not_mem_nil, or_false] at hmem
      rcases hmem with rfl | rfl <;> rfl

theorem sized_benchmark_generator_unfold (c : Costs τ) (sqrt : τ → τ)
    (ssssort : Sorter σ T τ) (std_sort : InPlaceSorter σ T τ) (fresh : Nat → Fresh T)
    (env : σ) (clock : τ) (cout : List (Record τ)) (cerr : List (ErrLine T))
    (generator : Generator σ T τ) (name : String) (iterations : Nat)
    (stat_stream : Option (List (Record τ))) (max_log_size : Nat) :
    sized_benchmark_generator c sqrt ssssort std_sort fresh env clock cout cerr generator
        name iterations stat_stream max_log_size
      = sweep_loop c sqrt ssssort std_sort fresh sized_step generator name iterations
          (max_log_size - 10) 10
          (sweep_start
            (benchmark c sqrt ssssort std_sort (fresh 0) env clock cout cerr (1 <<< 10) 10
              generator "warmup" none) stat_stream) := by
  obtain ⟨hr, -⟩ := warmup_returns c sqrt ssssort std_sort (fresh 0) env clock cout cerr
    generator _ rfl
  simp only [sized_benchmark_generator]
  rw [hr]
  simp only []
  rw [sized_benchmark_generator_loop_eq]

theorem benchmark_generator_unfold (c : Costs τ) (sqrt : τ → τ)
    (ssssort : Sorter σ T τ) (std_sort : InPlaceSorter σ T τ) (fresh : Nat → Fresh T)
    (env : σ) (clock : τ) (cout : List (Record τ)) (cerr : List (ErrLine T))
    (generator : Generator σ T τ) (name : String) (iterations : Nat)
    (stat_stream : Option (List (Record τ))) (max_log_size : Nat) :
    benchmark_generator c sqrt ssssort std_sort fresh env clock cout cerr generator
        name iterations stat_stream max_log_size
      = sweep_loop c sqrt ssssort std_sort fresh (fun ret _ => unconditional_step ret)
          (wrapped_generator generator) name iterations (max_log_size - 10) 10
          (sweep_start
            (benchmark c sqrt ssssort std_sort (fresh 0) env clock cout cerr (1 <<< 10) 10
              (wrapped_generator generator) "warmup" none) stat_stream) := by
  obtain ⟨hr, -⟩ := warmup_returns c sqrt ssssort std_sort (fresh 0) env clock cout cerr
    (wrapped_generator generator) _ rfl
  simp only [benchmark_generator]
  rw [hr]
  simp only []
  rw [benchmark_generator_loop_eq]

theorem sweep_start_fields (w : BenchResult σ T τ) (stat_stream : Option (List (Record τ)))
    (h : w.ret = some w.size) :
    (sweep_start w stat_stream).status = SweepStatus.finished ∧
    (sweep_start w stat_stream).measured = [] ∧
    (sweep_start w stat_stream).warmup = w ∧
    (sweep_start w stat_stream).cout = w.cout ∧
    (sweep_start w stat_stream).stat_stream = stat_stream := by
  simp [sweep_start, h]

theorem sweep_loop_writes (c : Costs τ) (sqrt : τ → τ) (ssssort : Sorter σ T τ)
    (std_sort : InPlaceSorter σ T τ) (fresh : Nat → Fresh T)
    (step : Option Nat → Nat → LoopStep)
    (env : σ) (clock : τ) (cout : List (Record τ)) (cerr : List (ErrLine T))
    (generator : Generator σ T τ) (name : String) (iterations : Nat)
    (stat_stream : Option (List (Record τ))) (fuel : Nat) :
    sweep_writes
      (sweep_loop c sqrt ssssort std_sort fresh step generator name iterations fuel 10
        (sweep_start
          (benchmark c sqrt ssssort std_sort (fresh 0) env clock cout cerr (1 <<< 10) 10
            generator "warmup" none) stat_stream))
      cout stat_stream name ∧
    (sweep_loop c sqrt ssssort std_sort fresh step generator name iterations fuel 10
        (sweep_start
          (benchmark c sqrt ssssort std_sort (fresh 0) env clock cout cerr (1 <<< 10) 10
            generator "warmup" none) stat_stream)).warmup
      = benchmark c sqrt ssssort std_sort (fresh 0) env clock cout cerr (1 <<< 10) 10
          generator "warmup" none := by
  obtain ⟨hr, hi, hss, wrecs, hwl, hwc, hwn⟩ :=
    warmup_returns c sqrt ssssort std_sort (fresh 0) env clock cout cerr generator _ rfl
  obtain ⟨h1, h2, h3, h4, h5⟩ := sweep_start_fields
    (benchmark c sqrt ssssort std_sort (fresh 0) env clock cout cerr (1 <<< 10) 10
      generator "warmup" none) stat_stream hr
  obtain ⟨ms, recs, hm, hw, hc, hs, hl, hn, -⟩ :=
    sweep_loop_streams c sqrt ssssort std_sort fresh step generator name iterations fuel 10
      (sweep_start
        (benchmark c sqrt ssssort std_sort (fresh 0) env clock cout cerr (1 <<< 10) 10
          generator "warmup" none) stat_stream)
  rw [h3] at hw
  rw [h2, List.nil_append] at hm
  rw [h4, hwc] at hc
  rw [h5] at hs
  refine ⟨⟨?_, ?_, ?_, wrecs, recs, hwl, hwn, hc, hs, ?_, hn⟩, hw⟩
  · rw [hw, hss]
  · rw [hw, hi]
  · rw [hw, hr]
    exact Option.some_ne_none _
  · rw [hm, hl]

/-- At `log_size = 31` both sweeps request `2^64 - 2^31` elements: `new` throws
in `benchmark`, which calls no generator and no sorter, and the sweep is
stopped there. -/
theorem sweep_stopped_at_31 (c : Costs τ) (sqrt : τ → τ) (ssssort : Sorter σ T τ)
    (std_sort : InPlaceSorter σ T τ) (fresh : Nat → Fresh T)
    (generator : Generator σ T τ) (name : String) (iterations : Nat)
    (fuel : Nat) (st : SweepResult σ T τ) :
    sized_benchmark_generator_loop c sqrt ssssort std_sort fresh generator name iterations
        (fuel + 1) 31 st
      = { sweep_record (2 ^ 64 - 2 ^ 31)
            (benchmark_thrown st.env st.clock st.cout st.cerr (2 ^ 64 - 2 ^ 31) iterations
              st.stat_stream) st with status := SweepStatus.stopped } ∧
    benchmark_generator_loop c sqrt ssssort std_sort fresh generator name iterations
        (fuel + 1) 31 st
      = { sweep_record (2 ^ 64 - 2 ^ 31)
            (benchmark_thrown st.env st.clock st.cout st.cerr (2 ^ 64 - 2 ^ 31) iterations
              st.stat_stream) st with status := SweepStatus.stopped } := by
  have hs : shift_one 31 = some (2 ^ 64 - 2 ^ 31) := by decide
  have hgt : ¬ (2 ^ 64 - 2 ^ 31 ≤ PTRDIFF_MAX) := by decide
  constructor
  · simp only [sized_benchmark_generator_loop, hs]
    rw [benchmark_of_gt _ _ _ _ _ _ _ _ _ _ _ _ _ _ hgt]
    rfl
  · simp only [benchmark_generator_loop, hs]
    rw [benchmark_of_gt _ _ _ _ _ _ _ _ _ _ _ _ _ _ hgt]
    rfl

end SweepFacts

/-! ## The accumulator: mean, standard deviation, failure, invariant -/

section StatisticsClaims

variable {τ : Type} [LinearOrderedField τ]

/-- C1: for every non-empty list of samples pushed one by one into a freshly
constructed `statistics`, `avg()` is the arithmetic mean of the samples: their
sum divided by their number (exact arithmetic). -/
theorem avg_is_arithmetic_mean (xs : List τ) (h : xs ≠ []) :
    (statistics.new.push_all xs).avg = xs.sum / (xs.length : τ) :=
  push_all_mean xs h

/-- The samples 2, 4, 9 have `avg() = 5`. -/
theorem avg_is_arithmetic_mean_witness :
    ([2, 4, 9] : List ℚ) ≠ [] ∧ (statistics.new.push_all ([2, 4, 9] : List ℚ)).avg = 5 := by
  refine ⟨by simp, ?_⟩
  rw [avg_is_arithmetic_mean ([2, 4, 9] : List ℚ) (by simp)]
  norm_num

/-- C2: for every list of `n ≥ 2` samples pushed into a fresh `statistics`,
`nvar` is the sum of the squared deviations from the mean of the samples, and
`stddev()` returns `sqrt` of that sum divided by `n - 1`, the sample standard
deviation (exact arithmetic, for any function `sqrt`). -/
theorem stddev_is_sample_stddev (sqrt : τ → τ) (xs : List τ) (h : 2 ≤ xs.length) :
    (statistics.new.push_all xs).avg = xs.sum / (xs.length : τ) ∧
    (statistics.new.push_all xs).nvar
      = (xs.map (fun x => (x - xs.sum / (xs.length : τ)) ^ 2)).sum ∧
    (statistics.new.push_all xs).stddev sqrt
      = some (sqrt ((xs.map (fun x => (x - xs.sum / (xs.length : τ)) ^ 2)).sum
          / ((xs.length : τ) - 1))) := by
  have hne : xs ≠ [] := by
    intro h0
    subst h0
    simp at h
  have hmean := push_all_mean xs hne
  have hnvar := push_all_nvar xs
  rw [hmean] at hnvar
  refine ⟨hmean, hnvar, ?_⟩
  have hc : (statistics.new.push_all xs).count = xs.length := push_all_new_count xs
  rw [stddev_of_count sqrt _ (by omega), hnvar, hc, Nat.cast_sub (by omega)]
  simp

/-- Pushing 1, 2, 3, 4, 5 gives `avg() = 3` and `stddev() = sqrt 2.5` over the
reals. -/
theorem stddev_is_sample_stddev_witness :
    2 ≤ ([1, 2, 3, 4, 5] : List ℝ).length ∧
    (statistics.new.push_all ([1, 2, 3, 4, 5] : List ℝ)).avg = 3 ∧
    (statistics.new.push_all ([1, 2, 3, 4, 5] : List ℝ)).stddev Real.sqrt
      = some (Real.sqrt 2.5) := by
  have h := stddev_is_sample_stddev Real.sqrt ([1, 2, 3, 4, 5] : List ℝ) (by simp)
  refine ⟨by simp, ?_, ?_⟩
  · rw [h.1]
    norm_num
  · rw [h.2.2]
    norm_num

/-- C3: `stddev()` fails (the `assert` stops the program) exactly when
`count <= 1`: it fails on a freshly constructed accumulator and after exactly
one push, and after pushing a list of samples it returns a value if and only
if the list has two or more samples. -/
theorem stddev_fails_iff_count_le_one (sqrt : τ → τ) :
    (∀ s : statistics τ, s.stddev sqrt = none ↔ s.count ≤ 1) ∧
    (statistics.new : statistics τ).stddev sqrt = none ∧
    (∀ t : τ, (statistics.new.push t).stddev sqrt = none) ∧
    (∀ xs : List τ, ((statistics.new.push_all xs).stddev sqrt).isSome ↔ 2 ≤ xs.length) := by
  refine ⟨stddev_eq_none_iff sqrt, ?_, ?_, ?_⟩
  · rw [stddev_eq_none_iff]
    simp [statistics.new]
  · intro t
    rw [stddev_eq_none_iff, push_count]
    simp [statistics.new]
  · intro xs
    rw [← not_iff_not, Bool.not_eq_true, Option.not_isSome, Option.isNone_iff_eq_none,
      stddev_eq_none_iff, push_all_new_count]
    omega

/-- C4: for every value `v` and every `n ≥ 2`, after pushing `v` exactly `n`
times into a fresh `statistics`, `avg()` returns exactly `v` and `stddev()`
returns exactly `0` (for any `sqrt` with `sqrt 0 = 0`): every difference
`t - oldmean` is zero. -/
theorem same_sample_avg_and_stddev (sqrt : τ → τ) (hsqrt : sqrt 0 = 0) (v : τ) (n : Nat)
    (hn : 2 ≤ n) :
    (statistics.new.push_all (List.replicate n v)).avg = v ∧
    (statistics.new.push_all (List.replicate n v)).stddev sqrt = some 0 := by
  obtain ⟨m, rfl⟩ : ∃ m, n = m + 1 := ⟨n - 1, by omega⟩
  have hst := push_replicate_exact v (sub_self v) (fun c _ => zero_div (c : τ))
    (add_zero v) (mul_zero 0) (add_zero 0) m
  rw [hst]
  refine ⟨rfl, ?_⟩
  rw [stddev_of_count sqrt _ (by simpa using hn)]
  simp [hsqrt]

/-- Pushing 5.0 twice gives `avg() = 5` and `stddev() = 0` over the reals. -/
theorem same_sample_avg_and_stddev_witness :
    Real.sqrt 0 = 0 ∧ 2 ≤ 2 ∧
    (statistics.new.push_all (List.replicate 2 (5 : ℝ))).avg = 5 ∧
    (statistics.new.push_all (List.replicate 2 (5 : ℝ))).stddev Real.sqrt = some 0 :=
  ⟨Real.sqrt_zero, le_refl 2,
    same_sample_avg_and_stddev Real.sqrt Real.sqrt_zero 5 2 (le_refl 2)⟩

/-- C5: after every sequence of `push` calls on a fresh accumulator, `count` is
the number of pushes performed and `nvar` is `≥ 0`; and a `push` on any
accumulator leaves `nvar` no smaller than before (exact arithmetic). -/
theorem statistics_invariant :
    (∀ xs : List τ, (statistics.new.push_all xs).count = xs.length ∧
      0 ≤ (statistics.new.push_all xs).nvar) ∧
    (∀ (s : statistics τ) (t : τ), s.nvar ≤ (s.push t).nvar) :=
  ⟨fun xs => ⟨push_all_new_count xs, push_all_nvar_nonneg xs⟩, push_nvar_mono⟩

end StatisticsClaims

/-! ## The iteration policy -/

section PolicyClaims

variable {σ T τ : Type} [Zero T] [LinearOrder T] [LinearOrderedField τ]

/-- C6: in `benchmark`, whose body past the allocation of the arrays is
`benchmark_allocated`, the iteration count used (the value of `iterations`
after the block `// Number of iterations`, which is the number of samples both
runs collect) is, when the caller passes the sentinel `(size_t)-1`, chosen from
the element count `n` the generator returned: `n < 2^16` gives 1000,
`2^16 ≤ n < 2^18` gives 500, `2^18 ≤ n < 2^20` gives 250, `2^20 ≤ n < 2^24`
gives 100 and `n ≥ 2^24` gives 50; any other value passed is used unchanged. -/
theorem benchmark_iteration_policy (c : Costs τ) (sqrt : τ → τ) (ssssort : Sorter σ T τ)
    (std_sort : InPlaceSorter σ T τ) (fresh : Fresh T)
    (env : σ) (clock : τ) (cout : List (Record τ)) (cerr : List (ErrLine T))
    (size iterations : Nat) (generator : Generator σ T τ) (name : String)
    (stat_stream : Option (List (Record τ))) :
    (benchmark_allocated c sqrt ssssort std_sort fresh env clock cout cerr size iterations generator
        name stat_stream).iterations
      = (if iterations = 2 ^ 64 - 1 then
          (if (generator env fresh.data size).size < 2 ^ 16 then 1000
           else if (generator env fresh.data size).size < 2 ^ 18 then 500
           else if (generator env fresh.data size).size < 2 ^ 20 then 250
           else if (generator env fresh.data size).size < 2 ^ 24 then 100
           else 50)
         else iterations) ∧
    (benchmark_allocated c sqrt ssssort std_sort fresh env clock cout cerr size iterations generator
        name stat_stream).ssssort_run.stats.count
      = (benchmark_allocated c sqrt ssssort std_sort fresh env clock cout cerr size iterations
          generator name stat_stream).iterations ∧
    (benchmark_allocated c sqrt ssssort std_sort fresh env clock cout cerr size iterations generator
        name stat_stream).stdsort_run.stats.count
      = (benchmark_allocated c sqrt ssssort std_sort fresh env clock cout cerr size iterations
          generator name stat_stream).iterations ∧
    number_of_iterations (2 ^ 16) SIZE_MAX = 500 ∧
    number_of_iterations (2 ^ 16 - 1) SIZE_MAX = 1000 := by
  refine ⟨?_, ?_, ?_, by decide, by decide⟩
  · rw [benchmark_iterations]
    simp [number_of_iterations, SIZE_MAX]
  · rw [benchmark_ssssort_run, benchmark_iterations]
    obtain ⟨w, cs, -, -, -, -, hlen, -, -, hstats, -, -⟩ :=
      run_spec c (generator env fresh.data size).env
        (clock + (generator env fresh.data size).elapsed
          + c.copy (generator env fresh.data size).size)
        (generator env fresh.data size).data
        (std_copy (generator env fresh.data size).data
          (generator env fresh.data size).size fresh.copy)
        fresh.out (generator env fresh.data size).size (ssssort_lambda ssssort)
        (number_of_iterations (generator env fresh.data size).size iterations)
        "ssssort: " true
    rw [hstats, push_all_new_count, List.length_map, hlen]
  · rw [benchmark_stdsort_run, benchmark_iterations]
    generalize (benchmark_allocated c sqrt ssssort std_sort fresh env clock cout cerr size
      iterations generator name stat_stream).ssssort_run = r
    obtain ⟨w, cs, -, -, -, -, hlen, -, -, hstats, -, -⟩ :=
      run_spec c r.env r.clock r.data
        (std_copy (generator env fresh.data size).data
          (generator env fresh.data size).size fresh.copy)
        r.out (generator env fresh.data size).size (stdsort_lambda std_sort)
        (number_of_iterations (generator env fresh.data size).size iterations)
        "std::sort: " false
    rw [hstats, push_all_new_count, List.length_map, hlen]

end PolicyClaims

/-! ## The trial loop -/

section RunClaims

variable {σ T τ : Type} [Zero T] [LinearOrderedField τ]

/-- C7: for every iteration count `k` and every algorithm, `run` calls the
algorithm exactly `k + 1` times and returns a `statistics` whose `count` is
exactly `k`: it is fed with the `k` timer readings pushed in the trace, in
order, and these are the durations of the calls after the first one, so the
duration of the warm-up call is not among them. -/
theorem run_calls_and_samples (c : Costs τ) (env : σ) (clock : τ) (data copy out : Buf T)
    (size : Nat) (sorter : Sorter σ T τ) (k : Nat) (algoname : String) (reset_out : Bool) :
    (calls (run c env clock data copy out size sorter k algoname reset_out).trace).length
      = k + 1 ∧
    (run c env clock data copy out size sorter k algoname reset_out).stats.count = k ∧
    (pushed (run c env clock data copy out size sorter k algoname reset_out).trace).length
      = k ∧
    (run c env clock data copy out size sorter k algoname reset_out).stats
      = statistics.new.push_all
          (pushed (run c env clock data copy out size sorter k algoname reset_out).trace) ∧
    pushed (run c env clock data copy out size sorter k algoname reset_out).trace
      = ((calls (run c env clock data copy out size sorter k algoname
          reset_out).trace).map Call.elapsed).tail ∧
    (∀ cl ∈ calls (run c env clock data copy out size sorter k algoname reset_out).trace,
      cl.made_by sorter ∧ cl.size = size) := by
  obtain ⟨w, cs, -, -, hwsize, hw, hlen, hcalls, hpushed, hstats, -, hcs⟩ :=
    run_spec c env clock data copy out size sorter k algoname reset_out
  rw [hcalls, hpushed, hstats, push_all_new_count]
  refine ⟨by simp [hlen], by simp [hlen], by simp [hlen], rfl, by simp, ?_⟩
  intro cl hcl
  rcases List.mem_cons.mp hcl with rfl | hmem
  · exact ⟨hw, hwsize⟩
  · exact ⟨(hcs cl hmem).1, (hcs cl hmem).2.1⟩

/-- C8: in `run`, for every algorithm and every iteration count, each of the
`iterations` calls after the warm-up call starts with the first `size` elements
of the working buffer equal to those of the reference buffer `copy`, and the
reference buffer is the same after `run` as before. -/
theorem run_restores_working_buffer (c : Costs τ) (env : σ) (clock : τ)
    (data copy out : Buf T) (size : Nat) (sorter : Sorter σ T τ) (iterations : Nat)
    (algoname : String) (reset_out : Bool) :
    (calls (run c env clock data copy out size sorter iterations algoname
        reset_out).trace).tail.length = iterations ∧
    (∀ cl ∈ (calls (run c env clock data copy out size sorter iterations algoname
        reset_out).trace).tail, ∀ i, i < size → cl.data i = copy i) ∧
    (run c env clock data copy out size sorter iterations algoname reset_out).copy
      = copy := by
  obtain ⟨w, cs, -, -, -, -, hlen, hcalls, -, -, hcopy, hcs⟩ :=
    run_spec c env clock data copy out size sorter iterations algoname reset_out
  rw [hcalls]
  exact ⟨by simp [hlen], fun cl hcl i hi => (hcs cl hcl).2.2 i hi, hcopy⟩

/-- C18: in `run`, the warm-up call (the first call of the trace) receives the
working and the output buffer exactly as the caller passed them; each of the
`iterations` calls after it receives the working buffer restored from `copy`
and the output buffer as the call before it left it, with the first `size`
elements set to zero if `reset_out` is true and untouched if `reset_out` is
false. -/
theorem run_buffers_of_each_call (c : Costs τ) (env : σ) (clock : τ)
    (data copy out : Buf T) (size : Nat) (sorter : Sorter σ T τ) (iterations : Nat)
    (algoname : String) (reset_out : Bool) :
    ∃ (w : Call T τ) (cs : List (Call T τ)),
      calls (run c env clock data copy out size sorter iterations algoname reset_out).trace
        = w :: cs ∧
      cs.length = iterations ∧
      w.data = data ∧ w.out = out ∧
      List.Chain (follows copy size reset_out) w cs ∧
      List.Chain (fun a b : Call T τ =>
        (reset_out = true → (∀ i, i < size → b.out i = 0) ∧
          ∀ i, size ≤ i → b.out i = a.out_after i) ∧
        (reset_out = false → b.out = a.out_after)) w cs := by
  obtain ⟨w, cs, hwd, hwo, -, -, hlen, htr, hch, -⟩ :=
    run_trace c env clock data copy out size sorter iterations algoname reset_out
  refine ⟨w, cs, (run_trace_calls c env clock data copy out size sorter iterations algoname
    reset_out w cs htr).1, hlen, hwd, hwo, hch, ?_⟩
  refine List.Chain.imp ?_ hch
  intro a b hab
  constructor
  · intro hr
    subst hr
    refine ⟨follows_zero copy size a b hab, ?_⟩
    intro i hi
    rw [hab.2.2]
    simp [memset_zero, Nat.not_lt.mpr hi]
  · intro hr
    subst hr
    simpa using hab.2.2

/-- C19: the trace of `run` is the creation of the progress bar, the warm-up
call and one advance of the bar, then for each measured trial, in order, the
events restore, zero-fill (when `reset_out` is set), timer reset, the sorter
call, the push of the timer reading, advance of the bar, and at last the removal
of the bar. Nothing lies between a timer reset and the push but the one sorter
call, and with a clock that adds up the time of every step the reading pushed
is the time of that call alone, whatever the other steps cost. -/
theorem run_measures_each_call_alone (c : Costs τ) (env : σ) (clock : τ)
    (data copy out : Buf T) (size : Nat) (sorter : Sorter σ T τ) (iterations : Nat)
    (algoname : String) (reset_out : Bool) :
    ∃ (w : Call T τ) (cs : List (Call T τ)),
      cs.length = iterations ∧
      (run c env clock data copy out size sorter iterations algoname reset_out).trace
        = [Event.bar_create (iterations + 1) algoname,
            Event.sorter w.data w.out w.size w.data_after w.out_after w.elapsed,
            Event.bar_advance]
          ++ cs.flatMap (fun cl => trial_block reset_out cl cl.elapsed)
          ++ [Event.bar_undraw] ∧
      pushed (run c env clock data copy out size sorter iterations algoname reset_out).trace
        = cs.map Call.elapsed ∧
      (run c env clock data copy out size sorter iterations algoname reset_out).stats
        = statistics.new.push_all (cs.map Call.elapsed) ∧
      w.made_by sorter ∧ (∀ cl ∈ cs, cl.made_by sorter) := by
  obtain ⟨w, cs, -, -, -, hw, hlen, htr, -, hmade⟩ :=
    run_trace c env clock data copy out size sorter iterations algoname reset_out
  obtain ⟨-, hp⟩ :=
    run_trace_calls c env clock data copy out size sorter iterations algoname reset_out
      w cs htr
  obtain ⟨w2, cs2, -, -, -, -, -, -, hp2, hstats, -, -⟩ :=
    run_spec c env clock data copy out size sorter iterations algoname reset_out
  refine ⟨w, cs, hlen, htr, hp, ?_, hw, hmade⟩
  rw [hstats, ← hp2, hp]

end RunClaims

/-! ## The verification pass of `benchmark` -/

section VerifyClaims

variable {σ T τ : Type} [Zero T] [LinearOrder T] [LinearOrderedField τ]

/-- C9: in `benchmark`, whose body past the allocation of the arrays is
`benchmark_allocated`, the correctness flag of the candidate (`!incorrect`,
the `ok` field of the candidate's record when the records are written) is true
if and only if `out[0..n)` is non-decreasing and `out[i] == data[i]` for every
`i < n`, where `n` is the element count the generator returned, `out` is the
output buffer as left by the last call of the candidate's run and `data` is
the working buffer as left by the last call of the baseline's run. -/
theorem correctness_flag_iff (c : Costs τ) (sqrt : τ → τ) (ssssort : Sorter σ T τ)
    (std_sort : InPlaceSorter σ T τ) (fresh : Fresh T)
    (env : σ) (clock : τ) (cout : List (Record τ)) (cerr : List (ErrLine T))
    (size iterations : Nat) (generator : Generator σ T τ) (name : String)
    (stat_stream : Option (List (Record τ))) :
    ∃ cand base : Call T τ,
      (calls (benchmark_allocated c sqrt ssssort std_sort fresh env clock cout cerr size iterations
        generator name stat_stream).ssssort_run.trace).getLast? = some cand ∧
      (calls (benchmark_allocated c sqrt ssssort std_sort fresh env clock cout cerr size iterations
        generator name stat_stream).stdsort_run.trace).getLast? = some base ∧
      ((!(benchmark_allocated c sqrt ssssort std_sort fresh env clock cout cerr size iterations
          generator name stat_stream).incorrect) = true ↔
        (∀ i j, i ≤ j → j < (generator env fresh.data size).size →
          cand.out_after i ≤ cand.out_after j) ∧
        (∀ i, i < (generator env fresh.data size).size →
          cand.out_after i = base.data_after i)) ∧
      ((benchmark_allocated c sqrt ssssort std_sort fresh env clock cout cerr size iterations
          generator name stat_stream).cout = cout ∨
        ∃ r1 r2 : Record τ,
          (benchmark_allocated c sqrt ssssort std_sort fresh env clock cout cerr size iterations
            generator name stat_stream).cout = cout ++ [r1, r2] ∧
          r1.algo = "ssssort" ∧
          r1.ok = !(benchmark_allocated c sqrt ssssort std_sort fresh env clock cout cerr size
            iterations generator name stat_stream).incorrect) := by
  have hflag := benchmark_flag c sqrt ssssort std_sort fresh env clock cout cerr size
    iterations generator name stat_stream
  have hrec : (benchmark_allocated c sqrt ssssort std_sort fresh env clock cout cerr size iterations
        generator name stat_stream).cout = cout ∨
      ∃ r1 r2 : Record τ,
        (benchmark_allocated c sqrt ssssort std_sort fresh env clock cout cerr size iterations
          generator name stat_stream).cout = cout ++ [r1, r2] ∧
        r1.algo = "ssssort" ∧
        r1.ok = !(benchmark_allocated c sqrt ssssort std_sort fresh env clock cout cerr size
          iterations generator name stat_stream).incorrect := by
    by_cases h : 2 ≤ number_of_iterations (generator env fresh.data size).size iterations
    · obtain ⟨r1, r2, -, hc, -, ha, -, -, -, hok, -⟩ :=
        benchmark_emits c sqrt ssssort std_sort fresh env clock cout cerr size iterations
          generator name stat_stream h
      exact Or.inr ⟨r1, r2, hc, ha, hok⟩
    · exact Or.inl (benchmark_stopped c sqrt ssssort std_sort fresh env clock cout cerr size
        iterations generator name stat_stream (by omega)).2.1
  have hc := benchmark_ssssort_run c sqrt ssssort std_sort fresh env clock cout cerr size
    iterations generator name stat_stream
  have hb := benchmark_stdsort_run c sqrt ssssort std_sort fresh env clock cout cerr size
    iterations generator name stat_stream
  obtain ⟨cand, hcl, -, hco⟩ := run_last c (generator env fresh.data size).env
    (clock + (generator env fresh.data size).elapsed
      + c.copy (generator env fresh.data size).size)
    (generator env fresh.data size).data
    (std_copy (generator env fresh.data size).data
      (generator env fresh.data size).size fresh.copy)
    fresh.out (generator env fresh.data size).size (ssssort_lambda ssssort)
    (number_of_iterations (generator env fresh.data size).size iterations)
    "ssssort: " true
  rw [← hc] at hcl hco
  generalize (benchmark_allocated c sqrt ssssort std_sort fresh env clock cout cerr size iterations
    generator name stat_stream) = B at *
  obtain ⟨base, hbl, hbd, -⟩ := run_last c B.ssssort_run.env B.ssssort_run.clock
    B.ssssort_run.data
    (std_copy (generator env fresh.data size).data
      (generator env fresh.data size).size fresh.copy)
    B.ssssort_run.out (generator env fresh.data size).size (stdsort_lambda std_sort)
    (number_of_iterations (generator env fresh.data size).size iterations)
    "std::sort: " false
  rw [← hb] at hbl hbd
  refine ⟨cand, base, hcl, hbl, ?_, hrec⟩
  rw [hco, hbd, ← is_sorted_iff, ← hflag]
  cases B.incorrect <;> simp

/-- Past the allocation, an identity candidate next to a sorting baseline on an
input that is not sorted, with at least two iterations: `incorrect` is set, the
call returns, and the candidate's record shows `ok=0`. -/
theorem identity_flagged_allocated (c : Costs τ) (sqrt : τ → τ) (ssssort : Sorter σ T τ)
    (std_sort : InPlaceSorter σ T τ) (fresh : Fresh T)
    (env : σ) (clock : τ) (cout : List (Record τ)) (cerr : List (ErrLine T))
    (size iterations : Nat) (generator : Generator σ T τ) (name : String)
    (stat_stream : Option (List (Record τ)))
    (hid : ∀ (e : σ) (data out : Buf T) (n : Nat),
      (∀ i, i < n → (ssssort e data out n).out i = data i) ∨
      (∀ i, i < n → (ssssort e data out n).out i = out i))
    (hbase : ∀ (e : σ) (data : Buf T) (n : Nat),
      ((std_sort e data n).data.take n).Sorted (fun a b => a ≤ b) ∧
      ((std_sort e data n).data.take n).Perm (data.take n))
    (hns : is_sorted (generator env fresh.data size).data
      (generator env fresh.data size).size = false)
    (hit : 2 ≤ iterations) :
    (benchmark_allocated c sqrt ssssort std_sort fresh env clock cout cerr size iterations generator
      name stat_stream).incorrect = true ∧
    (benchmark_allocated c sqrt ssssort std_sort fresh env clock cout cerr size iterations generator
      name stat_stream).ret = some (generator env fresh.data size).size ∧
    ∃ r1 r2 : Record τ,
      (benchmark_allocated c sqrt ssssort std_sort fresh env clock cout cerr size iterations
        generator name stat_stream).cout = cout ++ [r1, r2] ∧
      r1.algo = "ssssort" ∧ r1.ok = false ∧ r2.algo = "stdsort" := by
  have hits := number_of_iterations_ge (generator env fresh.data size).size iterations hit
  have hflag := benchmark_flag c sqrt ssssort std_sort fresh env clock cout cerr size
    iterations generator name stat_stream
  obtain ⟨r1, r2, hret, hcout, -, ha1, -, -, -, hok, ha2, -⟩ :=
    benchmark_emits c sqrt ssssort std_sort fresh env clock cout cerr size iterations
      generator name stat_stream hits
  have hc := benchmark_ssssort_run c sqrt ssssort std_sort fresh env clock cout cerr size
    iterations generator name stat_stream
  have hb := benchmark_stdsort_run c sqrt ssssort std_sort fresh env clock cout cerr size
    iterations generator name stat_stream
  obtain ⟨cand, ⟨e1, -, hcm, -⟩, hcs, hcd, hcz, -, hco⟩ :=
    run_last_measured_zero c (generator env fresh.data size).env
      (clock + (generator env fresh.data size).elapsed
        + c.copy (generator env fresh.data size).size)
      (generator env fresh.data size).data
      (std_copy (generator env fresh.data size).data
        (generator env fresh.data size).size fresh.copy)
      fresh.out (generator env fresh.data size).size (ssssort_lambda ssssort)
      (number_of_iterations (generator env fresh.data size).size iterations)
      "ssssort: " (by omega)
  rw [← hc] at hco
  generalize (benchmark_allocated c sqrt ssssort std_sort fresh env clock cout cerr size iterations
    generator name stat_stream) = B at *
  obtain ⟨base, ⟨e2, hbm, -, -⟩, hbs, hbd, hbo, -⟩ :=
    run_last_measured c B.ssssort_run.env B.ssssort_run.clock B.ssssort_run.data
      (std_copy (generator env fresh.data size).data
        (generator env fresh.data size).size fresh.copy)
      B.ssssort_run.out (generator env fresh.data size).size (stdsort_lambda std_sort)
      (number_of_iterations (generator env fresh.data size).size iterations)
      "std::sort: " false (by omega)
  rw [← hb] at hbo
  -- the reference copy is not sorted either
  have hcopy : is_sorted (std_copy (generator env fresh.data size).data
      (generator env fresh.data size).size fresh.copy)
      (generator env fresh.data size).size = false := by
    rw [is_sorted_congr _ (generator env fresh.data size).data _
      (fun i hi => std_copy_take _ _ _ i hi)]
    exact hns
  generalize (generator env fresh.data size).size = n at *
  generalize std_copy (generator env fresh.data size).data n fresh.copy = copy at *
  have h2 := hbase e2 base.data n
  rw [hcs] at hcm
  rw [hbs] at hbm
  simp only [ssssort_lambda] at hcm
  simp only [stdsort_lambda] at hbm
  rw [← hbm, hbo, buf_take_congr base.data copy n hbd] at h2
  have htrue : B.incorrect = true := by
    by_contra hne
    have hfalse : B.incorrect = false := by simpa using hne
    obtain ⟨hsorted, heq⟩ := hflag.1 hfalse
    rcases hid e1 cand.data cand.out n with hcp | hidle
    · -- the output is the reference copy, which is not sorted
      have hout : ∀ i, i < n → B.ssssort_run.out i = copy i := by
        intro i hi
        rw [← hco, hcm, hcp i hi, hcd i hi]
      rw [is_sorted_congr _ copy n hout, hcopy] at hsorted
      exact Bool.noConfusion hsorted
    · -- the output is all zero, so the sorted data is, and so is the copy
      have hout : ∀ i, i < n → B.stdsort_run.data i = 0 := by
        intro i hi
        rw [← heq i hi, ← hco, hcm, hidle i hi, hcz i hi]
      have hzero := constant_of_perm _ copy n 0 h2.2 hout
      rw [is_sorted_of_constant copy n 0 hzero] at hcopy
      exact Bool.noConfusion hcopy
  refine ⟨htrue, hret, r1, r2, hcout, ha1, ?_, ha2⟩
  rw [hok, htrue]
  rfl

/-- C11, as amended: in every call of `benchmark` whose three arrays were
allocated, for every generator whose output is not already in non-decreasing
order on `[0, n)` and every iteration count of at least 2, given a baseline
that sorts the first `n` elements of the working buffer in place and a
candidate that is the identity (each call either leaves in the output buffer
the first `n` elements of the working buffer in the order received, or leaves
the output buffer as it received it), `benchmark` sets `incorrect`, returns,
and the candidate's record shows `ok=0`. -/
theorem identity_candidate_flagged (c : Costs τ) (sqrt : τ → τ) (ssssort : Sorter σ T τ)
    (std_sort : InPlaceSorter σ T τ) (fresh : Fresh T)
    (env : σ) (clock : τ) (cout : List (Record τ)) (cerr : List (ErrLine T))
    (size iterations : Nat) (generator : Generator σ T τ) (name : String)
    (stat_stream : Option (List (Record τ))) (B : BenchResult σ T τ)
    (hB : B = benchmark c sqrt ssssort std_sort fresh env clock cout cerr size iterations
      generator name stat_stream)
    (hth : B.thrown = false)
    (hid : ∀ (e : σ) (data out : Buf T) (n : Nat),
      (∀ i, i < n → (ssssort e data out n).out i = data i) ∨
      (∀ i, i < n → (ssssort e data out n).out i = out i))
    (hbase : ∀ (e : σ) (data : Buf T) (n : Nat),
      ((std_sort e data n).data.take n).Sorted (fun a b => a ≤ b) ∧
      ((std_sort e data n).data.take n).Perm (data.take n))
    (hns : is_sorted (generator env fresh.data size).data
      (generator env fresh.data size).size = false)
    (hit : 2 ≤ iterations) :
    B.incorrect = true ∧
    B.ret = some (generator env fresh.data size).size ∧
    ∃ r1 r2 : Record τ,
      B.cout = cout ++ [r1, r2] ∧
      r1.algo = "ssssort" ∧ r1.ok = false ∧ r2.algo = "stdsort" := by
  have hsize : size ≤ PTRDIFF_MAX := by
    rw [hB] at hth
    exact (benchmark_thrown_iff c sqrt ssssort std_sort fresh env clock cout cerr size
      iterations generator name stat_stream).1 hth
  rw [benchmark_of_le _ _ _ _ _ _ _ _ _ _ _ _ _ _ hsize] at hB
  rw [hB]
  exact identity_flagged_allocated c sqrt ssssort std_sort fresh env clock cout cerr size
    iterations generator name stat_stream hid hbase hns hit

/-- An already sorted input passes the verification with a candidate that is
the identity: with the copying identity on the input 1, 2, 3 and with the idle
identity on the input 0, 0, 0, next to a baseline that sorts, `incorrect` is
false and the candidate's record shows `ok=1`. -/
theorem identity_candidate_passes_on_sorted_input :
    (∀ (e : Unit) (data : Buf Nat) (n : Nat),
      ((insertion_std_sort e data n).data.take n).Sorted (fun a b => a ≤ b) ∧
      ((insertion_std_sort e data n).data.take n).Perm (data.take n)) ∧
    (∀ (e : Unit) (data out : Buf Nat) (n i : Nat), i < n →
      (identity_ssssort e data out n).out i = data i) ∧
    (∀ (e : Unit) (data out : Buf Nat) (n : Nat),
      (identity_ssssort e data out n).data = data) ∧
    (benchmark unit_costs (fun x => x) identity_ssssort insertion_std_sort zero_fresh ()
      0 [] [] 3 2 ascending_generator "ascending" none).thrown = false ∧
    (benchmark unit_costs (fun x => x) identity_ssssort insertion_std_sort zero_fresh ()
      0 [] [] 3 2 ascending_generator "ascending" none).incorrect = false ∧
    (benchmark unit_costs (fun x => x) identity_ssssort insertion_std_sort zero_fresh ()
      0 [] [] 3 2 ascending_generator "ascending" none).cout.map
        (fun r => (r.algo, r.ok)) = [("ssssort", true), ("stdsort", true)] ∧
    (benchmark unit_costs (fun x => x) idle_ssssort insertion_std_sort zero_fresh ()
      0 [] [] 3 2 zeros_generator "zeros" none).incorrect = false ∧
    (benchmark unit_costs (fun x => x) idle_ssssort insertion_std_sort zero_fresh ()
      0 [] [] 3 2 zeros_generator "zeros" none).cout.map
        (fun r => (r.algo, r.ok)) = [("ssssort", true), ("stdsort", true)] := by
  refine ⟨insertion_std_sort_sorts, ?_, ?_, by decide, by decide, by decide, by decide,
    by decide⟩
  · intro e data out n i hi
    simp [identity_ssssort, std_copy, hi]
  · intro e data out n
    rfl

/-- The copying identity on the reverse-sorted input 3, 2, 1 with two
iterations: `incorrect` is set and the candidate's record shows `ok=0`. -/
theorem identity_candidate_flagged_witness :
    (benchmark unit_costs (fun x => x) identity_ssssort insertion_std_sort zero_fresh ()
      0 [] [] 3 2 descending_generator "descending" none).thrown = false ∧
    (∀ (e : Unit) (data out : Buf Nat) (n : Nat),
      (∀ i, i < n → (identity_ssssort e data out n).out i = data i) ∨
      (∀ i, i < n → (identity_ssssort e data out n).out i = out i)) ∧
    (∀ (e : Unit) (data : Buf Nat) (n : Nat),
      ((insertion_std_sort e data n).data.take n).Sorted (fun a b => a ≤ b) ∧
      ((insertion_std_sort e data n).data.take n).Perm (data.take n)) ∧
    is_sorted (descending_generator () zero_fresh.data 3).data
      (descending_generator () zero_fresh.data 3).size = false ∧
    2 ≤ 2 ∧
    (benchmark unit_costs (fun x => x) identity_ssssort insertion_std_sort zero_fresh ()
      0 [] [] 3 2 descending_generator "descending" none).incorrect = true ∧
    (benchmark unit_costs (fun x => x) identity_ssssort insertion_std_sort zero_fresh ()
      0 [] [] 3 2 descending_generator "descending" none).ret
      = some (descending_generator () zero_fresh.data 3).size ∧
    ∃ r1 r2 : Record ℚ,
      (benchmark unit_costs (fun x => x) identity_ssssort insertion_std_sort zero_fresh ()
        0 [] [] 3 2 descending_generator "descending" none).cout = [] ++ [r1, r2] ∧
      r1.algo = "ssssort" ∧ r1.ok = false ∧ r2.algo = "stdsort" :=
  have hid : ∀ (e : Unit) (data out : Buf Nat) (n : Nat),
      (∀ i, i < n → (identity_ssssort e data out n).out i = data i) ∨
      (∀ i, i < n → (identity_ssssort e data out n).out i = out i) :=
    fun e data out n => Or.inl (fun i hi => by simp [identity_ssssort, std_copy, hi])
  ⟨by decide, hid, insertion_std_sort_sorts, by decide, le_refl 2,
    identity_candidate_flagged unit_costs (fun x => x) identity_ssssort insertion_std_sort
      zero_fresh () 0 [] [] 3 2 descending_generator "descending" none _ rfl (by decide)
      hid insertion_std_sort_sorts (by decide) (le_refl 2)⟩

end VerifyClaims

/-! ## What `benchmark` returns and writes -/

section OutputClaims

variable {σ T τ : Type} [Zero T] [LinearOrder T] [LinearOrderedField τ]

/-- Past the allocation and with at least two iterations, the element count of
the generator is what is returned and what every later step uses. -/
theorem allocated_returns_generator_count (c : Costs τ) (sqrt : τ → τ)
    (ssssort : Sorter σ T τ) (std_sort : InPlaceSorter σ T τ) (fresh : Fresh T)
    (env : σ) (clock : τ) (cout : List (Record τ)) (cerr : List (ErrLine T))
    (size iterations : Nat) (generator : Generator σ T τ) (name : String)
    (stat_stream : Option (List (Record τ))) (hit : 2 ≤ iterations) :
    (benchmark_allocated c sqrt ssssort std_sort fresh env clock cout cerr size iterations generator
      name stat_stream).ret = some (generator env fresh.data size).size ∧
    (benchmark_allocated c sqrt ssssort std_sort fresh env clock cout cerr size iterations generator
      name stat_stream).ssssort_run.copy
      = std_copy (generator env fresh.data size).data
          (generator env fresh.data size).size fresh.copy ∧
    (benchmark_allocated c sqrt ssssort std_sort fresh env clock cout cerr size iterations generator
      name stat_stream).stdsort_run.copy
      = std_copy (generator env fresh.data size).data
          (generator env fresh.data size).size fresh.copy ∧
    (∀ cl ∈ calls (benchmark_allocated c sqrt ssssort std_sort fresh env clock cout cerr size
        iterations generator name stat_stream).ssssort_run.trace,
      cl.size = (generator env fresh.data size).size) ∧
    (∀ cl ∈ calls (benchmark_allocated c sqrt ssssort std_sort fresh env clock cout cerr size
        iterations generator name stat_stream).stdsort_run.trace,
      cl.size = (generator env fresh.data size).size) ∧
    (benchmark_allocated c sqrt ssssort std_sort fresh env clock cout cerr size iterations generator
      name stat_stream).incorrect
      = (verify
          (benchmark_allocated c sqrt ssssort std_sort fresh env clock cout cerr size iterations
            generator name stat_stream).stdsort_run.out
          (benchmark_allocated c sqrt ssssort std_sort fresh env clock cout cerr size iterations
            generator name stat_stream).stdsort_run.data
          (generator env fresh.data size).size cerr).1 ∧
    ∃ r1 r2 : Record τ,
      (benchmark_allocated c sqrt ssssort std_sort fresh env clock cout cerr size iterations
        generator name stat_stream).cout = cout ++ [r1, r2] ∧
      r1.size = (generator env fresh.data size).size ∧
      r2.size = (generator env fresh.data size).size := by
  have hits := number_of_iterations_ge (generator env fresh.data size).size iterations hit
  obtain ⟨r1, r2, hret, hcout, -, -, -, hs1, -, -, -, -, hs2, -⟩ :=
    benchmark_emits c sqrt ssssort std_sort fresh env clock cout cerr size iterations
      generator name stat_stream hits
  have hinc := benchmark_incorrect c sqrt ssssort std_sort fresh env clock cout cerr size
    iterations generator name stat_stream
  obtain ⟨hsz, -, -, -, -, -, hc1, hc2, hcp1, hcp2⟩ :=
    benchmark_runs c sqrt ssssort std_sort fresh env clock cout cerr size iterations
      generator name stat_stream _ rfl
  rw [hsz] at hc1 hc2 hcp1 hcp2
  exact ⟨hret, hcp1, hcp2, hc1, hc2, hinc, r1, r2, hcout, hs1, hs2⟩

/-- C12, as amended: in every call of `benchmark` whose three arrays were
allocated, for every requested size and generator and every iteration count of
at least 2, `benchmark` returns exactly the element count `n` that the
generator returned, and `n`, not the requested size, is the length used for the
reference copy, for every sorter call of both trial runs, for the verification
and for the `size` field of both result records. -/
theorem benchmark_returns_generator_count (c : Costs τ) (sqrt : τ → τ)
    (ssssort : Sorter σ T τ) (std_sort : InPlaceSorter σ T τ) (fresh : Fresh T)
    (env : σ) (clock : τ) (cout : List (Record τ)) (cerr : List (ErrLine T))
    (size iterations : Nat) (generator : Generator σ T τ) (name : String)
    (stat_stream : Option (List (Record τ))) (B : BenchResult σ T τ)
    (hB : B = benchmark c sqrt ssssort std_sort fresh env clock cout cerr size iterations
      generator name stat_stream)
    (hth : B.thrown = false) (hit : 2 ≤ iterations) :
    B.ret = some (generator env fresh.data size).size ∧
    B.ssssort_run.copy
      = std_copy (generator env fresh.data size).data
          (generator env fresh.data size).size fresh.copy ∧
    B.stdsort_run.copy
      = std_copy (generator env fresh.data size).data
          (generator env fresh.data size).size fresh.copy ∧
    (∀ cl ∈ calls B.ssssort_run.trace, cl.size = (generator env fresh.data size).size) ∧
    (∀ cl ∈ calls B.stdsort_run.trace, cl.size = (generator env fresh.data size).size) ∧
    B.incorrect
      = (verify B.stdsort_run.out B.stdsort_run.data
          (generator env fresh.data size).size cerr).1 ∧
    ∃ r1 r2 : Record τ,
      B.cout = cout ++ [r1, r2] ∧
      r1.size = (generator env fresh.data size).size ∧
      r2.size = (generator env fresh.data size).size := by
  have hsize : size ≤ PTRDIFF_MAX := by
    rw [hB] at hth
    exact (benchmark_thrown_iff c sqrt ssssort std_sort fresh env clock cout cerr size
      iterations generator name stat_stream).1 hth
  rw [benchmark_of_le _ _ _ _ _ _ _ _ _ _ _ _ _ _ hsize] at hB
  rw [hB]
  exact allocated_returns_generator_count c sqrt ssssort std_sort fresh env clock cout cerr
    size iterations generator name stat_stream hit

/-- Two calls of `benchmark` that do not return. With an iteration count of 1
the generator returned 3 elements and the call was stopped by the `assert` of
`stddev`. At the requested size `2^64 - 2^31`, with two iterations, `new` threw:
no sorter was called. Neither has written a record. -/
theorem benchmark_single_iteration_does_not_return :
    (descending_generator () zero_fresh.data 3).size = 3 ∧
    (benchmark unit_costs (fun x => x) insertion_ssssort insertion_std_sort zero_fresh ()
      0 [] [] 3 1 descending_generator "descending" none).thrown = false ∧
    (benchmark unit_costs (fun x => x) insertion_ssssort insertion_std_sort zero_fresh ()
      0 [] [] 3 1 descending_generator "descending" none).ret = none ∧
    (benchmark unit_costs (fun x => x) insertion_ssssort insertion_std_sort zero_fresh ()
      0 [] [] 3 1 descending_generator "descending" none).cout = [] ∧
    (benchmark unit_costs (fun x => x) insertion_ssssort insertion_std_sort zero_fresh ()
      0 [] [] (2 ^ 64 - 2 ^ 31) 2 descending_generator "descending" none).thrown = true ∧
    (benchmark unit_costs (fun x => x) insertion_ssssort insertion_std_sort zero_fresh ()
      0 [] [] (2 ^ 64 - 2 ^ 31) 2 descending_generator "descending" none).ret = none ∧
    (calls (benchmark unit_costs (fun x => x) insertion_ssssort insertion_std_sort
      zero_fresh () 0 [] [] (2 ^ 64 - 2 ^ 31) 2 descending_generator "descending"
      none).ssssort_run.trace).length = 0 ∧
    (benchmark unit_costs (fun x => x) insertion_ssssort insertion_std_sort zero_fresh ()
      0 [] [] (2 ^ 64 - 2 ^ 31) 2 descending_generator "descending" none).cout = [] := by
  refine ⟨by decide, by decide, by decide, ?_, by decide, by decide, by decide, ?_⟩
  · rw [benchmark_of_le _ _ _ _ _ _ _ _ _ _ _ _ _ _ (by decide)]
    exact (benchmark_stopped unit_costs (fun x => x) insertion_ssssort insertion_std_sort
      zero_fresh () 0 [] [] 3 1 descending_generator "descending" none (by decide)).2.1
  · rw [benchmark_of_gt _ _ _ _ _ _ _ _ _ _ _ _ _ _ (by decide)]
    rfl

/-- A capped generator asked for 1024 elements returns 1000, and `benchmark`
returns 1000 and writes records of size 1000. -/
theorem benchmark_returns_generator_count_witness :
    (benchmark unit_costs (fun x => x) insertion_ssssort insertion_std_sort zero_fresh ()
      0 [] [] 1024 2 capped_generator "capped" none).thrown = false ∧
    2 ≤ 2 ∧
    (capped_generator () zero_fresh.data 1024).size = 1000 ∧
    (benchmark unit_costs (fun x => x) insertion_ssssort insertion_std_sort zero_fresh ()
      0 [] [] 1024 2 capped_generator "capped" none).ret = some 1000 ∧
    ∃ r1 r2 : Record ℚ,
      (benchmark unit_costs (fun x => x) insertion_ssssort insertion_std_sort zero_fresh ()
        0 [] [] 1024 2 capped_generator "capped" none).cout = [] ++ [r1, r2] ∧
      r1.size = 1000 ∧ r2.size = 1000 := by
  have hth : (benchmark unit_costs (fun x : ℚ => x) insertion_ssssort insertion_std_sort
      zero_fresh () 0 [] [] 1024 2 capped_generator "capped" none).thrown = false :=
    (benchmark_thrown_iff _ _ _ _ _ _ _ _ _ _ _ _ _ _).2 (by decide)
  have h := benchmark_returns_generator_count unit_costs (fun x => x) insertion_ssssort
    insertion_std_sort zero_fresh () 0 [] [] 1024 2 capped_generator "capped" none _ rfl
    hth (le_refl 2)
  have hn : (capped_generator () zero_fresh.data 1024).size = 1000 := by decide
  rw [hn] at h
  exact ⟨hth, le_refl 2, hn, h.1, h.2.2.2.2.2.2⟩

/-- C16: a failed verification is not fatal and changes only the `ok` field of
the candidate's record. Of two executions of `benchmark` (of its body past the
allocation of the arrays, `benchmark_allocated`) with the same name and
streams that have the same element count, the same iteration count and the
same timer readings (generation time, pushed samples of both runs,
verification time), whatever the outcome of their verification: both return
the same value, which depends on the iteration count alone; their records agree
in every field but `ok`, and the baseline's records agree in `ok` too; and the
loop of either sweep takes the same step after them. -/
theorem failed_verification_changes_only_ok (sqrt : τ → τ) (name : String)
    (cout : List (Record τ)) (stat_stream : Option (List (Record τ)))
    (c1 c2 : Costs τ) (ssssort1 ssssort2 : Sorter σ T τ)
    (std_sort1 std_sort2 : InPlaceSorter σ T τ) (fresh1 fresh2 : Fresh T)
    (env1 env2 : σ) (clock1 clock2 : τ) (cerr1 cerr2 : List (ErrLine T))
    (size1 size2 iterations1 iterations2 : Nat) (generator1 generator2 : Generator σ T τ)
    (B1 B2 : BenchResult σ T τ)
    (h1 : B1 = benchmark_allocated c1 sqrt ssssort1 std_sort1 fresh1 env1 clock1 cout cerr1 size1
      iterations1 generator1 name stat_stream)
    (h2 : B2 = benchmark_allocated c2 sqrt ssssort2 std_sort2 fresh2 env2 clock2 cout cerr2 size2
      iterations2 generator2 name stat_stream)
    (hn : B1.size = B2.size) (hit : B1.iterations = B2.iterations)
    (hgen : B1.t_generate = B2.t_generate) (hver : B1.t_verify = B2.t_verify)
    (hs : pushed B1.ssssort_run.trace = pushed B2.ssssort_run.trace)
    (hb : pushed B1.stdsort_run.trace = pushed B2.stdsort_run.trace) :
    B1.ret = B2.ret ∧
    B1.ret = (if 2 ≤ B1.iterations then some B1.size else none) ∧
    B1.cout.map Record.clear_ok = B2.cout.map Record.clear_ok ∧
    B1.stat_stream.map (List.map Record.clear_ok)
      = B2.stat_stream.map (List.map Record.clear_ok) ∧
    B1.cout.filter (fun r => decide (r.algo = "stdsort"))
      = B2.cout.filter (fun r => decide (r.algo = "stdsort")) ∧
    unconditional_step B1.ret = unconditional_step B2.ret ∧
    (∀ size, sized_step B1.ret size = sized_step B2.ret size) := by
  obtain ⟨-, -, hst1, hsb1, -⟩ :=
    benchmark_runs c1 sqrt ssssort1 std_sort1 fresh1 env1 clock1 cout cerr1 size1
      iterations1 generator1 name stat_stream B1 h1
  obtain ⟨-, -, hst2, hsb2, -⟩ :=
    benchmark_runs c2 sqrt ssssort2 std_sort2 fresh2 env2 clock2 cout cerr2 size2
      iterations2 generator2 name stat_stream B2 h2
  have hstats : B1.ssssort_run.stats = B2.ssssort_run.stats := by rw [hst1, hst2, hs]
  have hstatb : B1.stdsort_run.stats = B2.stdsort_run.stats := by rw [hsb1, hsb2, hb]
  have hret : B1.ret = B2.ret ∧
      B1.ret = (if 2 ≤ B1.iterations then some B1.size else none) ∧
      B1.cout.map Record.clear_ok = B2.cout.map Record.clear_ok ∧
      B1.stat_stream.map (List.map Record.clear_ok)
        = B2.stat_stream.map (List.map Record.clear_ok) ∧
      B1.cout.filter (fun r => decide (r.algo = "stdsort"))
        = B2.cout.filter (fun r => decide (r.algo = "stdsort")) := by
    rcases benchmark_outcome c1 sqrt ssssort1 std_sort1 fresh1 env1 clock1 cout cerr1 size1
        iterations1 generator1 name stat_stream B1 h1 with
      ⟨hle1, hr1, hc1, hss1⟩ | ⟨hge1, a1, b1, ha1, hb1, hr1, hc1, hss1⟩
    · rcases benchmark_outcome c2 sqrt ssssort2 std_sort2 fresh2 env2 clock2 cout cerr2
          size2 iterations2 generator2 name stat_stream B2 h2 with
        ⟨hle2, hr2, hc2, hss2⟩ | ⟨hge2, a2, b2, ha2, hb2, hr2, hc2, hss2⟩
      · refine ⟨by rw [hr1, hr2], ?_, by rw [hc1, hc2], by rw [hss1, hss2],
          by rw [hc1, hc2]⟩
        rw [hr1, if_neg (by omega)]
      · omega
    · rcases benchmark_outcome c2 sqrt ssssort2 std_sort2 fresh2 env2 clock2 cout cerr2
          size2 iterations2 generator2 name stat_stream B2 h2 with
        ⟨hle2, hr2, hc2, hss2⟩ | ⟨hge2, a2, b2, ha2, hb2, hr2, hc2, hss2⟩
      · omega
      · have hsd : a1 = a2 := by
          rw [hstats, ha2] at ha1
          exact (Option.some.inj ha1).symm
        have hsdb : b1 = b2 := by
          rw [hstatb, hb2] at hb1
          exact (Option.some.inj hb1).symm
        subst hsd
        subst hsdb
        refine ⟨by rw [hr1, hr2, hn], ?_, ?_, ?_, ?_⟩
        · rw [hr1, if_pos hge1]
        · rw [hc1, hc2, hn, hit, hgen, hver, hstats, hstatb]
          simp [Record.clear_ok]
        · rw [hss1, hss2, hn, hit, hgen, hver, hstats, hstatb]
          cases stat_stream <;> simp [Record.clear_ok]
        · rw [hc1, hc2, hn, hit, hgen, hstatb]
          simp [List.filter_append, List.filter_cons]
  obtain ⟨e1, e2, e3, e4, e5⟩ := hret
  refine ⟨e1, e2, e3, e4, e5, by rw [e1], fun size => by rw [e1]⟩

/-- Two executions on the input 3, 2, 1 with two iterations, one with a
candidate that sorts and one with the copying identity, whose steps take the
same time: the first passes the verification, the second fails it, and they
return the same count and write records that differ only in `ok`. -/
theorem failed_verification_changes_only_ok_witness :
    (benchmark_allocated unit_costs (fun x => x) insertion_ssssort insertion_std_sort zero_fresh ()
      0 [] [] 3 2 descending_generator "descending" (some [])).incorrect = false ∧
    (benchmark_allocated unit_costs (fun x => x) identity_ssssort insertion_std_sort zero_fresh ()
      0 [] [] 3 2 descending_generator "descending" (some [])).incorrect = true ∧
    (benchmark_allocated unit_costs (fun x => x) insertion_ssssort insertion_std_sort zero_fresh ()
      0 [] [] 3 2 descending_generator "descending" (some [])).ret
      = (benchmark_allocated unit_costs (fun x => x) identity_ssssort insertion_std_sort zero_fresh
          () 0 [] [] 3 2 descending_generator "descending" (some [])).ret ∧
    (benchmark_allocated unit_costs (fun x => x) insertion_ssssort insertion_std_sort zero_fresh ()
      0 [] [] 3 2 descending_generator "descending" (some [])).cout.map Record.clear_ok
      = (benchmark_allocated unit_costs (fun x => x) identity_ssssort insertion_std_sort zero_fresh
          () 0 [] [] 3 2 descending_generator "descending" (some [])).cout.map
            Record.clear_ok ∧
    (benchmark_allocated unit_costs (fun x => x) insertion_ssssort insertion_std_sort zero_fresh ()
      0 [] [] 3 2 descending_generator "descending" (some [])).cout.map (fun r => r.ok)
      = [true, true] ∧
    (benchmark_allocated unit_costs (fun x => x) identity_ssssort insertion_std_sort zero_fresh ()
      0 [] [] 3 2 descending_generator "descending" (some [])).cout.map (fun r => r.ok)
      = [false, true] := by
  have t1 := benchmark_times unit_costs (fun x : ℚ => x) insertion_ssssort
    insertion_std_sort zero_fresh () 0 [] [] 3 2 descending_generator "descending" (some [])
  have t2 := benchmark_times unit_costs (fun x : ℚ => x) identity_ssssort
    insertion_std_sort zero_fresh () 0 [] [] 3 2 descending_generator "descending" (some [])
  have p1 := benchmark_pushed_constant unit_costs (fun x : ℚ => x) insertion_ssssort
    insertion_std_sort zero_fresh () 0 [] [] 3 2 descending_generator "descending" (some [])
    1 2 (fun _ _ _ _ => rfl) (fun _ _ _ => rfl)
  have p2 := benchmark_pushed_constant unit_costs (fun x : ℚ => x) identity_ssssort
    insertion_std_sort zero_fresh () 0 [] [] 3 2 descending_generator "descending" (some [])
    1 2 (fun _ _ _ _ => rfl) (fun _ _ _ => rfl)
  have h := failed_verification_changes_only_ok (fun x : ℚ => x) "descending" []
    (some []) unit_costs unit_costs insertion_ssssort identity_ssssort insertion_std_sort
    insertion_std_sort zero_fresh zero_fresh () () 0 0 [] [] 3 3 2 2 descending_generator
    descending_generator _ _ rfl rfl (by decide) (by decide) (t1.1.trans t2.1.symm)
    (t1.2.trans t2.2.symm) (p1.1.trans p2.1.symm) (p1.2.trans p2.2.symm)
  exact ⟨by decide, by decide, h.1, h.2.2.1, by decide, by decide⟩

end OutputClaims

/-! ## The sweeps -/

section SweepClaims

variable {σ T τ : Type} [Zero T] [LinearOrder T] [LinearOrderedField τ]

/-- C13, as amended: for every generator, every iteration count of at least 2
and every maximum exponent up to 31, `sized_benchmark_generator` ends by
returning; after its warm-up it benchmarks the requested sizes `2^10`, `2^11`,
... in increasing order, every call reporting the count the generator
returned; no call before the last reports a count smaller than the requested
size, and if fewer than `max_log_size - 10` sizes were benchmarked the last call
reported a count smaller than its requested size. With a generator that always
returns `min(requested_size, 1000)` the only size benchmarked is `2^10`. -/
theorem sized_sweep_stops_at_first_short_fill (c : Costs τ) (sqrt : τ → τ)
    (ssssort : Sorter σ T τ) (std_sort : InPlaceSorter σ T τ) (fresh : Nat → Fresh T)
    (env : σ) (clock : τ) (cout : List (Record τ)) (cerr : List (ErrLine T))
    (generator : Generator σ T τ) (name : String) (iterations : Nat)
    (stat_stream : Option (List (Record τ))) (max_log_size : Nat)
    (S : SweepResult σ T τ)
    (hS : S = sized_benchmark_generator c sqrt ssssort std_sort fresh env clock cout cerr
      generator name iterations stat_stream max_log_size)
    (hit : 2 ≤ iterations) (hmax : max_log_size ≤ 31) :
    S.status = SweepStatus.finished ∧
    S.measured.length ≤ max_log_size - 10 ∧
    S.measured.map Prod.fst = (List.range' 10 S.measured.length).map (fun k => 2 ^ k) ∧
    (∀ p ∈ S.measured, p.2.ret = some p.2.size ∧
      ∃ (e : σ) (d : Buf T), p.2.size = (generator e d p.1).size) ∧
    (∀ p ∈ S.measured.dropLast, ¬ p.2.size < p.1) ∧
    (S.measured.length < max_log_size - 10 →
      ∃ p, S.measured.getLast? = some p ∧ p.2.size < p.1) ∧
    ((∀ (e : σ) (d : Buf T) (n : Nat), (generator e d n).size = min n 1000) →
      11 ≤ max_log_size →
      S.measured.map (fun p => (p.1, p.2.ret)) = [(1024, some 1000)]) := by
  rw [sized_benchmark_generator_unfold] at hS
  obtain ⟨hr, -⟩ := warmup_returns c sqrt ssssort std_sort (fresh 0) env clock cout cerr
    generator _ rfl
  obtain ⟨h1, h2, -⟩ := sweep_start_fields
    (benchmark c sqrt ssssort std_sort (fresh 0) env clock cout cerr (1 <<< 10) 10
      generator "warmup" none) stat_stream hr
  obtain ⟨ms, hm, hs, hl, hf, hall, hd, hg⟩ :=
    sweep_loop_sizes c sqrt ssssort std_sort fresh sized_step sized_step_ne_stop generator
      name iterations hit (max_log_size - 10) 10
      (sweep_start
        (benchmark c sqrt ssssort std_sort (fresh 0) env clock cout cerr (1 <<< 10) 10
          generator "warmup" none) stat_stream) (by omega)
  rw [← hS] at hm hs
  rw [h2, List.nil_append] at hm
  rw [h1] at hs
  rw [hm]
  have hdrop : ∀ p ∈ ms.dropLast, ¬ p.2.size < p.1 := by
    intro p hp
    have hnext := hd p hp
    rw [(hall p (List.mem_of_mem_dropLast hp)).1] at hnext
    exact (sized_step_next_iff _ _).1 hnext
  have hlast : ms.length < max_log_size - 10 →
      ∃ p, ms.getLast? = some p ∧ p.2.size < p.1 := by
    intro hlt
    obtain ⟨p, hp, hleave⟩ := hg hlt
    rw [(hall p (List.mem_of_getLast?_eq_some hp)).1] at hleave
    exact ⟨p, hp, (sized_step_leave_iff _ _).1 hleave⟩
  refine ⟨hs, hl, hf, hall, hdrop, hlast, ?_⟩
  intro hcap hge
  cases ms with
  | nil =>
    obtain ⟨p, hp, -⟩ := hlast (by simp only [List.length_nil]; omega)
    simp at hp
  | cons p rest =>
    have hp1 : p.1 = 1024 := by
      simp only [List.map_cons, List.length_cons, List.range'_succ] at hf
      rw [(List.cons.inj hf).1]
      rfl
    obtain ⟨hpr, e, d, hps⟩ := hall p (List.mem_cons_self _ _)
    rw [hcap, hp1] at hps
    have hps2 : p.2.size = 1000 := by rw [hps]; rfl
    cases rest with
    | nil => simp [hp1, hpr, hps2]
    | cons x xs =>
      have := hdrop p (by rw [List.dropLast_cons₂]; exact List.mem_cons_self _ _)
      rw [hps2, hp1] at this
      omega

/-- With an iteration count of 1 and a generator that fills every size asked
for, `sized_benchmark_generator` with `max_log_size = 12` benchmarks the size
`2^10` only: the call does not return and the program is stopped, although the
count reported is not smaller than the requested size. -/
theorem sized_sweep_stopped_with_one_iteration :
    (sized_benchmark_generator unit_costs (fun x => x) insertion_ssssort insertion_std_sort
      (fun _ => zero_fresh) () 0 [] [] descending_generator "descending" 1 (some [])
      12).measured.map (fun p => (p.1, p.2.size, p.2.ret)) = [(1024, 1024, none)] ∧
    (sized_benchmark_generator unit_costs (fun x => x) insertion_ssssort insertion_std_sort
      (fun _ => zero_fresh) () 0 [] [] descending_generator "descending" 1 (some [])
      12).status = SweepStatus.stopped := by
  constructor <;> decide

/-- The capped generator with two iterations and the default maximum exponent:
the sweep returns after the size `2^10`, for which 1000 elements were
reported. -/
theorem sized_sweep_stops_at_first_short_fill_witness :
    2 ≤ 2 ∧ default_max_log_size ≤ 31 ∧
    (sized_benchmark_generator unit_costs (fun x => x) insertion_ssssort insertion_std_sort
      (fun _ => zero_fresh) () 0 [] [] capped_generator "capped" 2 (some [])
      default_max_log_size).status = SweepStatus.finished ∧
    (sized_benchmark_generator unit_costs (fun x => x) insertion_ssssort insertion_std_sort
      (fun _ => zero_fresh) () 0 [] [] capped_generator "capped" 2 (some [])
      default_max_log_size).measured.map (fun p => (p.1, p.2.ret))
      = [(1024, some 1000)] := by
  have h := sized_sweep_stops_at_first_short_fill unit_costs (fun x : ℚ => x)
    insertion_ssssort insertion_std_sort (fun _ => zero_fresh) () 0 [] [] capped_generator
    "capped" 2 (some []) default_max_log_size _ rfl (le_refl 2) (by decide)
  exact ⟨le_refl 2, by decide, h.1, h.2.2.2.2.2.2 (fun _ _ _ => rfl) (by decide)⟩

/-- C14, as amended: for every generator (also one that fills fewer elements
than requested), every iteration count of at least 2 and every `max_log_size`
up to 31, `benchmark_generator` ends by returning and runs, after its warm-up,
exactly `max_log_size - 10` measured benchmarks, at the requested sizes `2^10`,
`2^11`, ..., `2^(max_log_size - 1)` in that order, each of which returns. -/
theorem unconditional_sweep_runs_every_size (c : Costs τ) (sqrt : τ → τ)
    (ssssort : Sorter σ T τ) (std_sort : InPlaceSorter σ T τ) (fresh : Nat → Fresh T)
    (env : σ) (clock : τ) (cout : List (Record τ)) (cerr : List (ErrLine T))
    (generator : Generator σ T τ) (name : String) (iterations : Nat)
    (stat_stream : Option (List (Record τ))) (max_log_size : Nat)
    (S : SweepResult σ T τ)
    (hS : S = benchmark_generator c sqrt ssssort std_sort fresh env clock cout cerr
      generator name iterations stat_stream max_log_size)
    (hit : 2 ≤ iterations) (hmax : max_log_size ≤ 31) :
    S.status = SweepStatus.finished ∧
    S.measured.length = max_log_size - 10 ∧
    S.measured.map Prod.fst
      = (List.range' 10 (max_log_size - 10)).map (fun k => 2 ^ k) ∧
    (∀ p ∈ S.measured, p.2.ret = some p.1) := by
  rw [benchmark_generator_unfold] at hS
  obtain ⟨hr, -⟩ := warmup_returns c sqrt ssssort std_sort (fresh 0) env clock cout cerr
    (wrapped_generator generator) _ rfl
  obtain ⟨h1, h2, -⟩ := sweep_start_fields
    (benchmark c sqrt ssssort std_sort (fresh 0) env clock cout cerr (1 <<< 10) 10
      (wrapped_generator generator) "warmup" none) stat_stream hr
  obtain ⟨ms, hm, hs, hl, hf, hall, -, hg⟩ :=
    sweep_loop_sizes c sqrt ssssort std_sort fresh (fun ret _ => unconditional_step ret)
      (fun _ _ => by simp [unconditional_step]) (wrapped_generator generator)
      name iterations hit (max_log_size - 10) 10
      (sweep_start
        (benchmark c sqrt ssssort std_sort (fresh 0) env clock cout cerr (1 <<< 10) 10
          (wrapped_generator generator) "warmup" none) stat_stream) (by omega)
  rw [← hS] at hm hs
  rw [h2, List.nil_append] at hm
  rw [h1] at hs
  rw [hm]
  have hlen : ms.length = max_log_size - 10 := by
    by_contra hne
    obtain ⟨p, hp, hleave⟩ := hg (by omega)
    rw [(hall p (List.mem_of_getLast?_eq_some hp)).1] at hleave
    simp [unconditional_step] at hleave
  refine ⟨hs, hlen, by rw [hf, hlen], ?_⟩
  intro p hp
  obtain ⟨hpr, e, d, hps⟩ := hall p hp
  rw [hpr, hps]
  rfl

/-- With an iteration count of 1, `benchmark_generator` with `max_log_size = 12`
runs one measured benchmark, not two: the call at size `2^10` does not return
and the program is stopped. -/
theorem unconditional_sweep_stopped_with_one_iteration :
    (benchmark_generator unit_costs (fun x => x) insertion_ssssort insertion_std_sort
      (fun _ => zero_fresh) () 0 [] [] descending_generator "descending" 1 (some [])
      12).measured.map (fun p => (p.1, p.2.ret)) = [(1024, none)] ∧
    (benchmark_generator unit_costs (fun x => x) insertion_ssssort insertion_std_sort
      (fun _ => zero_fresh) () 0 [] [] descending_generator "descending" 1 (some [])
      12).status = SweepStatus.stopped := by
  constructor <;> decide

/-- The capped generator with two iterations and `max_log_size = 12`: two
measured benchmarks, at the sizes `2^10` and `2^11`, both returning. -/
theorem unconditional_sweep_runs_every_size_witness :
    2 ≤ 2 ∧ 12 ≤ 31 ∧
    (benchmark_generator unit_costs (fun x => x) insertion_ssssort insertion_std_sort
      (fun _ => zero_fresh) () 0 [] [] capped_generator "capped" 2 (some [])
      12).status = SweepStatus.finished ∧
    (benchmark_generator unit_costs (fun x => x) insertion_ssssort insertion_std_sort
      (fun _ => zero_fresh) () 0 [] [] capped_generator "capped" 2 (some [])
      12).measured.length = 12 - 10 ∧
    (benchmark_generator unit_costs (fun x => x) insertion_ssssort insertion_std_sort
      (fun _ => zero_fresh) () 0 [] [] capped_generator "capped" 2 (some [])
      12).measured.map Prod.fst = (List.range' 10 (12 - 10)).map (fun k => 2 ^ k) := by
  have h := unconditional_sweep_runs_every_size unit_costs (fun x : ℚ => x)
    insertion_ssssort insertion_std_sort (fun _ => zero_fresh) () 0 [] [] capped_generator
    "capped" 2 (some []) 12 _ rfl (le_refl 2) (by decide)
  exact ⟨le_refl 2, by decide, h.1, h.2.1, h.2.2.1⟩

/-- C15, as amended: in the unconditional sweep `benchmark_generator`, for every
generator, the size recorded at each step (the value `benchmark` uses as `n`,
which is the `size` field of the records it writes) is the requested size of
that step, whatever count the generator returned: the wrapper
`wrapped_generator` calls the generator and returns the requested size. -/
theorem unconditional_sweep_records_requested_size (c : Costs τ) (sqrt : τ → τ)
    (ssssort : Sorter σ T τ) (std_sort : InPlaceSorter σ T τ) (fresh : Nat → Fresh T)
    (env : σ) (clock : τ) (cout : List (Record τ)) (cerr : List (ErrLine T))
    (generator : Generator σ T τ) (name : String) (iterations : Nat)
    (stat_stream : Option (List (Record τ))) (max_log_size : Nat)
    (S : SweepResult σ T τ)
    (hS : S = benchmark_generator c sqrt ssssort std_sort fresh env clock cout cerr
      generator name iterations stat_stream max_log_size) :
    (∀ (e : σ) (d : Buf T) (n : Nat),
      (wrapped_generator generator e d n).size = n ∧
      (wrapped_generator generator e d n).data = (generator e d n).data) ∧
    (∀ p ∈ S.measured, p.2.size = p.1 ∧
      ∃ pre recs : List (Record τ),
        p.2.cout = pre ++ recs ∧
        recs.length = 2 * ([p.2].filter (fun b => b.ret.isSome)).length ∧
        ∀ r ∈ recs, r.size = p.1) := by
  refine ⟨fun e d n => ⟨rfl, rfl⟩, ?_⟩
  rw [benchmark_generator_unfold] at hS
  obtain ⟨hr, -⟩ := warmup_returns c sqrt ssssort std_sort (fresh 0) env clock cout cerr
    (wrapped_generator generator) _ rfl
  obtain ⟨-, h2, -⟩ := sweep_start_fields
    (benchmark c sqrt ssssort std_sort (fresh 0) env clock cout cerr (1 <<< 10) 10
      (wrapped_generator generator) "warmup" none) stat_stream hr
  obtain ⟨ms, recs, hm, -, -, -, -, -, hcall⟩ :=
    sweep_loop_streams c sqrt ssssort std_sort fresh (fun ret _ => unconditional_step ret)
      (wrapped_generator generator) name iterations (max_log_size - 10) 10
      (sweep_start
        (benchmark c sqrt ssssort std_sort (fresh 0) env clock cout cerr (1 <<< 10) 10
          (wrapped_generator generator) "warmup" none) stat_stream)
  rw [← hS] at hm
  rw [h2, List.nil_append] at hm
  rw [hm]
  intro p hp
  obtain ⟨f, e, k, co, ce, ss, hpb⟩ := hcall p hp
  have hsz : p.2.size = p.1 := by
    rw [hpb, benchmark_wrapped_size]
  obtain ⟨brecs, hbc, -, hbl, hbn⟩ :=
    benchmark_written c sqrt ssssort std_sort f e k co ce p.1 iterations
      (wrapped_generator generator) name ss p.2 hpb
  refine ⟨hsz, co, brecs, hbc, hbl, ?_⟩
  intro r hr
  rw [(hbn r hr).2, hsz]

/-- The capped generator in `benchmark_generator` with `max_log_size = 11`: at
the step of requested size 1024 the generator returns 1000, and the size
recorded, in the state and in both records of the stream, is 1024. -/
theorem unconditional_sweep_records_not_the_returned_count :
    (capped_generator () zero_fresh.data 1024).size = 1000 ∧
    (benchmark_generator unit_costs (fun x => x) insertion_ssssort insertion_std_sort
      (fun _ => zero_fresh) () 0 [] [] capped_generator "capped" 2 (some [])
      11).measured.map (fun p => (p.1, p.2.size, p.2.ret)) = [(1024, 1024, some 1024)] ∧
    (benchmark_generator unit_costs (fun x => x) insertion_ssssort insertion_std_sort
      (fun _ => zero_fresh) () 0 [] [] capped_generator "capped" 2 (some [])
      11).stat_stream.map (fun l => l.map (fun r => (r.algo, r.size)))
      = some [("ssssort", 1024), ("stdsort", 1024)] := by
  refine ⟨by decide, by decide, by decide⟩

/-- The capped generator in `benchmark_generator` with `max_log_size = 12`: every
step records its requested size. -/
theorem unconditional_sweep_records_requested_size_witness :
    (benchmark_generator unit_costs (fun x => x) insertion_ssssort insertion_std_sort
      (fun _ => zero_fresh) () 0 [] [] capped_generator "capped" 2 (some [])
      12).measured.all (fun p => decide (p.2.size = p.1)) = true :=
  List.all_eq_true.mpr (fun p hp => decide_eq_true
    ((unconditional_sweep_records_requested_size unit_costs (fun x : ℚ => x)
      insertion_ssssort insertion_std_sort (fun _ => zero_fresh) () 0 [] []
      capped_generator "capped" 2 (some []) 12 _ rfl).2 p hp).1)

/-- C17: a call of `benchmark` that returns has written exactly two records to
standard output, the candidate's (`algo=ssssort`) followed by the baseline's
(`algo=stdsort`, with `t_check=0` and `ok=1`), and has appended the same two
records to the stream if and only if one was supplied; a call that does not
return has written none. In both sweeps the warm-up is a call of `benchmark` at
requested size `1 << 10` with 10 iterations, the name `warmup` and no stream,
and the stream receives two records for each call of the loop that returned
and none for the warm-up. -/
theorem benchmark_writes_two_records (c : Costs τ) (sqrt : τ → τ)
    (ssssort : Sorter σ T τ) (std_sort : InPlaceSorter σ T τ) (fresh : Fresh T)
    (freshes : Nat → Fresh T)
    (env : σ) (clock : τ) (cout : List (Record τ)) (cerr : List (ErrLine T))
    (size iterations : Nat) (generator : Generator σ T τ) (name : String)
    (stat_stream : Option (List (Record τ))) (max_log_size : Nat)
    (B : BenchResult σ T τ) (S1 S2 : SweepResult σ T τ)
    (hB : B = benchmark c sqrt ssssort std_sort fresh env clock cout cerr size iterations
      generator name stat_stream)
    (hS1 : S1 = benchmark_generator c sqrt ssssort std_sort freshes env clock cout cerr
      generator name iterations stat_stream max_log_size)
    (hS2 : S2 = sized_benchmark_generator c sqrt ssssort std_sort freshes env clock cout
      cerr generator name iterations stat_stream max_log_size) :
    ((B.ret = none ∧ B.cout = cout ∧ B.stat_stream = stat_stream) ∨
      ∃ r1 r2 : Record τ,
        B.ret = some B.size ∧ B.cout = cout ++ [r1, r2] ∧
        B.stat_stream = stat_stream.map (fun f => f ++ [r1, r2]) ∧
        r1.algo = "ssssort" ∧ r2.algo = "stdsort" ∧ r2.t_check = 0 ∧ r2.ok = true) ∧
    (B.stat_stream = none ↔ stat_stream = none) ∧
    S1.warmup = benchmark c sqrt ssssort std_sort (freshes 0) env clock cout cerr (1 <<< 10)
      10 (wrapped_generator generator) "warmup" none ∧
    sweep_writes S1 cout stat_stream name ∧
    S2.warmup = benchmark c sqrt ssssort std_sort (freshes 0) env clock cout cerr (1 <<< 10)
      10 generator "warmup" none ∧
    sweep_writes S2 cout stat_stream name := by
  rw [benchmark_generator_unfold] at hS1
  rw [sized_benchmark_generator_unfold] at hS2
  obtain ⟨hw1, hwu1⟩ := sweep_loop_writes c sqrt ssssort std_sort freshes
    (fun ret _ => unconditional_step ret) env clock cout cerr (wrapped_generator generator)
    name iterations stat_stream (max_log_size - 10)
  obtain ⟨hw2, hwu2⟩ := sweep_loop_writes c sqrt ssssort std_sort freshes sized_step
    env clock cout cerr generator name iterations stat_stream (max_log_size - 10)
  rw [← hS1] at hw1 hwu1
  rw [← hS2] at hw2 hwu2
  refine ⟨?_, ?_, hwu1, hw1, hwu2, hw2⟩
  · by_cases hsize : size ≤ PTRDIFF_MAX
    · have hB2 := hB
      rw [benchmark_of_le _ _ _ _ _ _ _ _ _ _ _ _ _ _ hsize] at hB2
      rcases benchmark_outcome c sqrt ssssort std_sort fresh env clock cout cerr size
          iterations generator name stat_stream B hB2 with
        ⟨-, hr, hc, hss⟩ | ⟨-, a, b, -, -, hr, hc, hss⟩
      · exact Or.inl ⟨hr, hc, hss⟩
      · exact Or.inr ⟨_, _, hr, hc, hss, rfl, rfl, rfl, rfl⟩
    · have hB2 := hB
      rw [benchmark_of_gt _ _ _ _ _ _ _ _ _ _ _ _ _ _ hsize] at hB2
      rw [hB2]
      exact Or.inl ⟨rfl, rfl, rfl⟩
  · obtain ⟨recs, -, hss, -⟩ := benchmark_written c sqrt ssssort std_sort fresh env clock
      cout cerr size iterations generator name stat_stream B hB
    rw [hss]
    cases stat_stream <;> simp

/-- The capped generator with two iterations: the call of `benchmark` at size 3
appends two records to the stream, the unconditional sweep with
`max_log_size = 12` four, the capped sweep two. -/
theorem benchmark_writes_two_records_witness :
    (benchmark unit_costs (fun x => x) insertion_ssssort insertion_std_sort zero_fresh ()
      0 [] [] 3 2 capped_generator "capped" (some [])).stat_stream.map
        (fun l => l.map (fun r => (r.algo, r.name)))
      = some [("ssssort", "capped"), ("stdsort", "capped")] ∧
    (benchmark_generator unit_costs (fun x => x) insertion_ssssort insertion_std_sort
      (fun _ => zero_fresh) () 0 [] [] capped_generator "capped" 2 (some [])
      12).stat_stream.map (fun l => l.map (fun r => (r.algo, r.name)))
      = some [("ssssort", "capped"), ("stdsort", "capped"), ("ssssort", "capped"),
          ("stdsort", "capped")] ∧
    sweep_writes
      (benchmark_generator unit_costs (fun x => x) insertion_ssssort insertion_std_sort
        (fun _ => zero_fresh) () 0 [] [] capped_generator "capped" 2 (some []) 12)
      [] (some []) "capped" ∧
    sweep_writes
      (sized_benchmark_generator unit_costs (fun x => x) insertion_ssssort
        insertion_std_sort (fun _ => zero_fresh) () 0 [] [] capped_generator "capped" 2
        (some []) 12)
      [] (some []) "capped" := by
  have h := benchmark_writes_two_records unit_costs (fun x : ℚ => x) insertion_ssssort
    insertion_std_sort zero_fresh (fun _ => zero_fresh) () 0 [] [] 3 2 capped_generator
    "capped" (some []) 12 _ _ _ rfl rfl rfl
  exact ⟨by decide, by decide, h.2.2.2.1, h.2.2.2.2.2⟩

/-- C20, as amended: in a call of `benchmark` whose three arrays were
allocated, `benchmark` is stopped by the `assert(count > 1)` of `stddev` if and
only if the resolved iteration count is 0 or 1. When it is stopped both runs
have made all their calls and the verification has set `incorrect` and written
to `std::cerr`, and nothing has been written to standard output or to the
stream. The sentinel resolves to at least 50, so a stopped call was passed its
count of 0 or 1 explicitly. A call in which `new T[size]` threw, as it does for
every size above `PTRDIFF_MAX`, has called no sorter, has pushed no sample and
has written nothing. The warm-up call of either sweep has its arrays allocated,
runs 10 iterations and returns. -/
theorem stddev_assert_stops_benchmark_iff (c : Costs τ) (sqrt : τ → τ)
    (ssssort : Sorter σ T τ) (std_sort : InPlaceSorter σ T τ) (fresh : Fresh T)
    (freshes : Nat → Fresh T)
    (env : σ) (clock : τ) (cout : List (Record τ)) (cerr : List (ErrLine T))
    (size iterations : Nat) (generator : Generator σ T τ) (name : String)
    (stat_stream : Option (List (Record τ))) (max_log_size : Nat)
    (B : BenchResult σ T τ) (S1 S2 : SweepResult σ T τ)
    (hB : B = benchmark c sqrt ssssort std_sort fresh env clock cout cerr size iterations
      generator name stat_stream)
    (hS1 : S1 = benchmark_generator c sqrt ssssort std_sort freshes env clock cout cerr
      generator name iterations stat_stream max_log_size)
    (hS2 : S2 = sized_benchmark_generator c sqrt ssssort std_sort freshes env clock cout
      cerr generator name iterations stat_stream max_log_size) :
    (B.thrown = false →
      B.iterations = number_of_iterations (generator env fresh.data size).size iterations ∧
      (B.ret = none ↔ B.iterations ≤ 1) ∧
      (B.ret = none ↔ B.ssssort_run.stats.stddev sqrt = none) ∧
      (calls B.ssssort_run.trace).length = B.iterations + 1 ∧
      (calls B.stdsort_run.trace).length = B.iterations + 1 ∧
      B.incorrect = (verify B.stdsort_run.out B.stdsort_run.data B.size cerr).1 ∧
      B.cerr = (verify B.stdsort_run.out B.stdsort_run.data B.size cerr).2 ∧
      (iterations = SIZE_MAX → 50 ≤ B.iterations ∧ B.ret ≠ none) ∧
      (B.ret = none → iterations = B.iterations ∧ iterations ≤ 1)) ∧
    (B.ret = none → B.cout = cout ∧ B.stat_stream = stat_stream) ∧
    (B.thrown = true →
      B.ret = none ∧ calls B.ssssort_run.trace = [] ∧ calls B.stdsort_run.trace = [] ∧
      B.ssssort_run.stats.count = 0 ∧ B.stdsort_run.stats.count = 0 ∧ B.cerr = cerr) ∧
    (B.thrown = true ↔ PTRDIFF_MAX < size) ∧
    S1.warmup.thrown = false ∧ S1.warmup.iterations = 10 ∧ S1.warmup.ret ≠ none ∧
    S2.warmup.thrown = false ∧ S2.warmup.iterations = 10 ∧ S2.warmup.ret ≠ none := by
  rw [benchmark_generator_unfold] at hS1
  rw [sized_benchmark_generator_unfold] at hS2
  obtain ⟨⟨-, hi1, hr1, -⟩, hw1⟩ := sweep_loop_writes c sqrt ssssort std_sort freshes
    (fun ret _ => unconditional_step ret) env clock cout cerr (wrapped_generator generator)
    name iterations stat_stream (max_log_size - 10)
  obtain ⟨⟨-, hi2, hr2, -⟩, hw2⟩ := sweep_loop_writes c sqrt ssssort std_sort freshes
    sized_step env clock cout cerr generator name iterations stat_stream (max_log_size - 10)
  rw [← hS1] at hi1 hr1 hw1
  rw [← hS2] at hi2 hr2 hw2
  have ht1 : S1.warmup.thrown = false := by
    rw [hw1]
    exact (benchmark_thrown_iff _ _ _ _ _ _ _ _ _ _ _ _ _ _).2 (by decide)
  have ht2 : S2.warmup.thrown = false := by
    rw [hw2]
    exact (benchmark_thrown_iff _ _ _ _ _ _ _ _ _ _ _ _ _ _).2 (by decide)
  have hth := benchmark_thrown_iff c sqrt ssssort std_sort fresh env clock cout cerr size
    iterations generator name stat_stream
  rw [← hB] at hth
  refine ⟨?_, ?_, ?_, ?_, ht1, hi1, hr1, ht2, hi2, hr2⟩
  · intro hfalse
    have hsize := hth.1 hfalse
    rw [benchmark_of_le _ _ _ _ _ _ _ _ _ _ _ _ _ _ hsize] at hB
    obtain ⟨hsz, hits, hst, -, hc1, hc2, -⟩ :=
      benchmark_runs c sqrt ssssort std_sort fresh env clock cout cerr size iterations
        generator name stat_stream B hB
    have hinc := benchmark_incorrect c sqrt ssssort std_sort fresh env clock cout cerr size
      iterations generator name stat_stream
    have hcerr := benchmark_cerr c sqrt ssssort std_sort fresh env clock cout cerr size
      iterations generator name stat_stream
    rw [← hB, ← hsz] at hinc hcerr
    have hcount : B.ssssort_run.stats.count = B.iterations := by
      have := benchmark_ssssort_run c sqrt ssssort std_sort fresh env clock cout cerr size
        iterations generator name stat_stream
      rw [← hB] at this
      rw [this, run_stats_count, hits]
    have hiff : B.ret = none ↔ B.iterations ≤ 1 := by
      rcases benchmark_outcome c sqrt ssssort std_sort fresh env clock cout cerr size
          iterations generator name stat_stream B hB with
        ⟨hle, hr, -, -⟩ | ⟨hge, a, b, -, -, hr, -, -⟩
      · exact ⟨fun _ => hle, fun _ => hr⟩
      · refine ⟨fun h => ?_, fun h => ?_⟩
        · rw [hr] at h
          exact Option.noConfusion h
        · omega
    refine ⟨hits, hiff, ?_, hc1, hc2, hinc, hcerr, ?_, ?_⟩
    · rw [hiff, stddev_eq_none_iff, hcount]
    · intro hsent
      have h50 : 50 ≤ B.iterations := by
        rw [hits, hsent]
        exact number_of_iterations_sentinel _
      refine ⟨h50, fun hnone => ?_⟩
      have := hiff.1 hnone
      omega
    · intro hnone
      have hle := hiff.1 hnone
      have hne : iterations ≠ SIZE_MAX := by
        intro hsent
        rw [hits, hsent] at hle
        have := number_of_iterations_sentinel (generator env fresh.data size).size
        omega
      rw [hits, number_of_iterations_explicit _ _ hne] at hle
      rw [hits, number_of_iterations_explicit _ _ hne]
      exact ⟨rfl, hle⟩
  · intro hnone
    obtain ⟨recs, hc, hss, hl, -⟩ := benchmark_written c sqrt ssssort std_sort fresh env
      clock cout cerr size iterations generator name stat_stream B hB
    have hnil : recs = [] := by
      apply List.eq_nil_of_length_eq_zero
      rw [hl]
      simp [hnone]
    rw [hc, hss, hnil]
    refine ⟨by simp, ?_⟩
    cases stat_stream <;> simp
  · intro htrue
    have hsize : ¬ size ≤ PTRDIFF_MAX := by
      intro hle
      rw [hth.2 hle] at htrue
      exact Bool.noConfusion htrue
    rw [benchmark_of_gt _ _ _ _ _ _ _ _ _ _ _ _ _ _ hsize] at hB
    rw [hB]
    exact ⟨rfl, rfl, rfl, rfl, rfl, rfl⟩
  · rw [← not_le, ← hth]
    cases B.thrown <;> simp

/-- With one iteration, a call of `benchmark` at size `2^64 - 2^31`, the size
the sweeps request at `log_size = 31`, is not stopped by the `assert` of
`stddev`: `new` threw, no sorter was called and no sample was pushed. The count
passed was 1, and the policy leaves it at 1 for any element count. -/
theorem allocation_failure_precedes_stddev_assert :
    shift_one 31 = some (2 ^ 64 - 2 ^ 31) ∧
    number_of_iterations (2 ^ 64 - 2 ^ 31) 1 = 1 ∧
    number_of_iterations 0 1 = 1 ∧
    (benchmark unit_costs (fun x => x) insertion_ssssort insertion_std_sort zero_fresh ()
      0 [] [] (2 ^ 64 - 2 ^ 31) 1 descending_generator "descending" (some [])).thrown
      = true ∧
    (calls (benchmark unit_costs (fun x => x) insertion_ssssort insertion_std_sort
      zero_fresh () 0 [] [] (2 ^ 64 - 2 ^ 31) 1 descending_generator "descending"
      (some [])).ssssort_run.trace).length = 0 ∧
    (calls (benchmark unit_costs (fun x => x) insertion_ssssort insertion_std_sort
      zero_fresh () 0 [] [] (2 ^ 64 - 2 ^ 31) 1 descending_generator "descending"
      (some [])).stdsort_run.trace).length = 0 ∧
    (benchmark unit_costs (fun x => x) insertion_ssssort insertion_std_sort zero_fresh ()
      0 [] [] (2 ^ 64 - 2 ^ 31) 1 descending_generator "descending"
      (some [])).ssssort_run.stats.count = 0 ∧
    (benchmark unit_costs (fun x => x) insertion_ssssort insertion_std_sort zero_fresh ()
      0 [] [] (2 ^ 64 - 2 ^ 31) 1 descending_generator "descending" (some [])).ret
      = none := by
  refine ⟨by decide, by decide, by decide, by decide, by decide, by decide, by decide,
    by decide⟩

/-- A call of `benchmark` with one iteration at size 3 has its arrays allocated
and is stopped having written nothing, and the warm-up of a sweep with one
iteration still returns. -/
theorem stddev_assert_stops_benchmark_iff_witness :
    (benchmark unit_costs (fun x => x) insertion_ssssort insertion_std_sort zero_fresh ()
      0 [] [] 3 1 descending_generator "descending" (some [])).thrown = false ∧
    (benchmark unit_costs (fun x => x) insertion_ssssort insertion_std_sort zero_fresh ()
      0 [] [] 3 1 descending_generator "descending" (some [])).ret = none ∧
    (benchmark unit_costs (fun x => x) insertion_ssssort insertion_std_sort zero_fresh ()
      0 [] [] 3 1 descending_generator "descending" (some [])).iterations ≤ 1 ∧
    (calls (benchmark unit_costs (fun x => x) insertion_ssssort insertion_std_sort
      zero_fresh () 0 [] [] 3 1 descending_generator "descending"
      (some [])).ssssort_run.trace).length = 2 ∧
    (benchmark unit_costs (fun x => x) insertion_ssssort insertion_std_sort zero_fresh ()
      0 [] [] 3 1 descending_generator "descending" (some [])).stat_stream = some [] ∧
    (sized_benchmark_generator unit_costs (fun x => x) insertion_ssssort insertion_std_sort
      (fun _ => zero_fresh) () 0 [] [] descending_generator "descending" 1 (some [])
      12).warmup.ret ≠ none := by
  have h := stddev_assert_stops_benchmark_iff unit_costs (fun x : ℚ => x) insertion_ssssort
    insertion_std_sort zero_fresh (fun _ => zero_fresh) () 0 [] [] 3 1 descending_generator
    "descending" (some []) 12 _ _ _ rfl rfl rfl
  have hth : (benchmark unit_costs (fun x : ℚ => x) insertion_ssssort insertion_std_sort
      zero_fresh () 0 [] [] 3 1 descending_generator "descending" (some [])).thrown
      = false := by
    decide
  have hnone : (benchmark unit_costs (fun x => x) insertion_ssssort insertion_std_sort
      zero_fresh () 0 [] [] 3 1 descending_generator "descending" (some [])).ret = none := by
    decide
  obtain ⟨-, hiff, -, hlen, -, -, -, -, hexp⟩ := h.1 hth
  rw [(hexp hnone).1.symm] at hlen
  exact ⟨hth, hnone, hiff.1 hnone, hlen, (h.2.1 hnone).2, h.2.2.2.2.2.2.2.2.2⟩

end SweepClaims

end Benchmark
